import Mathlib

/-!
# Federated-learning aggregation chaincode (`contract/project_contract.go`)

A shallow embedding of the round-scoped aggregation coordinator: the staging
map `localParams.m`, `UploadParameter`, the barrier, the fallback
`usePreviousRoundParameters`, the numeric core (`initializeSumMatrices`,
`aggregateParameters`, `calculateAverage`) and `StartAggregation`.

Modelling conventions.
* `float64` is an abstract carrier `F` with `0`, `+`, `/` and the conversion
  `float64(count)` (`Nat.cast`); nothing is assumed about these operations, so
  every statement holds for IEEE 754 arithmetic in particular.
* A Go slice is a `List`; an out-of-range index is a run-time panic, modelled
  by `none` in the numeric core and by `Outcome.panic` in `StartAggregation`.
* The map `localParams.m` is a function from key strings to optional bundles;
  reading a missing key yields the zero value of `LSTMParameters`.
* Go's `int` is 64 bits wide: `round-1` wraps around (`prevRound`).
* The code is modelled sequentially: locks are no-ops and no upload interleaves
  with a running `StartAggregation`. The wall clock is part of the state, in
  seconds; `time.Sleep(CheckInterval)` advances it by ten seconds and nothing
  else takes time.
* `encoding/json` and the chaincode stub (`PutState`, `SetEvent`) are an
  environment `Stub` that says which calls fail; successful `PutState` writes
  and all `SetEvent` invocations are recorded in the state.
* Where rounding matters (C15) `float64` is instantiated by `F64`, a model of
  IEEE 754 binary64 with round to nearest, ties to even: normal and subnormal
  numbers, signed zeros, infinities and NaN.
-/

namespace FedLearn

/-! ## `strconv.Itoa` and staging keys -/

/-- The ASCII character of a decimal digit `d < 10`. -/
def digitChar (d : Nat) : Char := Char.ofNat (48 + d)

/-- Decimal digits of `n`, most significant first, prepended to `acc`; `fuel`
bounds the number of digits produced. -/
def toDigitsAux : Nat → Nat → List Char → List Char
  | 0, _, acc => acc
  | fuel + 1, n, acc =>
    if n < 10 then digitChar n :: acc
    else toDigitsAux fuel (n / 10) (digitChar (n % 10) :: acc)

/-- Decimal rendering of a natural number (`"0"` for zero). -/
def natDigits (n : Nat) : List Char := toDigitsAux (n + 1) n []

/-- Go `strconv.Itoa`: decimal rendering of an `int`, with a leading `-` for
negative values. -/
def Itoa (i : Int) : String :=
  match i with
  | Int.ofNat n => String.mk (natDigits n)
  | Int.negSucc n => String.mk ('-' :: natDigits (n + 1))

/-- The staging key `nodeId+"_"+strconv.Itoa(round)`. -/
def stagingKey (nodeId : String) (round : Int) : String :=
  nodeId ++ "_" ++ Itoa round

/-! ## Data model -/

/-- Go `LSTMParameters`: one node's contribution for one round. -/
structure LSTMParameters (F : Type) where
  NodeID : String
  Wi : List (List F)
  Wf : List (List F)
  Wo : List (List F)
  Wc : List (List F)
  Bi : List F
  Bf : List F
  Bo : List F
  Bc : List F
  Round : Int
deriving DecidableEq

/-- Go `AggregatedResult`. -/
structure AggregatedResult (F : Type) where
  NodeID : String
  Wi : List (List F)
  Wf : List (List F)
  Wo : List (List F)
  Wc : List (List F)
  Bi : List F
  Bf : List F
  Bo : List F
  Bc : List F
  Round : Int
deriving DecidableEq

/-- The map `localParams.m`. -/
abbrev ParamMap (F : Type) := String → Option (LSTMParameters F)

/-- The zero value of `LSTMParameters`, which Go returns for a missing key. -/
def zeroParams (F : Type) : LSTMParameters F :=
  { NodeID := "", Wi := [], Wf := [], Wo := [], Wc := [],
    Bi := [], Bf := [], Bo := [], Bc := [], Round := 0 }

/-- The map read `localParams.m[key]` (single-value form). -/
def mapGet {F : Type} (m : ParamMap F) (key : String) : LSTMParameters F :=
  (m key).getD (zeroParams F)

/-- The map write `localParams.m[key] = param`. -/
def mapSet {F : Type} (m : ParamMap F) (key : String) (param : LSTMParameters F) :
    ParamMap F :=
  fun k => if k = key then some param else m k

/-- The map deletion `delete(localParams.m, key)`. -/
def mapDelete {F : Type} (m : ParamMap F) (key : String) : ParamMap F :=
  fun k => if k = key then none else m k

/-! ## Loops and indexed updates -/

/-- The loop `for i := lo; i < lo + n; i++ { s = body(i, s) }` where the body
may panic. -/
def forRangeFrom {σ : Type} (body : Nat → σ → Option σ) : Nat → Nat → σ → Option σ
  | _, 0, s => some s
  | lo, n + 1, s =>
    match body lo s with
    | none => none
    | some s' => forRangeFrom body (lo + 1) n s'

/-- The loop `for i := range xs` over a slice of length `n`. -/
def forRange {σ : Type} (n : Nat) (body : Nat → σ → Option σ) (s : σ) : Option σ :=
  forRangeFrom body 0 n s

/-- The loop `for _, key := range keys { s = body(key, s) }` where the body may
panic. -/
def forKeys {σ : Type} (body : String → σ → Option σ) : List String → σ → Option σ
  | [], s => some s
  | key :: rest, s =>
    match body key s with
    | none => none
    | some s' => forKeys body rest s'

/-- The read `m[i][j]`; `none` is the index-out-of-range panic. -/
def get2 {F : Type} (m : List (List F)) (i j : Nat) : Option F :=
  match m[i]? with
  | none => none
  | some row => row[j]?

/-- The compound assignment `v[i] op= ...`, written `v[i] = f(v[i])`. -/
def updAt {F : Type} (v : List F) (i : Nat) (f : F → F) : Option (List F) :=
  match v[i]? with
  | none => none
  | some x => some (v.set i (f x))

/-- The compound assignment `m[i][j] op= ...`, written `m[i][j] = f(m[i][j])`. -/
def updAt2 {F : Type} (m : List (List F)) (i j : Nat) (f : F → F) :
    Option (List (List F)) :=
  match m[i]? with
  | none => none
  | some row =>
    match updAt row j f with
    | none => none
    | some row' => some (m.set i row')

/-! ## The numeric core -/

/-- The four weight accumulators returned by `initializeSumMatrices`. -/
structure SumMatrices (F : Type) where
  sumWi : List (List F)
  sumWf : List (List F)
  sumWo : List (List F)
  sumWc : List (List F)
deriving DecidableEq

/-- The eight accumulators of `aggregateParameters` and `calculateAverage`. -/
structure Sums (F : Type) where
  sumWi : List (List F)
  sumWf : List (List F)
  sumWo : List (List F)
  sumWc : List (List F)
  sumBi : List F
  sumBf : List F
  sumBo : List F
  sumBc : List F
deriving DecidableEq

/-- `make([]float64, n)`: a slice of `n` zeros. -/
def makeZeros {F : Type} [Zero F] (n : Nat) : List F := List.replicate n 0

/-- One iteration of the loop of `initializeSumMatrices`: row `i` of each
accumulator is sized from row `i` of the matching matrix of the first bundle. -/
def initRow {F : Type} [Zero F] (first : LSTMParameters F) (i : Nat)
    (s : SumMatrices F) : Option (SumMatrices F) :=
  match first.Wi[i]?, first.Wf[i]?, first.Wo[i]?, first.Wc[i]? with
  | some ri, some rf, some ro, some rc =>
    some { sumWi := s.sumWi ++ [makeZeros ri.length],
           sumWf := s.sumWf ++ [makeZeros rf.length],
           sumWo := s.sumWo ++ [makeZeros ro.length],
           sumWc := s.sumWc ++ [makeZeros rc.length] }
  | _, _, _, _ => none

/-- Go `initializeSumMatrices`. -/
def initializeSumMatrices {F : Type} [Zero F] (m : ParamMap F) (keys : List String)
    (round : Int) : Option (SumMatrices F) :=
  match keys[0]? with
  | none => none
  | some k0 =>
    let first := mapGet m (stagingKey k0 round)
    forRange first.Wi.length (initRow first)
      { sumWi := [], sumWf := [], sumWo := [], sumWc := [] }

/-- The body of the inner loop of `aggregateParameters` at `(i, j)`. -/
def addCell {F : Type} [Add F] (param : LSTMParameters F) (i j : Nat) (s : Sums F) :
    Option (Sums F) :=
  match get2 param.Wi i j, get2 param.Wf i j, get2 param.Wo i j, get2 param.Wc i j with
  | some xi, some xf, some xo, some xc =>
    match updAt2 s.sumWi i j (fun a => a + xi), updAt2 s.sumWf i j (fun a => a + xf),
          updAt2 s.sumWo i j (fun a => a + xo), updAt2 s.sumWc i j (fun a => a + xc) with
    | some wi, some wf, some wo, some wc =>
      some { s with sumWi := wi, sumWf := wf, sumWo := wo, sumWc := wc }
    | _, _, _, _ => none
  | _, _, _, _ => none

/-- The body of the bias loop of `aggregateParameters` at `i`. -/
def addBias {F : Type} [Add F] (param : LSTMParameters F) (i : Nat) (s : Sums F) :
    Option (Sums F) :=
  match param.Bi[i]?, param.Bf[i]?, param.Bo[i]?, param.Bc[i]? with
  | some xi, some xf, some xo, some xc =>
    match updAt s.sumBi i (fun a => a + xi), updAt s.sumBf i (fun a => a + xf),
          updAt s.sumBo i (fun a => a + xo), updAt s.sumBc i (fun a => a + xc) with
    | some bi, some bf, some bo, some bc =>
      some { s with sumBi := bi, sumBf := bf, sumBo := bo, sumBc := bc }
    | _, _, _, _ => none
  | _, _, _, _ => none

/-- The body of `for _, key := range keys` in `aggregateParameters`: the bundle
staged under `key` is added into the accumulators. -/
def addParam {F : Type} [Add F] (m : ParamMap F) (round : Int) (key : String)
    (s : Sums F) : Option (Sums F) :=
  let param := mapGet m (stagingKey key round)
  match forRange param.Wi.length
      (fun i s1 => forRange (param.Wi.getD i []).length (addCell param i) s1) s with
  | none => none
  | some s1 => forRange param.Bi.length (addBias param) s1

/-- Go `aggregateParameters`. -/
def aggregateParameters {F : Type} [Zero F] [Add F] (m : ParamMap F)
    (keys : List String) (round : Int) : Option (Sums F) :=
  match initializeSumMatrices m keys round with
  | none => none
  | some w =>
    match keys[0]? with
    | none => none
    | some k0 =>
      let first := mapGet m (stagingKey k0 round)
      forKeys (addParam m round) keys
        { sumWi := w.sumWi, sumWf := w.sumWf, sumWo := w.sumWo, sumWc := w.sumWc,
          sumBi := makeZeros first.Bi.length, sumBf := makeZeros first.Bf.length,
          sumBo := makeZeros first.Bo.length, sumBc := makeZeros first.Bc.length }

/-- The body of the inner loop of `calculateAverage` at `(i, j)`. -/
def divCell {F : Type} [Div F] [NatCast F] (count : Nat) (i j : Nat) (s : Sums F) :
    Option (Sums F) :=
  match updAt2 s.sumWi i j (fun a => a / (count : F)),
        updAt2 s.sumWf i j (fun a => a / (count : F)),
        updAt2 s.sumWo i j (fun a => a / (count : F)),
        updAt2 s.sumWc i j (fun a => a / (count : F)) with
  | some wi, some wf, some wo, some wc =>
    some { s with sumWi := wi, sumWf := wf, sumWo := wo, sumWc := wc }
  | _, _, _, _ => none

/-- The body of the bias loop of `calculateAverage` at `i`. -/
def divBias {F : Type} [Div F] [NatCast F] (count : Nat) (i : Nat) (s : Sums F) :
    Option (Sums F) :=
  match updAt s.sumBi i (fun a => a / (count : F)),
        updAt s.sumBf i (fun a => a / (count : F)),
        updAt s.sumBo i (fun a => a / (count : F)),
        updAt s.sumBc i (fun a => a / (count : F)) with
  | some bi, some bf, some bo, some bc =>
    some { s with sumBi := bi, sumBf := bf, sumBo := bo, sumBc := bc }
  | _, _, _, _ => none

/-- Go `calculateAverage`; the in-place update of the slices is returned as the
new accumulators. -/
def calculateAverage {F : Type} [Div F] [NatCast F] (s : Sums F) (count : Nat) :
    Option (Sums F) :=
  match forRange s.sumWi.length
      (fun i s1 => forRange (s1.sumWi.getD i []).length (divCell count i) s1) s with
  | none => none
  | some s1 => forRange s1.sumBi.length (divBias count) s1

/-! ## The contract: state, environment and entry points -/

/-- `AggregationTimeout`, in seconds. -/
def AggregationTimeout : Int := 60

/-- `CheckInterval`, in seconds. -/
def CheckInterval : Int := 10

/-- The participant list `keys` of `StartAggregation`. -/
def participantKeys : List String := ["soft", "web", "hard"]

/-- Wrap-around of Go's 64-bit `int`. -/
def wrapInt64 (x : Int) : Int := (x + 2 ^ 63) % 2 ^ 64 - 2 ^ 63

/-- The Go expression `round-1` on `int`. -/
def prevRound (round : Int) : Int := wrapInt64 (round - 1)

/-- The environment of an invocation: `encoding/json` and the chaincode stub.
`marshal` is `json.Marshal` (it fails on values JSON cannot represent);
`putStateErr key value` is the error that `PutState` returns, if any;
`setEventErr calls name payload` is the error that `SetEvent` returns, if any,
given the earlier `SetEvent` invocations of the transaction. -/
structure Stub (F : Type) where
  marshal : AggregatedResult F → Except String String
  putStateErr : String → String → Option String
  setEventErr : List (String × String) → String → String → Option String

/-- The state an invocation runs in: the staging map, the wall clock in seconds
since the epoch, the world state written through `PutState`, and the log of
`SetEvent` invocations (oldest first). -/
structure World (F : Type) where
  localParams : ParamMap F
  now : Int
  ledger : String → Option String
  eventCalls : List (String × String)

/-- What an invocation hands back: a payload with a nil error, an error, or a
run-time panic. -/
inductive Outcome where
  | ok (payload : String)
  | error (msg : String)
  | panic
deriving DecidableEq

/-- Go `UploadParameter`: the returned error is always nil (`none`). -/
def UploadParameter {F : Type} (w : World F) (nodeId : String)
    (wi wf wo wc : List (List F)) (bi bf bo bc : List F) (round : Int) :
    Option String × World F :=
  let param : LSTMParameters F :=
    { NodeID := nodeId, Wi := wi, Wf := wf, Wo := wo, Wc := wc,
      Bi := bi, Bf := bf, Bo := bo, Bc := bc, Round := round }
  (none, { w with localParams := mapSet w.localParams (stagingKey nodeId round) param })

/-- The counting loop of `areAllParametersSubmitted`. -/
def countSubmitted {F : Type} (m : ParamMap F) (round : Int) : List String → Nat → Nat
  | [], count => count
  | key :: rest, count =>
    if (m (stagingKey key round)).isSome then countSubmitted m round rest (count + 1)
    else countSubmitted m round rest count

/-- Go `areAllParametersSubmitted`. -/
def areAllParametersSubmitted {F : Type} (m : ParamMap F) (keys : List String)
    (round : Int) : Bool :=
  countSubmitted m round keys 0 == keys.length

/-- Go `usePreviousRoundParameters`: the returned error (`none` is nil) and the
staging map as the call leaves it. -/
def usePreviousRoundParameters {F : Type} (m : ParamMap F) :
    List String → Int → Option String × ParamMap F
  | [], _ => (none, m)
  | key :: rest, round =>
    match m (stagingKey key (prevRound round)) with
    | some prevParam =>
      usePreviousRoundParameters (mapSet m (stagingKey key round) prevParam) rest round
    | none => (some ("parameter for node " ++ key ++ " not found in previous round"), m)

/-- The polling loop at the head of `StartAggregation`; every `time.Sleep`
advances the clock by `CheckInterval`. The result is the clock when the loop is
left. -/
def barrierLoop {F : Type} (m : ParamMap F) (keys : List String) (round : Int)
    (startTime : Int) : Nat → Int → Int
  | 0, now => now
  | fuel + 1, now =>
    if now - startTime < AggregationTimeout then
      if areAllParametersSubmitted m keys round then now
      else barrierLoop m keys round startTime fuel (now + CheckInterval)
    else now

/-- The element `keys[i]` for a Go `int` index; `none` is the panic. -/
def indexKeys (keys : List String) (i : Int) : Option String :=
  if 0 ≤ i then keys[i.toNat]? else none

/-- Go `sendGlobalModelToNode`: the returned error and the state after it. -/
def sendGlobalModelToNode {F : Type} (stub : Stub F) (w : World F) (_nodeID : String)
    (result : AggregatedResult F) : Option String × World F :=
  match stub.marshal result with
  | Except.error e => (some e, w)
  | Except.ok resultAsBytes =>
    let w1 := { w with eventCalls := w.eventCalls ++ [("GlobalModelUpdate", resultAsBytes)] }
    match stub.setEventErr w.eventCalls "GlobalModelUpdate" resultAsBytes with
    | some e => (some e, w1)
    | none => (none, w1)

/-- The loop of `StartAggregation` that sends the result to every node; it
stops at the first failure with the error `StartAggregation` returns. -/
def sendToAll {F : Type} (stub : Stub F) (result : AggregatedResult F) :
    List String → World F → Option String × World F
  | [], w => (none, w)
  | key :: rest, w =>
    match sendGlobalModelToNode stub w key result with
    | (some e, w1) => (some ("failed to send global model to node " ++ key ++ ": " ++ e), w1)
    | (none, w1) => sendToAll stub result rest w1

/-- The loop of `StartAggregation` that deletes the staged bundles of the round. -/
def purgeRound {F : Type} (m : ParamMap F) (round : Int) : List String → ParamMap F
  | [] => m
  | key :: rest => purgeRound (mapDelete m (stagingKey key round)) round rest

/-- The polling loop of `StartAggregation` (source lines 185-191): only the
clock changes. Six sleeps of `CheckInterval` exhaust `AggregationTimeout`. -/
def barrierStage {F : Type} (w : World F) (round : Int) : World F :=
  let startTime := w.now
  { w with now := barrierLoop w.localParams participantKeys round startTime 6 startTime }

/-- The completeness check and the fallback of `StartAggregation` (source lines
193-200): the error of `usePreviousRoundParameters`, if it ran and failed, and
the state it leaves. -/
def fallbackStage {F : Type} (w : World F) (round : Int) : Option String × World F :=
  if !areAllParametersSubmitted w.localParams participantKeys round then
    let r := usePreviousRoundParameters w.localParams participantKeys round
    (r.1, { w with localParams := r.2 })
  else (none, w)

/-- Aggregation, averaging and leader selection of `StartAggregation` (source
lines 202-220); `none` is a run-time panic. -/
def aggregateStage {F : Type} [Zero F] [Add F] [Div F] [NatCast F]
    (w : World F) (round : Int) : Option (AggregatedResult F) :=
  let keys := participantKeys
  match aggregateParameters w.localParams keys round with
  | none => none
  | some sums =>
    match calculateAverage sums keys.length with
    | none => none
    | some avg =>
      let timestamp := w.now
      let selectedNodeIndex := Int.tmod timestamp (keys.length : Int)
      match indexKeys keys selectedNodeIndex with
      | none => none
      | some selectedNode =>
        some { NodeID := selectedNode, Wi := avg.sumWi, Wf := avg.sumWf, Wo := avg.sumWo,
               Wc := avg.sumWc, Bi := avg.sumBi, Bf := avg.sumBf, Bo := avg.sumBo,
               Bc := avg.sumBc, Round := round }

/-- The part of `StartAggregation` up to `json.Marshal` (source lines 183-224):
barrier, fallback, aggregation, averaging, leader selection and serialization.
`Sum.inl` is an early exit; `Sum.inr` carries the state, the result and its
serialization into the finalization. -/
def prepareAggregation {F : Type} [Zero F] [Add F] [Div F] [NatCast F]
    (stub : Stub F) (w : World F) (round : Int) :
    (Outcome × World F) ⊕ (World F × AggregatedResult F × String) :=
  match fallbackStage (barrierStage w round) round with
  | (some err, w2) => Sum.inl (Outcome.error err, w2)
  | (none, w2) =>
    match aggregateStage w2 round with
    | none => Sum.inl (Outcome.panic, w2)
    | some result =>
      match stub.marshal result with
      | Except.error e => Sum.inl (Outcome.error ("failed to marshal result: " ++ e), w2)
      | Except.ok resultAsBytes => Sum.inr (w2, result, resultAsBytes)

/-- The part of `StartAggregation` from `PutState` on (source lines 225-245):
persist, send the events, purge the round. -/
def finalizeAggregation {F : Type} (stub : Stub F) (w : World F) (round : Int)
    (result : AggregatedResult F) (resultAsBytes : String) : Outcome × World F :=
  let keys := participantKeys
  let stateKey := "RESULT_Aggregated_" ++ Itoa round
  match stub.putStateErr stateKey resultAsBytes with
  | some e => (Outcome.error ("failed to put state: " ++ e), w)
  | none =>
    let w3 := { w with
      ledger := fun k => if k = stateKey then some resultAsBytes else w.ledger k }
    match sendToAll stub result keys w3 with
    | (some e, w4) => (Outcome.error e, w4)
    | (none, w4) =>
      (Outcome.ok resultAsBytes,
        { w4 with localParams := purgeRound w4.localParams round keys })

/-- Go `StartAggregation`. -/
def StartAggregation {F : Type} [Zero F] [Add F] [Div F] [NatCast F]
    (stub : Stub F) (w : World F) (round : Int) : Outcome × World F :=
  match prepareAggregation stub w round with
  | Sum.inl early => early
  | Sum.inr (w2, result, resultAsBytes) =>
    finalizeAggregation stub w2 round result resultAsBytes

/-- Go `CheckWorking`. -/
def CheckWorking : String := "chaincode is working"

/-! ## Predicates used in the statements and proofs -/

/-- The matrix `m` has `R` rows of length `C` and holds `f i j` at `(i, j)`. -/
def MatIs {F : Type} (m : List (List F)) (R C : Nat) (f : Nat → Nat → F) : Prop :=
  m.length = R ∧
    ∀ i, i < R → ∃ row, m[i]? = some row ∧ row.length = C ∧ ∀ j, j < C → row[j]? = some (f i j)

/-- The vector `v` has length `L` and holds `f i` at `i`. -/
def VecIs {F : Type} (v : List F) (L : Nat) (f : Nat → F) : Prop :=
  v.length = L ∧ ∀ i, i < L → v[i]? = some (f i)

/-- The function `f` with the value at `(i, j)` replaced by `x`. -/
def upd2 {F : Type} (f : Nat → Nat → F) (i j : Nat) (x : F) : Nat → Nat → F :=
  fun a b => if a = i ∧ b = j then x else f a b

/-- The function `f` with the value at `i` replaced by `x`. -/
def upd1 {F : Type} (f : Nat → F) (i : Nat) (x : F) : Nat → F :=
  fun a => if a = i then x else f a

/-- The four weight accumulators, indexed in the order `Wi, Wf, Wo, Wc`. -/
def Sums.mat {F : Type} (s : Sums F) (q : Fin 4) : List (List F) :=
  ![s.sumWi, s.sumWf, s.sumWo, s.sumWc] q

/-- The four bias accumulators, indexed in the order `bi, bf, bo, bc`. -/
def Sums.vec {F : Type} (s : Sums F) (q : Fin 4) : List F :=
  ![s.sumBi, s.sumBf, s.sumBo, s.sumBc] q

/-- The four weight matrices of a bundle, in the order `Wi, Wf, Wo, Wc`. -/
def LSTMParameters.mat {F : Type} (p : LSTMParameters F) (q : Fin 4) : List (List F) :=
  ![p.Wi, p.Wf, p.Wo, p.Wc] q

/-- The four bias vectors of a bundle, in the order `bi, bf, bo, bc`. -/
def LSTMParameters.vec {F : Type} (p : LSTMParameters F) (q : Fin 4) : List F :=
  ![p.Bi, p.Bf, p.Bo, p.Bc] q

/-- Whether cell `(a, b)` has been visited when a row-major double loop stands
at row `i`, column `k`. -/
def doneCell (i k a b : Nat) : Bool := decide (a < i ∨ (a = i ∧ b < k))

/-- The entries of a matrix part-way through a loop: `op` applied where `d`
holds, the initial entry elsewhere. -/
def mixed2 {F : Type} (d : Nat → Nat → Bool) (op : Nat → Nat → F → F) (f : Nat → Nat → F) :
    Nat → Nat → F :=
  fun a b => if d a b then op a b (f a b) else f a b

/-- The entries of a vector part-way through a loop over its first `k` cells. -/
def mixed1 {F : Type} (k : Nat) (op : Nat → F → F) (f : Nat → F) : Nat → F :=
  fun a => if a < k then op a (f a) else f a

/-- The matrix `m` has `R` rows, each of length `C`. -/
def hasShape {F : Type} (m : List (List F)) (R C : Nat) : Prop :=
  m.length = R ∧ ∀ row ∈ m, row.length = C

instance {F : Type} (m : List (List F)) (R C : Nat) : Decidable (hasShape m R C) := by
  unfold hasShape; infer_instance

/-- The bundle's four weight matrices have shape `[R][C]` and its four bias
vectors have length `L`. -/
def WellShaped {F : Type} (p : LSTMParameters F) (R C L : Nat) : Prop :=
  hasShape p.Wi R C ∧ hasShape p.Wf R C ∧ hasShape p.Wo R C ∧ hasShape p.Wc R C ∧
    p.Bi.length = L ∧ p.Bf.length = L ∧ p.Bo.length = L ∧ p.Bc.length = L

instance {F : Type} (p : LSTMParameters F) (R C L : Nat) : Decidable (WellShaped p R C L) := by
  unfold WellShaped; infer_instance

/-- The entry `m[i][j]`, with `0` outside the matrix. -/
def entry2 {F : Type} [Zero F] (m : List (List F)) (i j : Nat) : F := (get2 m i j).getD 0

/-- The entry `v[i]`, with `0` outside the vector. -/
def entry1 {F : Type} [Zero F] (v : List F) (i : Nat) : F := v.getD i 0

/-- Every in-range entry of the matrix `res` is `(((0 + a) + b) + c) / 3` for
the entries `a`, `b`, `c` of the three matrices at the same place. -/
def MatMeanOf3 {F : Type} [Zero F] [Add F] [Div F] [NatCast F]
    (res m1 m2 m3 : List (List F)) (R C : Nat) : Prop :=
  ∀ i j, i < R → j < C → ∃ x y z,
    get2 m1 i j = some x ∧ get2 m2 i j = some y ∧ get2 m3 i j = some z ∧
      get2 res i j = some ((((0 + x) + y) + z) / ((3 : Nat) : F))

/-- Every in-range entry of the vector `res` is `(((0 + a) + b) + c) / 3` for
the entries `a`, `b`, `c` of the three vectors at the same place. -/
def VecMeanOf3 {F : Type} [Zero F] [Add F] [Div F] [NatCast F]
    (res v1 v2 v3 : List F) (L : Nat) : Prop :=
  ∀ i, i < L → ∃ x y z,
    v1[i]? = some x ∧ v2[i]? = some y ∧ v3[i]? = some z ∧
      res[i]? = some ((((0 + x) + y) + z) / ((3 : Nat) : F))

/-- A staging map holding three bundles of integers for round 1. -/
def exampleBundle (nodeId : String) (x : Int) : LSTMParameters Int :=
  { NodeID := nodeId, Wi := [[x, 2], [3, 4]], Wf := [[5, 6], [7, x]],
    Wo := [[9, 10], [x, 12]], Wc := [[13, x], [15, 16]],
    Bi := [x, 2], Bf := [3, x], Bo := [5, 6], Bc := [7, 8], Round := 1 }

/-- A staging map in which `soft`, `web` and `hard` have staged bundles of the
same shape for round 1. -/
def exampleMap : ParamMap Int :=
  mapSet (mapSet (mapSet (fun _ => none)
    (stagingKey "soft" 1) (exampleBundle "soft" 1))
    (stagingKey "web" 1) (exampleBundle "web" 20))
    (stagingKey "hard" 1) (exampleBundle "hard" 300)

/-- The number read back from decimal digits, continuing from `v`. -/
def digitsValue (v : Nat) (cs : List Char) : Nat :=
  cs.foldl (fun acc c => 10 * acc + (c.toNat - 48)) v

/-- The character is one of `0` to `9`. -/
def IsDecDigit (c : Char) : Prop := 48 ≤ c.toNat ∧ c.toNat ≤ 57

/-! ## Example states and auxiliary definitions -/

/-- The staging map as the completeness check and the fallback leave it. -/
def fallbackMap {F : Type} (w : World F) (round : Int) : ParamMap F :=
  (fallbackStage (barrierStage w round) round).2.localParams

/-- Decimal rendering of a list of integers, separated by commas. -/
def renderInts (xs : List Int) : String := String.intercalate "," (xs.map Itoa)

/-- A serialization of integer results used in the examples: the leader, the
round and the entries of the eight tensors. -/
def renderResult (res : AggregatedResult Int) : String :=
  res.NodeID ++ "@" ++ Itoa res.Round ++ ":" ++
    renderInts (res.Wi.flatten ++ res.Wf.flatten ++ res.Wo.flatten ++ res.Wc.flatten ++
      res.Bi ++ res.Bf ++ res.Bo ++ res.Bc)

/-- An environment in which nothing fails. -/
def exampleStub : Stub Int :=
  { marshal := fun res => Except.ok (renderResult res),
    putStateErr := fun _ _ => none,
    setEventErr := fun _ _ _ => none }

/-- A fresh contract: nothing staged, nothing persisted, no event sent. -/
def emptyWorld : World Int :=
  { localParams := fun _ => none, now := 1700000000, ledger := fun _ => none, eventCalls := [] }

/-- The state after `UploadParameter` of the tensors of `b` by `nodeId` for
`round`. -/
def stage {F : Type} (w : World F) (nodeId : String) (round : Int) (b : LSTMParameters F) :
    World F :=
  (UploadParameter w nodeId b.Wi b.Wf b.Wo b.Wc b.Bi b.Bf b.Bo b.Bc round).2

/-- The three participants have uploaded same-shape bundles for round 1. -/
def completeWorld : World Int :=
  stage (stage (stage emptyWorld "soft" 1 (exampleBundle "soft" 1))
    "web" 1 (exampleBundle "web" 20)) "hard" 1 (exampleBundle "hard" 300)

/-- As `completeWorld`, after an upload for round 1 by `edge`, which is not a
participant. -/
def strangerWorld : World Int :=
  stage (stage (stage (stage emptyWorld "edge" 1 (exampleBundle "edge" 7))
    "soft" 1 (exampleBundle "soft" 1)) "web" 1 (exampleBundle "web" 20))
    "hard" 1 (exampleBundle "hard" 300)

/-- The first participant, in the order of `keys`, that has no bundle staged
for the round before `round`. -/
def firstWithoutPrevious {F : Type} (m : ParamMap F) (round : Int) (keys : List String) :
    Option String :=
  keys.find? (fun p => (m (stagingKey p (prevRound round))).isNone)

/-- The environment never fails: every result serializes, every `PutState` and
every `SetEvent` succeeds. -/
def Reliable {F : Type} (stub : Stub F) : Prop :=
  (∀ res, ∃ bytes, stub.marshal res = Except.ok bytes) ∧
  (∀ key value, stub.putStateErr key value = none) ∧
  (∀ calls name payload, stub.setEventErr calls name payload = none)

/-- The round-1 uploads of `soft` and `web` arrive after all three participants
uploaded for round 0; `hard` has not uploaded for round 1. -/
def lateHardWorld : World Int :=
  stage (stage (stage (stage (stage emptyWorld
    "soft" 0 (exampleBundle "soft" 1)) "web" 0 (exampleBundle "web" 20))
    "hard" 0 (exampleBundle "hard" 300))
    "soft" 1 (exampleBundle "soft" 1000)) "web" 1 (exampleBundle "web" 2000)

/-- Only `soft` and `web` have uploaded, for round 1; nothing is staged for
round 0. -/
def noPreviousWorld : World Int :=
  stage (stage emptyWorld "soft" 1 (exampleBundle "soft" 1)) "web" 1 (exampleBundle "web" 20)

/-- All three participants have uploaded for round 0. -/
def roundZeroWorld : World Int :=
  stage (stage (stage emptyWorld "soft" 0 (exampleBundle "soft" 1))
    "web" 0 (exampleBundle "web" 20)) "hard" 0 (exampleBundle "hard" 300)

/-- Round 0 has been aggregated from `roundZeroWorld`; then `soft` and `web`
upload for round 1. -/
def afterRoundZeroWorld : World Int :=
  stage (stage (StartAggregation exampleStub roundZeroWorld 0).2
    "soft" 1 (exampleBundle "soft" 1000)) "web" 1 (exampleBundle "web" 2000)

/-- An environment whose `PutState` always fails. -/
def failingPutStub : Stub Int :=
  { exampleStub with putStateErr := fun _ _ => some "ledger unavailable" }

/-- All three participants have uploaded for round 1; the tensors of `web` have
shape `[2][3]`, those of `soft` and `hard` have shape `[2][2]`. -/
def widerWebWorld : World Int :=
  stage (stage (stage emptyWorld "soft" 1 (exampleBundle "soft" 1))
    "web" 1
      { NodeID := "web", Wi := [[1, 2, 3], [4, 5, 6]], Wf := [[1, 2, 3], [4, 5, 6]],
        Wo := [[1, 2, 3], [4, 5, 6]], Wc := [[1, 2, 3], [4, 5, 6]],
        Bi := [1, 2], Bf := [1, 2], Bo := [1, 2], Bc := [1, 2], Round := 1 })
    "hard" 1 (exampleBundle "hard" 300)

/-- All three participants have uploaded for round 1; the tensors of `soft` have
shape `[2][3]`, those of `web` and `hard` have shape `[2][2]`. -/
def widerSoftWorld : World Int :=
  stage (stage (stage emptyWorld "soft" 1
      { NodeID := "soft", Wi := [[1, 2, 3], [4, 5, 6]], Wf := [[1, 2, 3], [4, 5, 6]],
        Wo := [[1, 2, 3], [4, 5, 6]], Wc := [[1, 2, 3], [4, 5, 6]],
        Bi := [1, 2], Bf := [1, 2], Bo := [1, 2], Bc := [1, 2], Round := 1 })
    "web" 1 (exampleBundle "web" 20)) "hard" 1 (exampleBundle "hard" 300)

/-- The event that `sendGlobalModelToNode` hands to `SetEvent`. -/
def updateEvent (payload : String) : String × String := ("GlobalModelUpdate", payload)

/-- The world-state key under which `StartAggregation` persists the result. -/
def resultKey (round : Int) : String := "RESULT_Aggregated_" ++ Itoa round

/-- The state after a successful `PutState` of `payload` under the result key. -/
def persisted {F : Type} (w : World F) (round : Int) (payload : String) : World F :=
  { w with ledger := fun k => if k = resultKey round then some payload else w.ledger k }

/-- The state after `n` further `SetEvent` invocations with `payload`. -/
def withEvents {F : Type} (w : World F) (n : Nat) (payload : String) : World F :=
  { w with eventCalls := w.eventCalls ++ List.replicate n (updateEvent payload) }

/-- An environment whose second `SetEvent` of a transaction fails. -/
def failingEventStub : Stub Int :=
  { exampleStub with
    setEventErr := fun calls _ _ => if calls.length = 1 then some "event rejected" else none }

/-- All three participants have staged a bundle under round -1; nothing is
staged for round 0. -/
def coldStartWorld : World Int :=
  stage (stage (stage emptyWorld "soft" (-1) (exampleBundle "soft" 1))
    "web" (-1) (exampleBundle "web" 20)) "hard" (-1) (exampleBundle "hard" 300)

/-- The participants that precede, in the order of `keys`, the first one
without a bundle for the round before `round`. -/
def withPreviousPrefix {F : Type} (m : ParamMap F) (round : Int) (keys : List String) :
    List String :=
  keys.takeWhile (fun q => (m (stagingKey q (prevRound round))).isSome)

/-- For round 1, `soft` has uploaded for rounds 0 and 1 and `web` for round 1
only; `hard` has uploaded nothing. -/
def halfPreviousWorld : World Int :=
  stage (stage (stage emptyWorld "soft" 0 (exampleBundle "soft" 1))
    "soft" 1 (exampleBundle "soft" 1000)) "web" 1 (exampleBundle "web" 2000)

/-- The row lengths of a matrix: its shape, also when it is ragged. -/
def rowLens {F : Type} (m : List (List F)) : List Nat := m.map List.length

/-- The shapes of the eight accumulators: the row lengths of `sumWi`, `sumWf`,
`sumWo`, `sumWc` and the lengths of `sumBi`, `sumBf`, `sumBo`, `sumBc`. -/
def Sums.shape {F : Type} (s : Sums F) : List (List Nat) × List Nat :=
  ([rowLens s.sumWi, rowLens s.sumWf, rowLens s.sumWo, rowLens s.sumWc],
    [s.sumBi.length, s.sumBf.length, s.sumBo.length, s.sumBc.length])

/-- The four weight matrices of the bundle have row lengths `sh` (they may be
ragged) and its four bias vectors have length `L`. -/
def SameShaped {F : Type} (p : LSTMParameters F) (sh : List Nat) (L : Nat) : Prop :=
  rowLens p.Wi = sh ∧ rowLens p.Wf = sh ∧ rowLens p.Wo = sh ∧ rowLens p.Wc = sh ∧
    p.Bi.length = L ∧ p.Bf.length = L ∧ p.Bo.length = L ∧ p.Bc.length = L

instance {F : Type} (p : LSTMParameters F) (sh : List Nat) (L : Nat) :
    Decidable (SameShaped p sh L) := by
  unfold SameShaped; infer_instance

/-- A ragged bundle: row 0 of every weight matrix has two entries, row 1 has
one. -/
def raggedBundle : LSTMParameters Int :=
  { NodeID := "any", Wi := [[3, 6], [9]], Wf := [[3, 6], [9]], Wo := [[3, 6], [9]],
    Wc := [[3, 6], [9]], Bi := [3], Bf := [6], Bo := [9], Bc := [12], Round := 1 }

/-- A staging map in which every key holds `raggedBundle`. -/
def raggedMap : ParamMap Int := fun _ => some raggedBundle

/-- A model of Go's `float64`: IEEE 754 binary64 with round to nearest, ties to
even. A finite value is `(-1)^neg * mant * 2^exp`, in canonical form: either
`2^52 ≤ mant < 2^53` and `-1074 ≤ exp ≤ 971` (a normal number), or
`mant < 2^52` and `exp = -1074` (a subnormal number or a zero, which has a
sign). The NaN payloads are not distinguished. -/
inductive F64 where
  | finite (neg : Bool) (mant : Nat) (exp : Int)
  | inf (neg : Bool)
  | nan
deriving DecidableEq

/-- The number of binary digits of `n`, computed with `fuel` halvings. -/
def bitLengthAux : Nat → Nat → Nat
  | 0, _ => 0
  | fuel + 1, n => if n = 0 then 0 else bitLengthAux fuel (n / 2) + 1

/-- The number of binary digits of `n` (`0` for `0`). -/
def bitLength (n : Nat) : Nat := bitLengthAux n n

/-- The value `(-1)^neg * mant * 2^exp` with a significand of at most 53 bits,
or the infinity of that sign when the exponent exceeds the largest one of
binary64 (overflow). -/
def F64.bounded (neg : Bool) (mant : Nat) (exp : Int) : F64 :=
  if 971 < exp then F64.inf neg else F64.finite neg mant exp

/-- Rounding to nearest, ties to even, of the magnitude `mag * 2^e` (plus a
non-zero amount below the last bit of `mag` when `sticky`) to binary64: to 53
significant bits, or to a multiple of `2^-1074` where the value is subnormal.
Callers pass `sticky` only with a `mag` of more than 53 bits. -/
def F64.round (neg : Bool) (mag : Nat) (sticky : Bool) (e : Int) : F64 :=
  if mag = 0 then F64.finite neg 0 (-1074)
  else
    let lsb : Int := max (e + (bitLength mag : Int) - 53) (-1074)
    if lsb ≤ e then F64.bounded neg (mag * 2 ^ (e - lsb).toNat) lsb
    else
      let shift := (lsb - e).toNat
      let q := mag / 2 ^ shift
      let rem := mag % 2 ^ shift
      let half := 2 ^ (shift - 1)
      let up : Bool := decide (half < rem) || (decide (rem = half) && (sticky || q % 2 == 1))
      let q' := if up then q + 1 else q
      if q' = 2 ^ 53 then F64.bounded neg (2 ^ 52) (lsb + 1)
      else F64.bounded neg q' lsb

/-- The integer `(-1)^neg * mant`. -/
def signedMant (neg : Bool) (mant : Nat) : Int := if neg then -(mant : Int) else (mant : Int)

/-- Binary64 addition: the exact sum, rounded. Adding a zero to a non-zero
value returns that value; the sum of two zeros is `-0` only when both are
`-0`; a sum of non-zero values that cancel is `+0`; infinities of opposite sign
add up to NaN. -/
def F64.add : F64 → F64 → F64
  | F64.nan, _ => F64.nan
  | _, F64.nan => F64.nan
  | F64.inf s, F64.inf t => if s = t then F64.inf s else F64.nan
  | F64.inf s, F64.finite _ _ _ => F64.inf s
  | F64.finite _ _ _, F64.inf t => F64.inf t
  | F64.finite na ma ea, F64.finite nb mb eb =>
    if ma = 0 then (if mb = 0 then F64.finite (na && nb) 0 (-1074) else F64.finite nb mb eb)
    else if mb = 0 then F64.finite na ma ea
    else
      let e := min ea eb
      let s : Int := signedMant na ma * 2 ^ (ea - e).toNat + signedMant nb mb * 2 ^ (eb - e).toNat
      if s = 0 then F64.finite false 0 (-1074)
      else F64.round (decide (s < 0)) s.natAbs false e

/-- Binary64 division: the exact quotient, rounded; the quotient is computed
with at least 64 significant bits and a sticky bit for the remainder. A
non-zero value divided by zero is an infinity; `0/0` and `inf/inf` are NaN. -/
def F64.div : F64 → F64 → F64
  | F64.nan, _ => F64.nan
  | _, F64.nan => F64.nan
  | F64.inf _, F64.inf _ => F64.nan
  | F64.inf s, F64.finite nb _ _ => F64.inf (s != nb)
  | F64.finite na _ _, F64.inf t => F64.finite (na != t) 0 (-1074)
  | F64.finite na ma ea, F64.finite nb mb eb =>
    if mb = 0 then (if ma = 0 then F64.nan else F64.inf (na != nb))
    else
      let k := 64 + bitLength mb
      let n := ma * 2 ^ k
      F64.round (na != nb) (n / mb) (n % mb != 0) (ea - eb - (k : Int))

/-- The conversion `float64(n)` of a non-negative integer. -/
def F64.ofNat (n : Nat) : F64 := F64.round false n false 0

/-- The binary64 value of the decimal literal `n/d`: the quotient, rounded. -/
def F64.ofRatio (n d : Nat) : F64 := F64.div (F64.ofNat n) (F64.ofNat d)

instance : Zero F64 := ⟨F64.finite false 0 (-1074)⟩

instance : Add F64 := ⟨F64.add⟩

instance : Div F64 := ⟨F64.div⟩

instance : NatCast F64 := ⟨F64.ofNat⟩

/-- Go `getMockParameters` (`contract-gateway/app_soft.go`), every decimal
literal read as the nearest binary64 value. -/
def getMockParameters : LSTMParameters F64 :=
  { NodeID := "soft",
    Wi := [[F64.ofRatio 1 10, F64.ofRatio 2 10], [F64.ofRatio 3 10, F64.ofRatio 4 10]],
    Wf := [[F64.ofRatio 5 10, F64.ofRatio 6 10], [F64.ofRatio 7 10, F64.ofRatio 8 10]],
    Wo := [[F64.ofRatio 9 10, F64.ofRatio 10 10], [F64.ofRatio 11 10, F64.ofRatio 12 10]],
    Wc := [[F64.ofRatio 13 10, F64.ofRatio 14 10], [F64.ofRatio 15 10, F64.ofRatio 16 10]],
    Bi := [F64.ofRatio 1 10, F64.ofRatio 2 10],
    Bf := [F64.ofRatio 3 10, F64.ofRatio 4 10],
    Bo := [F64.ofRatio 5 10, F64.ofRatio 6 10],
    Bc := [F64.ofRatio 7 10, F64.ofRatio 8 10],
    Round := 1 }

/-- The staging map after `soft`, `web` and `hard` have each uploaded the mock
bundle for round 1. -/
def mockMap : ParamMap F64 :=
  mapSet (mapSet (mapSet (fun _ => none)
    (stagingKey "soft" 1) { getMockParameters with NodeID := "soft" })
    (stagingKey "web" 1) { getMockParameters with NodeID := "web" })
    (stagingKey "hard" 1) { getMockParameters with NodeID := "hard" }

/-- The two bundles carry the same eight tensors (their `nodeId` and `round`
may differ). -/
def SameTensors {F : Type} (a b : LSTMParameters F) : Prop :=
  a.Wi = b.Wi ∧ a.Wf = b.Wf ∧ a.Wo = b.Wo ∧ a.Wc = b.Wc ∧
    a.Bi = b.Bi ∧ a.Bf = b.Bf ∧ a.Bo = b.Bo ∧ a.Bc = b.Bc

instance {F : Type} [DecidableEq F] (a b : LSTMParameters F) : Decidable (SameTensors a b) := by
  unfold SameTensors; infer_instance

/-- A staging map in which `soft`, `web` and `hard` have staged the same integer
tensors for round 1. -/
def identicalMap : ParamMap Int :=
  mapSet (mapSet (mapSet (fun _ => none)
    (stagingKey "soft" 1) (exampleBundle "soft" 1))
    (stagingKey "web" 1) (exampleBundle "web" 1))
    (stagingKey "hard" 1) (exampleBundle "hard" 1)

/-- An environment that fails on every call but those of one run: it
serializes only results of round 1, persists only under `RESULT_Aggregated_1`
and rejects a fourth event. -/
def pickyStub : Stub Int :=
  { marshal := fun res =>
      if res.Round = 1 then Except.ok (renderResult res) else Except.error "unsupported value",
    putStateErr := fun key _ =>
      if key = "RESULT_Aggregated_1" then none else some "ledger unavailable",
    setEventErr := fun calls _ _ => if calls.length < 3 then none else some "event rejected" }

/-- Every cell of a matrix with row lengths `a` is a cell of a matrix with row
lengths `b`: row `i` of the first is no longer than row `i` of the second, a
missing row counting as empty. -/
def cellsWithin (a b : List Nat) : Prop := ∀ i, i < a.length → a.getD i 0 ≤ b.getD i 0

instance (a b : List Nat) : Decidable (cellsWithin a b) := by
  unfold cellsWithin; infer_instance

/-- The shapes of the eight accumulators as `initializeSumMatrices` and the
`make` calls of `aggregateParameters` size them from the first bundle: each
weight accumulator has as many rows as `Wi`, row `i` as long as row `i` of the
matching matrix; each bias accumulator is as long as the matching vector. -/
def accumulatorShape {F : Type} (first : LSTMParameters F) : List (List Nat) × List Nat :=
  ([rowLens first.Wi, rowLens (first.Wf.take first.Wi.length),
    rowLens (first.Wo.take first.Wi.length), rowLens (first.Wc.take first.Wi.length)],
   [first.Bi.length, first.Bf.length, first.Bo.length, first.Bc.length])

/-- No index of `initializeSumMatrices` is out of range: `Wf`, `Wo` and `Wc` of
the first bundle have a row `i` for every row `i` of its `Wi`. -/
def InitInRange {F : Type} (first : LSTMParameters F) : Prop :=
  first.Wi.length ≤ first.Wf.length ∧ first.Wi.length ≤ first.Wo.length ∧
    first.Wi.length ≤ first.Wc.length

instance {F : Type} (first : LSTMParameters F) : Decidable (InitInRange first) := by
  unfold InitInRange; infer_instance

/-- No index of the loops of `aggregateParameters` over the bundle `p` is out
of range when the accumulators have the shapes `acc`: every cell of `p.Wi` is a
cell of `p.Wf`, `p.Wo`, `p.Wc` and of each weight accumulator, and `p.Bi` is no
longer than `p.Bf`, `p.Bo`, `p.Bc` and each bias accumulator. -/
def AddInRange {F : Type} (acc : List (List Nat) × List Nat) (p : LSTMParameters F) : Prop :=
  (∀ sh ∈ [rowLens p.Wf, rowLens p.Wo, rowLens p.Wc] ++ acc.1, cellsWithin (rowLens p.Wi) sh) ∧
  (∀ n ∈ [p.Bf.length, p.Bo.length, p.Bc.length] ++ acc.2, p.Bi.length ≤ n)

instance {F : Type} (acc : List (List Nat) × List Nat) (p : LSTMParameters F) :
    Decidable (AddInRange acc p) := by
  unfold AddInRange; infer_instance

/-- No index of the aggregation of round `round` is out of range: the
accumulators can be sized from the bundle of the first participant `soft`, and
the bundle of every participant can be added into them. -/
def IndicesInRange {F : Type} (m : ParamMap F) (round : Int) : Prop :=
  InitInRange (mapGet m (stagingKey "soft" round)) ∧
    ∀ key ∈ participantKeys,
      AddInRange (accumulatorShape (mapGet m (stagingKey "soft" round)))
        (mapGet m (stagingKey key round))

instance {F : Type} (m : ParamMap F) (round : Int) : Decidable (IndicesInRange m round) := by
  unfold IndicesInRange; infer_instance

/-- All three participants have uploaded for round 1; the `bi` of `web` has
three entries, every other bias vector has two. -/
def longBiasWorld : World Int :=
  stage (stage (stage emptyWorld "soft" 1 (exampleBundle "soft" 1))
    "web" 1 { exampleBundle "web" 20 with Bi := [20, 2, 5] })
    "hard" 1 (exampleBundle "hard" 300)

/-- All three participants have uploaded for round 1; the `Wf` of `hard` has
shape `[2][1]`, every other weight matrix has shape `[2][2]`. -/
def shortWfWorld : World Int :=
  stage (stage (stage emptyWorld "soft" 1 (exampleBundle "soft" 1))
    "web" 1 (exampleBundle "web" 20))
    "hard" 1 { exampleBundle "hard" 300 with Wf := [[5], [7]] }

/-! # Verification -/

/-! ## Loops and shapes -/

theorem forRangeFrom_inv {σ : Type} (body : Nat → σ → Option σ) (I : Nat → σ → Prop) :
    ∀ (n lo : Nat) (s : σ), I lo s →
      (∀ k t, lo ≤ k → k < lo + n → I k t → ∃ t', body k t = some t' ∧ I (k + 1) t') →
      ∃ s', forRangeFrom body lo n s = some s' ∧ I (lo + n) s' := by
  intro n
  induction n with
  | zero => intro lo s h0 _; exact ⟨s, rfl, by simpa using h0⟩
  | succ n ih =>
    intro lo s h0 hstep
    obtain ⟨t, ht, hI⟩ := hstep lo s (Nat.le_refl _) (by omega) h0
    obtain ⟨s', hs', hI'⟩ := ih (lo + 1) t hI (fun k u hk1 hk2 hu =>
      hstep k u (by omega) (by omega) hu)
    refine ⟨s', ?_, ?_⟩
    · simp only [forRangeFrom, ht]; exact hs'
    · have : lo + (n + 1) = lo + 1 + n := by omega
      rw [this]; exact hI'

theorem forRange_inv {σ : Type} (body : Nat → σ → Option σ) (I : Nat → σ → Prop)
    (n : Nat) (s : σ) (h0 : I 0 s)
    (hstep : ∀ k t, k < n → I k t → ∃ t', body k t = some t' ∧ I (k + 1) t') :
    ∃ s', forRange n body s = some s' ∧ I n s' := by
  have := forRangeFrom_inv body I n 0 s h0 (fun k t _ hk ht => hstep k t (by omega) ht)
  simpa [forRange] using this

theorem VecIs.congrVec {F : Type} {v : List F} {L : Nat} {f g : Nat → F}
    (h : VecIs v L f) (hfg : ∀ i, i < L → f i = g i) : VecIs v L g :=
  ⟨h.1, fun i hi => by rw [← hfg i hi]; exact h.2 i hi⟩

theorem MatIs.congrMat {F : Type} {m : List (List F)} {R C : Nat} {f g : Nat → Nat → F}
    (h : MatIs m R C f) (hfg : ∀ i j, i < R → j < C → f i j = g i j) : MatIs m R C g := by
  refine ⟨h.1, fun i hi => ?_⟩
  obtain ⟨row, hrow, hlen, hval⟩ := h.2 i hi
  exact ⟨row, hrow, hlen, fun j hj => by rw [← hfg i j hi hj]; exact hval j hj⟩

theorem MatIs.get2 {F : Type} {m : List (List F)} {R C : Nat} {f : Nat → Nat → F}
    (h : MatIs m R C f) {i j : Nat} (hi : i < R) (hj : j < C) : get2 m i j = some (f i j) := by
  obtain ⟨row, hrow, _, hval⟩ := h.2 i hi
  simp [FedLearn.get2, hrow, hval j hj]

theorem updAt_spec {F : Type} {v : List F} {L : Nat} {f : Nat → F} (h : VecIs v L f)
    {i : Nat} (hi : i < L) (op : F → F) :
    ∃ v', updAt v i op = some v' ∧ VecIs v' L (upd1 f i (op (f i))) := by
  refine ⟨v.set i (op (f i)), by simp [updAt, h.2 i hi], by simp [h.1], fun a ha => ?_⟩
  rw [List.getElem?_set]
  by_cases hia : i = a
  · subst hia; simp [upd1, h.1, hi]
  · have : ¬ a = i := fun e => hia e.symm
    simp [upd1, hia, this, h.2 a ha]

theorem updAt2_spec {F : Type} {m : List (List F)} {R C : Nat} {f : Nat → Nat → F}
    (h : MatIs m R C f) {i j : Nat} (hi : i < R) (hj : j < C) (op : F → F) :
    ∃ m', updAt2 m i j op = some m' ∧ MatIs m' R C (upd2 f i j (op (f i j))) := by
  obtain ⟨row, hrow, hlen, hval⟩ := h.2 i hi
  obtain ⟨row', hrow', hV⟩ := updAt_spec (v := row) (L := C) (f := f i) ⟨hlen, hval⟩ hj op
  refine ⟨m.set i row', by simp [updAt2, hrow, hrow'], by simp [h.1], fun a ha => ?_⟩
  rw [List.getElem?_set]
  by_cases hia : i = a
  · subst hia
    refine ⟨row', by simp [h.1, hi], hV.1, fun b hb => ?_⟩
    rw [hV.2 b hb]; simp [upd1, upd2]
  · have hne : ¬ a = i := fun e => hia e.symm
    obtain ⟨ra, hra, hlena, hvala⟩ := h.2 a ha
    exact ⟨ra, by simp [hia, hra], hlena, fun b hb => by simp [upd2, hne, hvala b hb]⟩

theorem matLoops_spec {F : Type} (body : Nat → Nat → Sums F → Option (Sums F))
    (len : Nat → Sums F → Nat) (op : Fin 4 → Nat → Nat → F → F) (V : Sums F → Prop)
    (R C : Nat)
    (hlen : ∀ (s : Sums F) (f : Fin 4 → Nat → Nat → F) (i : Nat), i < R → (∀ q, MatIs (Sums.mat s q) R C (f q)) → len i s = C)
    (hstep : ∀ (s : Sums F) (f : Fin 4 → Nat → Nat → F) (i j : Nat), i < R → j < C → (∀ q, MatIs (Sums.mat s q) R C (f q)) → V s →
      ∃ s', body i j s = some s' ∧
        (∀ q, MatIs (Sums.mat s' q) R C (upd2 (f q) i j (op q i j (f q i j)))) ∧ V s')
    (s0 : Sums F) (f0 : Fin 4 → Nat → Nat → F)
    (h0 : ∀ q, MatIs (Sums.mat s0 q) R C (f0 q)) (hV : V s0) :
    ∃ s', forRange R (fun i s1 => forRange (len i s1) (body i) s1) s0 = some s' ∧
      (∀ q, MatIs (Sums.mat s' q) R C (fun a b => op q a b (f0 q a b))) ∧ V s' := by
  obtain ⟨s', hs', hI, hV'⟩ := forRange_inv
    (fun i s1 => forRange (len i s1) (body i) s1)
    (fun k s => (∀ q, MatIs (Sums.mat s q) R C (mixed2 (doneCell k 0) (op q) (f0 q))) ∧ V s)
    R s0
    ⟨fun q => (h0 q).congrMat (fun a b _ _ => by simp [mixed2, doneCell]), hV⟩
    (by
      intro k t hk ⟨hM, hVt⟩
      have hl : len k t = C := hlen t _ k hk hM
      obtain ⟨u, hu, hJ, hVu⟩ := forRange_inv (body k)
        (fun j u => (∀ q, MatIs (Sums.mat u q) R C (mixed2 (doneCell k j) (op q) (f0 q))) ∧ V u)
        C t ⟨hM, hVt⟩
        (by
          intro j u hj ⟨hMu, hVu⟩
          obtain ⟨u', hu', hMu', hVu'⟩ := hstep u _ k j hk hj hMu hVu
          refine ⟨u', hu', fun q => (hMu' q).congrMat (fun a b _ _ => ?_), hVu'⟩
          by_cases hab : a = k ∧ b = j
          · obtain ⟨rfl, rfl⟩ := hab
            simp [upd2, mixed2, doneCell]
          · have h1 : (a < k ∨ a = k ∧ b < j + 1) ↔ (a < k ∨ a = k ∧ b < j) := by omega
            simp [upd2, mixed2, doneCell, hab, h1])
      refine ⟨u, by simp only [hl]; exact hu, fun q => (hJ q).congrMat (fun a b _ hb => ?_), hVu⟩
      have h1 : (a < k ∨ a = k ∧ b < C) ↔ a < k + 1 := by omega
      simp [mixed2, doneCell, h1])
  refine ⟨s', hs', fun q => (hI q).congrMat (fun a b ha _ => ?_), hV'⟩
  simp [mixed2, doneCell, ha]

theorem vecLoop_spec {F : Type} (body : Nat → Sums F → Option (Sums F))
    (op : Fin 4 → Nat → F → F) (V : Sums F → Prop) (L : Nat)
    (hstep : ∀ (s : Sums F) (f : Fin 4 → Nat → F) (i : Nat), i < L → (∀ q, VecIs (Sums.vec s q) L (f q)) → V s →
      ∃ s', body i s = some s' ∧
        (∀ q, VecIs (Sums.vec s' q) L (upd1 (f q) i (op q i (f q i)))) ∧ V s')
    (s0 : Sums F) (f0 : Fin 4 → Nat → F)
    (h0 : ∀ q, VecIs (Sums.vec s0 q) L (f0 q)) (hV : V s0) :
    ∃ s', forRange L body s0 = some s' ∧
      (∀ q, VecIs (Sums.vec s' q) L (fun a => op q a (f0 q a))) ∧ V s' := by
  obtain ⟨s', hs', hI, hV'⟩ := forRange_inv body
    (fun k s => (∀ q, VecIs (Sums.vec s q) L (mixed1 k (op q) (f0 q))) ∧ V s)
    L s0
    ⟨fun q => (h0 q).congrVec (fun a _ => by simp [mixed1]), hV⟩
    (by
      intro k t hk ⟨hM, hVt⟩
      obtain ⟨u', hu', hMu', hVu'⟩ := hstep t _ k hk hM hVt
      refine ⟨u', hu', fun q => (hMu' q).congrVec (fun a _ => ?_), hVu'⟩
      by_cases hab : a = k
      · subst hab; simp [upd1, mixed1]
      · have h1 : a < k + 1 ↔ a < k := by omega
        simp [upd1, mixed1, hab, h1])
  refine ⟨s', hs', fun q => (hI q).congrVec (fun a ha => ?_), hV'⟩
  simp [mixed1, ha]

theorem hasShape.matIs {F : Type} [Zero F] {m : List (List F)} {R C : Nat}
    (h : hasShape m R C) : MatIs m R C (entry2 m) := by
  refine ⟨h.1, fun i hi => ?_⟩
  have hi' : i < m.length := by rw [h.1]; exact hi
  have hlen : (m[i]).length = C := h.2 _ (List.getElem_mem _)
  refine ⟨m[i], List.getElem?_eq_getElem hi', hlen, fun j hj => ?_⟩
  have hj' : j < (m[i]).length := by rw [hlen]; exact hj
  simp [entry2, get2, List.getElem?_eq_getElem hi', List.getElem?_eq_getElem hj']

theorem hasShape.row {F : Type} {m : List (List F)} {R C : Nat} (h : hasShape m R C)
    {i : Nat} (hi : i < R) : ∃ row, m[i]? = some row ∧ row.length = C := by
  have hi' : i < m.length := by rw [h.1]; exact hi
  exact ⟨m[i], List.getElem?_eq_getElem hi', h.2 _ (List.getElem_mem _)⟩

theorem vecIs_entry1 {F : Type} [Zero F] {v : List F} {L : Nat} (h : v.length = L) :
    VecIs v L (entry1 v) := by
  refine ⟨h, fun i hi => ?_⟩
  have hi' : i < v.length := by rw [h]; exact hi
  simp [entry1, List.getElem?_eq_getElem hi', List.getD_eq_getElem?_getD]

theorem WellShaped.mat {F : Type} [Zero F] {p : LSTMParameters F} {R C L : Nat}
    (h : WellShaped p R C L) (q : Fin 4) :
    MatIs (LSTMParameters.mat p q) R C (entry2 (LSTMParameters.mat p q)) := by
  obtain ⟨h1, h2, h3, h4, -⟩ := h
  fin_cases q
  · exact h1.matIs
  · exact h2.matIs
  · exact h3.matIs
  · exact h4.matIs

theorem WellShaped.vec {F : Type} [Zero F] {p : LSTMParameters F} {R C L : Nat}
    (h : WellShaped p R C L) (q : Fin 4) :
    VecIs (LSTMParameters.vec p q) L (entry1 (LSTMParameters.vec p q)) := by
  obtain ⟨-, -, -, -, h1, h2, h3, h4⟩ := h
  fin_cases q
  · exact vecIs_entry1 h1
  · exact vecIs_entry1 h2
  · exact vecIs_entry1 h3
  · exact vecIs_entry1 h4

theorem matIs_replicate {F : Type} (R C : Nat) (x : F) :
    MatIs (List.replicate R (List.replicate C x)) R C (fun _ _ => x) := by
  refine ⟨by simp, fun i hi => ⟨List.replicate C x, ?_, by simp, fun j hj => ?_⟩⟩
  · simp [List.getElem?_replicate, hi]
  · simp [List.getElem?_replicate, hj]

theorem vecIs_replicate {F : Type} (L : Nat) (x : F) :
    VecIs (List.replicate L x) L (fun _ => x) :=
  ⟨by simp, fun i hi => by simp [List.getElem?_replicate, hi]⟩

theorem initializeSumMatrices_spec {F : Type} [Zero F] (m : ParamMap F) (k0 : String)
    (rest : List String) (round : Int) (R C L : Nat)
    (h : WellShaped (mapGet m (stagingKey k0 round)) R C L) :
    ∃ w, initializeSumMatrices m (k0 :: rest) round = some w ∧
      w.sumWi = List.replicate R (makeZeros C) ∧ w.sumWf = List.replicate R (makeZeros C) ∧
      w.sumWo = List.replicate R (makeZeros C) ∧ w.sumWc = List.replicate R (makeZeros C) := by
  have hR : (mapGet m (stagingKey k0 round)).Wi.length = R := h.1.1
  obtain ⟨w, hw, hI⟩ := forRange_inv (initRow (mapGet m (stagingKey k0 round)))
    (fun k (s : SumMatrices F) =>
      s.sumWi = List.replicate k (makeZeros C) ∧ s.sumWf = List.replicate k (makeZeros C) ∧
      s.sumWo = List.replicate k (makeZeros C) ∧ s.sumWc = List.replicate k (makeZeros C))
    R { sumWi := [], sumWf := [], sumWo := [], sumWc := [] } (by simp)
    (by
      intro k t hk ⟨e1, e2, e3, e4⟩
      obtain ⟨r1, hr1, hl1⟩ := h.1.row hk
      obtain ⟨r2, hr2, hl2⟩ := h.2.1.row hk
      obtain ⟨r3, hr3, hl3⟩ := h.2.2.1.row hk
      obtain ⟨r4, hr4, hl4⟩ := h.2.2.2.1.row hk
      have e : initRow (mapGet m (stagingKey k0 round)) k t =
          some { sumWi := t.sumWi ++ [makeZeros r1.length],
                 sumWf := t.sumWf ++ [makeZeros r2.length],
                 sumWo := t.sumWo ++ [makeZeros r3.length],
                 sumWc := t.sumWc ++ [makeZeros r4.length] } := by
        simp only [initRow, hr1, hr2, hr3, hr4]
      refine ⟨_, e, ?_⟩
      simp [e1, e2, e3, e4, hl1, hl2, hl3, hl4, List.replicate_succ'])
  refine ⟨w, ?_, hI⟩
  simp only [initializeSumMatrices, List.getElem?_cons_zero, hR]
  exact hw

theorem addCell_spec {F : Type} [Add F] (param : LSTMParameters F)
    (g : Fin 4 → Nat → Nat → F) (R C : Nat)
    (hp : ∀ q, MatIs (LSTMParameters.mat param q) R C (g q))
    (s : Sums F) (f : Fin 4 → Nat → Nat → F) (i j : Nat) (hi : i < R) (hj : j < C)
    (hs : ∀ q, MatIs (Sums.mat s q) R C (f q)) :
    ∃ s', addCell param i j s = some s' ∧
      (∀ q, MatIs (Sums.mat s' q) R C (upd2 (f q) i j (f q i j + g q i j))) ∧
      Sums.vec s' = Sums.vec s := by
  have g0 : get2 param.Wi i j = some (g 0 i j) := (hp 0).get2 hi hj
  have g1 : get2 param.Wf i j = some (g 1 i j) := (hp 1).get2 hi hj
  have g2 : get2 param.Wo i j = some (g 2 i j) := (hp 2).get2 hi hj
  have g3 : get2 param.Wc i j = some (g 3 i j) := (hp 3).get2 hi hj
  obtain ⟨wi, hwi, Hwi⟩ := updAt2_spec (hs 0) hi hj (fun a => a + g 0 i j)
  obtain ⟨wf, hwf, Hwf⟩ := updAt2_spec (hs 1) hi hj (fun a => a + g 1 i j)
  obtain ⟨wo, hwo, Hwo⟩ := updAt2_spec (hs 2) hi hj (fun a => a + g 2 i j)
  obtain ⟨wc, hwc, Hwc⟩ := updAt2_spec (hs 3) hi hj (fun a => a + g 3 i j)
  have hwi' : updAt2 s.sumWi i j (fun a => a + g 0 i j) = some wi := hwi
  have hwf' : updAt2 s.sumWf i j (fun a => a + g 1 i j) = some wf := hwf
  have hwo' : updAt2 s.sumWo i j (fun a => a + g 2 i j) = some wo := hwo
  have hwc' : updAt2 s.sumWc i j (fun a => a + g 3 i j) = some wc := hwc
  have e : addCell param i j s =
      some { s with sumWi := wi, sumWf := wf, sumWo := wo, sumWc := wc } := by
    simp only [addCell, g0, g1, g2, g3, hwi', hwf', hwo', hwc']
  refine ⟨_, e, fun q => ?_, rfl⟩
  fin_cases q
  · exact Hwi
  · exact Hwf
  · exact Hwo
  · exact Hwc

theorem addBias_spec {F : Type} [Add F] (param : LSTMParameters F)
    (g : Fin 4 → Nat → F) (L : Nat)
    (hp : ∀ q, VecIs (LSTMParameters.vec param q) L (g q))
    (s : Sums F) (f : Fin 4 → Nat → F) (i : Nat) (hi : i < L)
    (hs : ∀ q, VecIs (Sums.vec s q) L (f q)) :
    ∃ s', addBias param i s = some s' ∧
      (∀ q, VecIs (Sums.vec s' q) L (upd1 (f q) i (f q i + g q i))) ∧
      Sums.mat s' = Sums.mat s := by
  have g0 : param.Bi[i]? = some (g 0 i) := (hp 0).2 i hi
  have g1 : param.Bf[i]? = some (g 1 i) := (hp 1).2 i hi
  have g2 : param.Bo[i]? = some (g 2 i) := (hp 2).2 i hi
  have g3 : param.Bc[i]? = some (g 3 i) := (hp 3).2 i hi
  obtain ⟨bi, hbi, Hbi⟩ := updAt_spec (hs 0) hi (fun a => a + g 0 i)
  obtain ⟨bf, hbf, Hbf⟩ := updAt_spec (hs 1) hi (fun a => a + g 1 i)
  obtain ⟨bo, hbo, Hbo⟩ := updAt_spec (hs 2) hi (fun a => a + g 2 i)
  obtain ⟨bc, hbc, Hbc⟩ := updAt_spec (hs 3) hi (fun a => a + g 3 i)
  have hbi' : updAt s.sumBi i (fun a => a + g 0 i) = some bi := hbi
  have hbf' : updAt s.sumBf i (fun a => a + g 1 i) = some bf := hbf
  have hbo' : updAt s.sumBo i (fun a => a + g 2 i) = some bo := hbo
  have hbc' : updAt s.sumBc i (fun a => a + g 3 i) = some bc := hbc
  have e : addBias param i s =
      some { s with sumBi := bi, sumBf := bf, sumBo := bo, sumBc := bc } := by
    simp only [addBias, g0, g1, g2, g3, hbi', hbf', hbo', hbc']
  refine ⟨_, e, fun q => ?_, rfl⟩
  fin_cases q
  · exact Hbi
  · exact Hbf
  · exact Hbo
  · exact Hbc

theorem divCell_spec {F : Type} [Div F] [NatCast F] (count : Nat) (R C : Nat)
    (s : Sums F) (f : Fin 4 → Nat → Nat → F) (i j : Nat) (hi : i < R) (hj : j < C)
    (hs : ∀ q, MatIs (Sums.mat s q) R C (f q)) :
    ∃ s', divCell count i j s = some s' ∧
      (∀ q, MatIs (Sums.mat s' q) R C (upd2 (f q) i j (f q i j / (count : F)))) ∧
      Sums.vec s' = Sums.vec s := by
  obtain ⟨wi, hwi, Hwi⟩ := updAt2_spec (hs 0) hi hj (fun a => a / (count : F))
  obtain ⟨wf, hwf, Hwf⟩ := updAt2_spec (hs 1) hi hj (fun a => a / (count : F))
  obtain ⟨wo, hwo, Hwo⟩ := updAt2_spec (hs 2) hi hj (fun a => a / (count : F))
  obtain ⟨wc, hwc, Hwc⟩ := updAt2_spec (hs 3) hi hj (fun a => a / (count : F))
  have hwi' : updAt2 s.sumWi i j (fun a => a / (count : F)) = some wi := hwi
  have hwf' : updAt2 s.sumWf i j (fun a => a / (count : F)) = some wf := hwf
  have hwo' : updAt2 s.sumWo i j (fun a => a / (count : F)) = some wo := hwo
  have hwc' : updAt2 s.sumWc i j (fun a => a / (count : F)) = some wc := hwc
  have e : divCell count i j s =
      some { s with sumWi := wi, sumWf := wf, sumWo := wo, sumWc := wc } := by
    simp only [divCell, hwi', hwf', hwo', hwc']
  refine ⟨_, e, fun q => ?_, rfl⟩
  fin_cases q
  · exact Hwi
  · exact Hwf
  · exact Hwo
  · exact Hwc

theorem divBias_spec {F : Type} [Div F] [NatCast F] (count : Nat) (L : Nat)
    (s : Sums F) (f : Fin 4 → Nat → F) (i : Nat) (hi : i < L)
    (hs : ∀ q, VecIs (Sums.vec s q) L (f q)) :
    ∃ s', divBias count i s = some s' ∧
      (∀ q, VecIs (Sums.vec s' q) L (upd1 (f q) i (f q i / (count : F)))) ∧
      Sums.mat s' = Sums.mat s := by
  obtain ⟨bi, hbi, Hbi⟩ := updAt_spec (hs 0) hi (fun a => a / (count : F))
  obtain ⟨bf, hbf, Hbf⟩ := updAt_spec (hs 1) hi (fun a => a / (count : F))
  obtain ⟨bo, hbo, Hbo⟩ := updAt_spec (hs 2) hi (fun a => a / (count : F))
  obtain ⟨bc, hbc, Hbc⟩ := updAt_spec (hs 3) hi (fun a => a / (count : F))
  have hbi' : updAt s.sumBi i (fun a => a / (count : F)) = some bi := hbi
  have hbf' : updAt s.sumBf i (fun a => a / (count : F)) = some bf := hbf
  have hbo' : updAt s.sumBo i (fun a => a / (count : F)) = some bo := hbo
  have hbc' : updAt s.sumBc i (fun a => a / (count : F)) = some bc := hbc
  have e : divBias count i s =
      some { s with sumBi := bi, sumBf := bf, sumBo := bo, sumBc := bc } := by
    simp only [divBias, hbi', hbf', hbo', hbc']
  refine ⟨_, e, fun q => ?_, rfl⟩
  fin_cases q
  · exact Hbi
  · exact Hbf
  · exact Hbo
  · exact Hbc

theorem addParam_spec {F : Type} [Zero F] [Add F] (m : ParamMap F) (round : Int)
    (key : String) (R C L : Nat) (hp : WellShaped (mapGet m (stagingKey key round)) R C L)
    (s : Sums F) (f : Fin 4 → Nat → Nat → F) (b : Fin 4 → Nat → F)
    (hs : ∀ q, MatIs (Sums.mat s q) R C (f q)) (hv : ∀ q, VecIs (Sums.vec s q) L (b q)) :
    ∃ s', addParam m round key s = some s' ∧
      (∀ q, MatIs (Sums.mat s' q) R C (fun i j =>
        f q i j + entry2 (LSTMParameters.mat (mapGet m (stagingKey key round)) q) i j)) ∧
      (∀ q, VecIs (Sums.vec s' q) L (fun i =>
        b q i + entry1 (LSTMParameters.vec (mapGet m (stagingKey key round)) q) i)) := by
  obtain ⟨s1, hs1, hM1, hV1⟩ := matLoops_spec
    (addCell (mapGet m (stagingKey key round)))
    (fun i _ => ((mapGet m (stagingKey key round)).Wi.getD i []).length)
    (fun q i j x => x + entry2 (LSTMParameters.mat (mapGet m (stagingKey key round)) q) i j)
    (fun t => Sums.vec t = Sums.vec s) R C
    (by
      intro t g i hi _
      obtain ⟨row, hrow, hlen⟩ := hp.1.row hi
      simp [List.getD_eq_getElem?_getD, hrow, hlen])
    (by
      intro t g i j hi hj ht hVt
      obtain ⟨t', ht', hM, hV⟩ := addCell_spec _ _ R C (fun q => hp.mat q) t g i j hi hj ht
      exact ⟨t', ht', hM, hV.trans hVt⟩)
    s f hs rfl
  obtain ⟨s2, hs2, hV2, hM2⟩ := vecLoop_spec
    (addBias (mapGet m (stagingKey key round)))
    (fun q i x => x + entry1 (LSTMParameters.vec (mapGet m (stagingKey key round)) q) i)
    (fun t => Sums.mat t = Sums.mat s1) L
    (by
      intro t g i hi ht hMt
      obtain ⟨t', ht', hV, hM⟩ := addBias_spec _ _ L (fun q => hp.vec q) t g i hi ht
      exact ⟨t', ht', hV, hM.trans hMt⟩)
    s1 b (fun q => by rw [hV1]; exact hv q) rfl
  refine ⟨s2, ?_, fun q => by rw [hM2]; exact hM1 q, hV2⟩
  have hR : (mapGet m (stagingKey key round)).Wi.length = R := hp.1.1
  have hL : (mapGet m (stagingKey key round)).Bi.length = L := hp.2.2.2.2.1
  simp only [addParam, hR, hs1, hL]
  exact hs2

theorem calculateAverage_spec {F : Type} [Div F] [NatCast F] (count : Nat) (R C L : Nat)
    (s : Sums F) (f : Fin 4 → Nat → Nat → F) (b : Fin 4 → Nat → F)
    (hs : ∀ q, MatIs (Sums.mat s q) R C (f q)) (hv : ∀ q, VecIs (Sums.vec s q) L (b q)) :
    ∃ s', calculateAverage s count = some s' ∧
      (∀ q, MatIs (Sums.mat s' q) R C (fun i j => f q i j / (count : F))) ∧
      (∀ q, VecIs (Sums.vec s' q) L (fun i => b q i / (count : F))) := by
  obtain ⟨s1, hs1, hM1, hV1⟩ := matLoops_spec
    (divCell count)
    (fun i (t : Sums F) => (t.sumWi.getD i []).length)
    (fun _ _ _ x => x / (count : F))
    (fun t => Sums.vec t = Sums.vec s) R C
    (by
      intro t g i hi ht
      obtain ⟨row, hrow, hlen, -⟩ := (ht 0).2 i hi
      have hrow' : t.sumWi[i]? = some row := hrow
      simp [List.getD_eq_getElem?_getD, hrow', hlen])
    (by
      intro t g i j hi hj ht hVt
      obtain ⟨t', ht', hM, hV⟩ := divCell_spec count R C t g i j hi hj ht
      exact ⟨t', ht', hM, hV.trans hVt⟩)
    s f hs rfl
  obtain ⟨s2, hs2, hV2, hM2⟩ := vecLoop_spec
    (divBias count)
    (fun _ _ x => x / (count : F))
    (fun t => Sums.mat t = Sums.mat s1) L
    (by
      intro t g i hi ht hMt
      obtain ⟨t', ht', hV, hM⟩ := divBias_spec count L t g i hi ht
      exact ⟨t', ht', hV, hM.trans hMt⟩)
    s1 b (fun q => by rw [hV1]; exact hv q) rfl
  refine ⟨s2, ?_, fun q => by rw [hM2]; exact hM1 q, hV2⟩
  have hR : s.sumWi.length = R := (hs 0).1
  have hL : s1.sumBi.length = L := by
    have := (hv 0).1
    rw [← hV1] at this
    exact this
  simp only [calculateAverage, hR, hs1, hL]
  exact hs2

theorem aggregate_spec {F : Type} [Zero F] [Add F] [Div F] [NatCast F]
    (m : ParamMap F) (round : Int) (R C L : Nat)
    (hs : WellShaped (mapGet m (stagingKey "soft" round)) R C L)
    (hw : WellShaped (mapGet m (stagingKey "web" round)) R C L)
    (hh : WellShaped (mapGet m (stagingKey "hard" round)) R C L) :
    ∃ sums avg, aggregateParameters m participantKeys round = some sums ∧
      calculateAverage sums 3 = some avg ∧
      (∀ q, MatIs (Sums.mat avg q) R C (fun i j =>
        (((0 + entry2 (LSTMParameters.mat (mapGet m (stagingKey "soft" round)) q) i j)
          + entry2 (LSTMParameters.mat (mapGet m (stagingKey "web" round)) q) i j)
          + entry2 (LSTMParameters.mat (mapGet m (stagingKey "hard" round)) q) i j)
          / ((3 : Nat) : F))) ∧
      (∀ q, VecIs (Sums.vec avg q) L (fun i =>
        (((0 + entry1 (LSTMParameters.vec (mapGet m (stagingKey "soft" round)) q) i)
          + entry1 (LSTMParameters.vec (mapGet m (stagingKey "web" round)) q) i)
          + entry1 (LSTMParameters.vec (mapGet m (stagingKey "hard" round)) q) i)
          / ((3 : Nat) : F))) := by
  obtain ⟨w, hw0, e1, e2, e3, e4⟩ :=
    initializeSumMatrices_spec m "soft" ["web", "hard"] round R C L hs
  have l1 := hs.2.2.2.2.1
  have l2 := hs.2.2.2.2.2.1
  have l3 := hs.2.2.2.2.2.2.1
  have l4 := hs.2.2.2.2.2.2.2
  obtain ⟨s1, hs1, hM1, hV1⟩ := addParam_spec m round "soft" R C L hs
    { sumWi := w.sumWi, sumWf := w.sumWf, sumWo := w.sumWo, sumWc := w.sumWc,
      sumBi := makeZeros L, sumBf := makeZeros L, sumBo := makeZeros L, sumBc := makeZeros L }
    (fun _ _ _ => 0) (fun _ _ => 0)
    (fun q => by
      fin_cases q
      · show MatIs w.sumWi R C _; rw [e1]; exact matIs_replicate R C 0
      · show MatIs w.sumWf R C _; rw [e2]; exact matIs_replicate R C 0
      · show MatIs w.sumWo R C _; rw [e3]; exact matIs_replicate R C 0
      · show MatIs w.sumWc R C _; rw [e4]; exact matIs_replicate R C 0)
    (fun q => by
      fin_cases q <;> exact vecIs_replicate L 0)
  obtain ⟨s2, hs2, hM2, hV2⟩ := addParam_spec m round "web" R C L hw s1 _ _ hM1 hV1
  obtain ⟨s3, hs3, hM3, hV3⟩ := addParam_spec m round "hard" R C L hh s2 _ _ hM2 hV2
  obtain ⟨avg, havg, hMa, hVa⟩ := calculateAverage_spec 3 R C L s3 _ _ hM3 hV3
  refine ⟨s3, avg, ?_, havg, hMa, hVa⟩
  simp only [aggregateParameters, participantKeys, hw0, List.getElem?_cons_zero, l1, l2, l3,
    l4, forKeys, hs1, hs2, hs3]

theorem aggregate_mean {F : Type} [Zero F] [Add F] [Div F] [NatCast F]
    (m : ParamMap F) (r : Int) (soft web hard : LSTMParameters F) (R C L : Nat)
    (hsoft : m (stagingKey "soft" r) = some soft)
    (hweb : m (stagingKey "web" r) = some web)
    (hhard : m (stagingKey "hard" r) = some hard)
    (shapeSoft : WellShaped soft R C L) (shapeWeb : WellShaped web R C L)
    (shapeHard : WellShaped hard R C L) :
    ∃ sums avg, aggregateParameters m participantKeys r = some sums ∧
      calculateAverage sums 3 = some avg ∧
      MatMeanOf3 avg.sumWi soft.Wi web.Wi hard.Wi R C ∧
      MatMeanOf3 avg.sumWf soft.Wf web.Wf hard.Wf R C ∧
      MatMeanOf3 avg.sumWo soft.Wo web.Wo hard.Wo R C ∧
      MatMeanOf3 avg.sumWc soft.Wc web.Wc hard.Wc R C ∧
      VecMeanOf3 avg.sumBi soft.Bi web.Bi hard.Bi L ∧
      VecMeanOf3 avg.sumBf soft.Bf web.Bf hard.Bf L ∧
      VecMeanOf3 avg.sumBo soft.Bo web.Bo hard.Bo L ∧
      VecMeanOf3 avg.sumBc soft.Bc web.Bc hard.Bc L := by
  have gs : mapGet m (stagingKey "soft" r) = soft := by simp [mapGet, hsoft]
  have gw : mapGet m (stagingKey "web" r) = web := by simp [mapGet, hweb]
  have gh : mapGet m (stagingKey "hard" r) = hard := by simp [mapGet, hhard]
  obtain ⟨sums, avg, h1, h2, hM, hV⟩ := aggregate_spec m r R C L
    (by rw [gs]; exact shapeSoft) (by rw [gw]; exact shapeWeb) (by rw [gh]; exact shapeHard)
  rw [gs, gw, gh] at hM hV
  have mat : ∀ q : Fin 4, MatMeanOf3 (Sums.mat avg q) (LSTMParameters.mat soft q)
      (LSTMParameters.mat web q) (LSTMParameters.mat hard q) R C := fun q i j hi hj =>
    ⟨_, _, _, (shapeSoft.mat q).get2 hi hj, (shapeWeb.mat q).get2 hi hj,
      (shapeHard.mat q).get2 hi hj, (hM q).get2 hi hj⟩
  have vec : ∀ q : Fin 4, VecMeanOf3 (Sums.vec avg q) (LSTMParameters.vec soft q)
      (LSTMParameters.vec web q) (LSTMParameters.vec hard q) L := fun q i hi =>
    ⟨_, _, _, (shapeSoft.vec q).2 i hi, (shapeWeb.vec q).2 i hi,
      (shapeHard.vec q).2 i hi, (hV q).2 i hi⟩
  exact ⟨sums, avg, h1, h2, mat 0, mat 1, mat 2, mat 3, vec 0, vec 1, vec 2, vec 3⟩

/-- C1 (mean correctness): when the bundles staged by `soft`, `web` and `hard`
for round `r` all have weight shape `[R][C]` and bias length `L`,
`aggregateParameters` followed by `calculateAverage` with count 3 returns
accumulators whose every in-range weight entry is
`(((0 + soft) + web) + hard) / 3` and likewise for every bias entry: the
element-wise mean summed in participant order. -/
theorem C1_mean_correctness {F : Type} [Zero F] [Add F] [Div F] [NatCast F]
    (m : ParamMap F) (r : Int) (soft web hard : LSTMParameters F) (R C L : Nat)
    (hsoft : m (stagingKey "soft" r) = some soft)
    (hweb : m (stagingKey "web" r) = some web)
    (hhard : m (stagingKey "hard" r) = some hard)
    (shapeSoft : WellShaped soft R C L) (shapeWeb : WellShaped web R C L)
    (shapeHard : WellShaped hard R C L) :
    ∃ sums avg, aggregateParameters m participantKeys r = some sums ∧
      calculateAverage sums 3 = some avg ∧
      MatMeanOf3 avg.sumWi soft.Wi web.Wi hard.Wi R C ∧
      MatMeanOf3 avg.sumWf soft.Wf web.Wf hard.Wf R C ∧
      MatMeanOf3 avg.sumWo soft.Wo web.Wo hard.Wo R C ∧
      MatMeanOf3 avg.sumWc soft.Wc web.Wc hard.Wc R C ∧
      VecMeanOf3 avg.sumBi soft.Bi web.Bi hard.Bi L ∧
      VecMeanOf3 avg.sumBf soft.Bf web.Bf hard.Bf L ∧
      VecMeanOf3 avg.sumBo soft.Bo web.Bo hard.Bo L ∧
      VecMeanOf3 avg.sumBc soft.Bc web.Bc hard.Bc L :=
  aggregate_mean m r soft web hard R C L hsoft hweb hhard shapeSoft shapeWeb shapeHard

/-- Witness for C1: three bundles of shape `[2][2]` with bias length 2, staged for round 1. -/
theorem C1_mean_correctness_witness :
    exampleMap (stagingKey "soft" 1) = some (exampleBundle "soft" 1) ∧
    exampleMap (stagingKey "web" 1) = some (exampleBundle "web" 20) ∧
    exampleMap (stagingKey "hard" 1) = some (exampleBundle "hard" 300) ∧
    WellShaped (exampleBundle "soft" 1) 2 2 2 ∧
    WellShaped (exampleBundle "web" 20) 2 2 2 ∧
    WellShaped (exampleBundle "hard" 300) 2 2 2 ∧
    ∃ sums avg, aggregateParameters exampleMap participantKeys 1 = some sums ∧
      calculateAverage sums 3 = some avg ∧
      MatMeanOf3 avg.sumWi (exampleBundle "soft" 1).Wi (exampleBundle "web" 20).Wi
        (exampleBundle "hard" 300).Wi 2 2 ∧
      MatMeanOf3 avg.sumWf (exampleBundle "soft" 1).Wf (exampleBundle "web" 20).Wf
        (exampleBundle "hard" 300).Wf 2 2 ∧
      MatMeanOf3 avg.sumWo (exampleBundle "soft" 1).Wo (exampleBundle "web" 20).Wo
        (exampleBundle "hard" 300).Wo 2 2 ∧
      MatMeanOf3 avg.sumWc (exampleBundle "soft" 1).Wc (exampleBundle "web" 20).Wc
        (exampleBundle "hard" 300).Wc 2 2 ∧
      VecMeanOf3 avg.sumBi (exampleBundle "soft" 1).Bi (exampleBundle "web" 20).Bi
        (exampleBundle "hard" 300).Bi 2 ∧
      VecMeanOf3 avg.sumBf (exampleBundle "soft" 1).Bf (exampleBundle "web" 20).Bf
        (exampleBundle "hard" 300).Bf 2 ∧
      VecMeanOf3 avg.sumBo (exampleBundle "soft" 1).Bo (exampleBundle "web" 20).Bo
        (exampleBundle "hard" 300).Bo 2 ∧
      VecMeanOf3 avg.sumBc (exampleBundle "soft" 1).Bc (exampleBundle "web" 20).Bc
        (exampleBundle "hard" 300).Bc 2 :=
  ⟨by decide, by decide, by decide, by decide, by decide, by decide,
    C1_mean_correctness exampleMap 1 (exampleBundle "soft" 1)
    (exampleBundle "web" 20) (exampleBundle "hard" 300) 2 2 2
    (by decide) (by decide) (by decide) (by decide) (by decide) (by decide)⟩

/-! ## Staging keys are injective -/

theorem digitChar_toNat {d : Nat} (h : d < 10) : (digitChar d).toNat = 48 + d := by
  interval_cases d <;> rfl

theorem toDigitsAux_isDigit (fuel : Nat) : ∀ (n : Nat) (acc : List Char),
    (∀ c ∈ acc, IsDecDigit c) → ∀ c ∈ toDigitsAux fuel n acc, IsDecDigit c := by
  induction fuel with
  | zero => intro n acc h; simpa [toDigitsAux] using h
  | succ fuel ih =>
    intro n acc h
    unfold toDigitsAux
    split
    · rename_i hn
      intro c hc
      rcases List.mem_cons.1 hc with rfl | hc
      · simp [IsDecDigit, digitChar_toNat hn]; omega
      · exact h c hc
    · apply ih
      intro c hc
      rcases List.mem_cons.1 hc with rfl | hc
      · have : n % 10 < 10 := Nat.mod_lt _ (by decide)
        simp [IsDecDigit, digitChar_toNat this]; omega
      · exact h c hc

theorem natDigits_isDigit (n : Nat) : ∀ c ∈ natDigits n, IsDecDigit c :=
  toDigitsAux_isDigit _ _ _ (by simp)

theorem digitsValue_toDigitsAux (fuel : Nat) : ∀ (n : Nat) (acc : List Char), n < fuel →
    digitsValue 0 (toDigitsAux fuel n acc) = digitsValue n acc := by
  induction fuel with
  | zero => intro n acc h; omega
  | succ fuel ih =>
    intro n acc h
    unfold toDigitsAux
    split
    · rename_i hn
      simp [digitsValue, digitChar_toNat hn]
    · rename_i hn
      rw [ih (n / 10) _ (by omega)]
      have : n % 10 < 10 := Nat.mod_lt _ (by decide)
      simp only [digitsValue, List.foldl_cons, digitChar_toNat this]
      congr 1
      omega

theorem natDigits_injective {a b : Nat} (h : natDigits a = natDigits b) : a = b := by
  have ha := digitsValue_toDigitsAux (a + 1) a [] (by omega)
  have hb := digitsValue_toDigitsAux (b + 1) b [] (by omega)
  simp only [digitsValue, List.foldl_nil] at ha hb
  unfold natDigits at h
  rw [← ha, ← hb, h]

theorem Itoa_injective {a b : Int} (h : Itoa a = Itoa b) : a = b := by
  have minus : ¬ IsDecDigit '-' := by unfold IsDecDigit; decide
  cases a with
  | ofNat x =>
    cases b with
    | ofNat y =>
      have h := congrArg String.data h
      simp only [Itoa] at h
      rw [natDigits_injective h]
    | negSucc y =>
      have h := congrArg String.data h
      simp only [Itoa] at h
      exact absurd (natDigits_isDigit x '-' (by rw [h]; simp)) minus
  | negSucc x =>
    cases b with
    | ofNat y =>
      have h := congrArg String.data h
      simp only [Itoa] at h
      exact absurd (natDigits_isDigit y '-' (by rw [← h]; simp)) minus
    | negSucc y =>
      have h := congrArg String.data h
      simp only [Itoa, List.cons.injEq, true_and] at h
      have := natDigits_injective h
      have : x = y := by omega
      rw [this]

theorem Itoa_no_underscore (r : Int) : '_' ∉ (Itoa r).data := by
  have under : ¬ IsDecDigit '_' := by unfold IsDecDigit; decide
  cases r with
  | ofNat x =>
    intro h
    exact under (natDigits_isDigit x _ h)
  | negSucc x =>
    intro h
    simp only [Itoa, List.mem_cons] at h
    rcases h with h | h
    · exact absurd h (by decide)
    · exact under (natDigits_isDigit _ _ h)

theorem append_sep_inj {α : Type} (c : α) : ∀ (l1 l2 s1 s2 : List α), c ∉ s1 → c ∉ s2 →
    l1 ++ c :: s1 = l2 ++ c :: s2 → l1 = l2 ∧ s1 = s2 := by
  intro l1
  induction l1 with
  | nil =>
    intro l2 s1 s2 h1 h2 h
    cases l2 with
    | nil => simpa using h
    | cons x l2 =>
      simp only [List.nil_append, List.cons_append, List.cons.injEq] at h
      exact absurd (by rw [h.2]; simp) h1
  | cons y l1 ih =>
    intro l2 s1 s2 h1 h2 h
    cases l2 with
    | nil =>
      simp only [List.nil_append, List.cons_append, List.cons.injEq] at h
      exact absurd (by rw [← h.2]; simp) h2
    | cons x l2 =>
      simp only [List.cons_append, List.cons.injEq] at h
      obtain ⟨e1, e2⟩ := ih l2 s1 s2 h1 h2 h.2
      exact ⟨by rw [h.1, e1], e2⟩

theorem stagingKey_data (n : String) (r : Int) :
    (stagingKey n r).data = n.data ++ '_' :: (Itoa r).data := by
  simp [stagingKey, String.data_append]

theorem stagingKey_injective {n1 n2 : String} {r1 r2 : Int}
    (h : stagingKey n1 r1 = stagingKey n2 r2) : n1 = n2 ∧ r1 = r2 := by
  have hd := congrArg String.data h
  rw [stagingKey_data, stagingKey_data] at hd
  obtain ⟨e1, e2⟩ := append_sep_inj '_' _ _ _ _ (Itoa_no_underscore r1) (Itoa_no_underscore r2) hd
  exact ⟨String.ext e1, Itoa_injective (String.ext e2)⟩

/-! ## Effects of the stages on the state -/

theorem prevRound_eq {r : Int} (h1 : -2 ^ 63 < r) (h2 : r < 2 ^ 63) : prevRound r = r - 1 := by
  unfold prevRound wrapInt64
  have : (r - 1 + 2 ^ 63) % 2 ^ 64 = r - 1 + 2 ^ 63 :=
    Int.emod_eq_of_lt (by omega) (by omega)
  omega

theorem prevRound_ne_self (r : Int) : prevRound r ≠ r := by
  unfold prevRound wrapInt64
  omega

theorem mapSet_same {F : Type} (m : ParamMap F) (k : String) (p : LSTMParameters F) :
    mapSet m k p k = some p := by simp [mapSet]

theorem mapSet_other {F : Type} (m : ParamMap F) {k k' : String} (p : LSTMParameters F)
    (h : k' ≠ k) : mapSet m k p k' = m k' := by simp [mapSet, h]

theorem mapDelete_same {F : Type} (m : ParamMap F) (k : String) : mapDelete m k k = none := by
  simp [mapDelete]

theorem mapDelete_other {F : Type} (m : ParamMap F) {k k' : String} (h : k' ≠ k) :
    mapDelete m k k' = m k' := by simp [mapDelete, h]

theorem usePrevious_frame {F : Type} (round : Int) (keys : List String) :
    ∀ (m : ParamMap F) (k : String), (∀ p ∈ keys, k ≠ stagingKey p round) →
      (usePreviousRoundParameters m keys round).2 k = m k := by
  induction keys with
  | nil => intro m k _; rfl
  | cons key rest ih =>
    intro m k hk
    unfold usePreviousRoundParameters
    split
    · rw [ih _ k (fun p hp => hk p (List.mem_cons_of_mem _ hp))]
      exact mapSet_other _ _ (hk key (List.mem_cons_self _ _))
    · rfl

theorem usePrevious_keeps {F : Type} (round : Int) (keys : List String) :
    ∀ (m : ParamMap F) (k : String), (m k).isSome →
      ((usePreviousRoundParameters m keys round).2 k).isSome := by
  induction keys with
  | nil => intro m k h; exact h
  | cons key rest ih =>
    intro m k hk
    unfold usePreviousRoundParameters
    split
    · apply ih
      by_cases e : k = stagingKey key round
      · simp [mapSet, e]
      · simpa [mapSet, e] using hk
    · exact hk

theorem purgeRound_frame {F : Type} (round : Int) (keys : List String) :
    ∀ (m : ParamMap F) (k : String), (∀ p ∈ keys, k ≠ stagingKey p round) →
      purgeRound m round keys k = m k := by
  induction keys with
  | nil => intro m k _; rfl
  | cons key rest ih =>
    intro m k hk
    unfold purgeRound
    rw [ih _ k (fun p hp => hk p (List.mem_cons_of_mem _ hp))]
    exact mapDelete_other _ (hk key (List.mem_cons_self _ _))

theorem purgeRound_none {F : Type} (round : Int) (keys : List String) :
    ∀ (m : ParamMap F) (k : String), m k = none → purgeRound m round keys k = none := by
  induction keys with
  | nil => intro m k h; exact h
  | cons key rest ih =>
    intro m k h
    unfold purgeRound
    apply ih
    by_cases e : k = stagingKey key round
    · simp [mapDelete, e]
    · simpa [mapDelete, e] using h

theorem purgeRound_deleted {F : Type} (round : Int) (keys : List String) :
    ∀ (m : ParamMap F) (p : String), p ∈ keys →
      purgeRound m round keys (stagingKey p round) = none := by
  induction keys with
  | nil => intro m p hp; simp at hp
  | cons key rest ih =>
    intro m p hp
    unfold purgeRound
    rcases List.mem_cons.1 hp with rfl | hp
    · exact purgeRound_none _ _ _ _ (mapDelete_same _ _)
    · exact ih _ p hp

theorem sendGlobalModelToNode_frame {F : Type} (stub : Stub F) (w : World F) (key : String)
    (result : AggregatedResult F) :
    (sendGlobalModelToNode stub w key result).2.localParams = w.localParams ∧
    (sendGlobalModelToNode stub w key result).2.ledger = w.ledger ∧
    (sendGlobalModelToNode stub w key result).2.now = w.now := by
  unfold sendGlobalModelToNode
  split
  · exact ⟨rfl, rfl, rfl⟩
  · split <;> exact ⟨rfl, rfl, rfl⟩

theorem sendToAll_frame {F : Type} (stub : Stub F) (result : AggregatedResult F)
    (keys : List String) : ∀ (w : World F),
    (sendToAll stub result keys w).2.localParams = w.localParams ∧
    (sendToAll stub result keys w).2.ledger = w.ledger ∧
    (sendToAll stub result keys w).2.now = w.now := by
  induction keys with
  | nil => intro w; exact ⟨rfl, rfl, rfl⟩
  | cons key rest ih =>
    intro w
    have h := sendGlobalModelToNode_frame stub w key result
    unfold sendToAll
    split
    · rename_i e w1 heq
      rw [heq] at h
      exact h
    · rename_i w1 heq
      rw [heq] at h
      obtain ⟨h1, h2, h3⟩ := ih w1
      exact ⟨h1.trans h.1, h2.trans h.2.1, h3.trans h.2.2⟩

theorem fallbackMap_eq {F : Type} (w : World F) (round : Int) :
    fallbackMap w round =
      if areAllParametersSubmitted w.localParams participantKeys round then w.localParams
      else (usePreviousRoundParameters w.localParams participantKeys round).2 := by
  unfold fallbackMap fallbackStage barrierStage
  by_cases h : areAllParametersSubmitted w.localParams participantKeys round <;> simp [h]

/-- What a call to `StartAggregation` leaves in the staging map: the map after
the fallback stage, purged of the round when the call succeeds. -/
theorem StartAggregation_localParams {F : Type} [Zero F] [Add F] [Div F] [NatCast F]
    (stub : Stub F) (w : World F) (round : Int) :
    (StartAggregation stub w round).2.localParams =
      match (StartAggregation stub w round).1 with
      | Outcome.ok _ => purgeRound (fallbackMap w round) round participantKeys
      | _ => fallbackMap w round := by
  rcases hfb : fallbackStage (barrierStage w round) round with ⟨_ | err, w2⟩
  · cases hagg : aggregateStage w2 round with
    | none => simp [StartAggregation, prepareAggregation, fallbackMap, hfb, hagg]
    | some result =>
      cases hmar : stub.marshal result with
      | error e => simp [StartAggregation, prepareAggregation, fallbackMap, hfb, hagg, hmar]
      | ok bytes =>
        cases hput : stub.putStateErr ("RESULT_Aggregated_" ++ Itoa round) bytes with
        | some e =>
          simp [StartAggregation, prepareAggregation, finalizeAggregation, fallbackMap, hfb,
            hagg, hmar, hput]
        | none =>
          have hs := sendToAll_frame stub result participantKeys
            { w2 with ledger := fun k =>
                if k = "RESULT_Aggregated_" ++ Itoa round then some bytes else w2.ledger k }
          rcases hsend : sendToAll stub result participantKeys
            { w2 with ledger := fun k =>
                if k = "RESULT_Aggregated_" ++ Itoa round then some bytes else w2.ledger k }
            with ⟨_ | e, w4⟩
          · rw [hsend] at hs
            have h4 : w4.localParams = w2.localParams := hs.1
            simp [StartAggregation, prepareAggregation, finalizeAggregation, fallbackMap, hfb,
              hagg, hmar, hput, hsend, h4]
          · rw [hsend] at hs
            have h4 : w4.localParams = w2.localParams := hs.1
            simp [StartAggregation, prepareAggregation, finalizeAggregation, fallbackMap, hfb,
              hagg, hmar, hput, hsend, h4]
  · simp [StartAggregation, prepareAggregation, fallbackMap, hfb]

/-! ## Upload, purge and round isolation (C4 to C7) -/

theorem StartAggregation_frame {F : Type} [Zero F] [Add F] [Div F] [NatCast F]
    (stub : Stub F) (w : World F) (round : Int) (k : String)
    (hk : ∀ p ∈ participantKeys, k ≠ stagingKey p round) :
    (StartAggregation stub w round).2.localParams k = w.localParams k := by
  have hfb : fallbackMap w round k = w.localParams k := by
    rw [fallbackMap_eq]
    split
    · rfl
    · exact usePrevious_frame round participantKeys _ k hk
  rw [StartAggregation_localParams]
  split
  · rw [purgeRound_frame round participantKeys _ k hk, hfb]
  · exact hfb

/-- C4, as the code has it: after `StartAggregation(r)` returns success the
keys `(p, r)` of the three participants `soft`, `web`, `hard` are deleted, and
a round-`r` key of any other node identifier is left as it was. -/
theorem C4_purge_participants {F : Type} [Zero F] [Add F] [Div F] [NatCast F]
    (stub : Stub F) (w : World F) (r : Int) (payload : String)
    (h : (StartAggregation stub w r).1 = Outcome.ok payload) :
    (∀ p ∈ participantKeys, (StartAggregation stub w r).2.localParams (stagingKey p r) = none) ∧
    (∀ n, n ∉ participantKeys →
      (StartAggregation stub w r).2.localParams (stagingKey n r) =
        w.localParams (stagingKey n r)) := by
  refine ⟨fun p hp => ?_, fun n hn => ?_⟩
  · rw [StartAggregation_localParams, h]
    exact purgeRound_deleted r participantKeys _ p hp
  · apply StartAggregation_frame
    intro p hp e
    exact hn ((stagingKey_injective e).1 ▸ hp)

/-- Witness for C4: the complete round 1 is aggregated and its three keys are gone. -/
theorem C4_purge_participants_witness :
    (StartAggregation exampleStub completeWorld 1).1 =
      Outcome.ok "hard@1:107,2,3,4,5,6,7,107,9,10,107,12,13,107,15,16,107,2,3,107,5,6,7,8" ∧
    ((∀ p ∈ participantKeys,
      (StartAggregation exampleStub completeWorld 1).2.localParams (stagingKey p 1) = none) ∧
    (∀ n, n ∉ participantKeys →
      (StartAggregation exampleStub completeWorld 1).2.localParams (stagingKey n 1) =
        completeWorld.localParams (stagingKey n 1))) :=
  ⟨by decide, C4_purge_participants exampleStub completeWorld 1
    "hard@1:107,2,3,4,5,6,7,107,9,10,107,12,13,107,15,16,107,2,3,107,5,6,7,8" (by decide)⟩

/-- C4 fails as stated: after uploads by `edge`, `soft`, `web` and `hard` for
round 1, `StartAggregation(1)` succeeds and the bundle staged under
`(edge, 1)` is still in the store. -/
theorem C4_round_purge_counterexample :
    (StartAggregation exampleStub strangerWorld 1).1 =
      Outcome.ok "hard@1:107,2,3,4,5,6,7,107,9,10,107,12,13,107,15,16,107,2,3,107,5,6,7,8" ∧
    (StartAggregation exampleStub strangerWorld 1).2.localParams (stagingKey "edge" 1) =
      some { exampleBundle "edge" 7 with Round := 1 } := by
  decide

/-- C5 (round isolation): whatever `StartAggregation(r)` returns, every staged
entry keyed with a round other than `r` is the same after the call as before,
and a key whose entry differs is a round-`r` key of a participant. -/
theorem C5_round_isolation {F : Type} [Zero F] [Add F] [Div F] [NatCast F]
    (stub : Stub F) (w : World F) (r : Int) :
    (∀ (n : String) (r' : Int), r' ≠ r →
      (StartAggregation stub w r).2.localParams (stagingKey n r') =
        w.localParams (stagingKey n r')) ∧
    (∀ k : String, (StartAggregation stub w r).2.localParams k ≠ w.localParams k →
      ∃ p ∈ participantKeys, k = stagingKey p r) := by
  refine ⟨fun n r' hr => ?_, fun k hk => ?_⟩
  · apply StartAggregation_frame
    intro p _ e
    exact hr (stagingKey_injective e).2
  · by_contra hne
    push_neg at hne
    exact hk (StartAggregation_frame stub w r k hne)

/-- C6 (last writer wins): two uploads for the same `(nodeId, round)` leave the
state that the second upload alone leaves; the key holds the second bundle and
every other key is unchanged. -/
theorem C6_upload_last_writer_wins {F : Type} (w : World F) (nodeId : String) (round : Int)
    (b1 b2 : LSTMParameters F) :
    stage (stage w nodeId round b1) nodeId round b2 = stage w nodeId round b2 ∧
    (stage (stage w nodeId round b1) nodeId round b2).localParams (stagingKey nodeId round) =
      some { b2 with NodeID := nodeId, Round := round } ∧
    (∀ k, k ≠ stagingKey nodeId round →
      (stage (stage w nodeId round b1) nodeId round b2).localParams k = w.localParams k) := by
  refine ⟨?_, ?_, fun k hk => ?_⟩
  · simp only [stage, UploadParameter]
    congr 1
    funext k
    by_cases e : k = stagingKey nodeId round <;> simp [mapSet, e]
  · simp [stage, UploadParameter, mapSet]
  · simp [stage, UploadParameter, mapSet, hk]

/-- C7, as the code has it: `UploadParameter` checks nothing. For every node
identifier, participant or not, it returns a nil error, stores the bundle under
`(nodeId, round)` and leaves every other key unchanged. -/
theorem C7_upload_accepts_any_node {F : Type} (w : World F) (nodeId : String)
    (wi wf wo wc : List (List F)) (bi bf bo bc : List F) (round : Int) :
    (UploadParameter w nodeId wi wf wo wc bi bf bo bc round).1 = none ∧
    (UploadParameter w nodeId wi wf wo wc bi bf bo bc round).2.localParams
        (stagingKey nodeId round) =
      some { NodeID := nodeId, Wi := wi, Wf := wf, Wo := wo, Wc := wc,
             Bi := bi, Bf := bf, Bo := bo, Bc := bc, Round := round } ∧
    (∀ k, k ≠ stagingKey nodeId round →
      (UploadParameter w nodeId wi wf wo wc bi bf bo bc round).2.localParams k =
        w.localParams k) := by
  refine ⟨rfl, ?_, fun k hk => ?_⟩
  · simp [UploadParameter, mapSet]
  · simp [UploadParameter, mapSet, hk]

/-- C7 fails as stated: `edge` is not a participant, yet its upload returns a
nil error and changes the store. -/
theorem C7_unknown_participant_counterexample :
    "edge" ∉ participantKeys ∧
    (UploadParameter emptyWorld "edge" [[1]] [[1]] [[1]] [[1]] [1] [1] [1] [1] 1).1 = none ∧
    (UploadParameter emptyWorld "edge" [[1]] [[1]] [[1]] [[1]] [1] [1] [1] [1] 1).2.localParams
        (stagingKey "edge" 1) ≠ emptyWorld.localParams (stagingKey "edge" 1) := by
  decide

/-! ## The fallback and the successful path -/

theorem stagingKey_prev_ne (p q : String) (round : Int) :
    stagingKey q (prevRound round) ≠ stagingKey p round := fun e =>
  prevRound_ne_self round (stagingKey_injective e).2

/-- The fallback fails at the first key without a previous-round bundle. -/
theorem usePrevious_error {F : Type} (m0 : ParamMap F) (round : Int) (keys : List String) :
    ∀ (m : ParamMap F) (p : String),
      (∀ q, m (stagingKey q (prevRound round)) = m0 (stagingKey q (prevRound round))) →
      firstWithoutPrevious m0 round keys = some p →
      (usePreviousRoundParameters m keys round).1 =
        some ("parameter for node " ++ p ++ " not found in previous round") := by
  induction keys with
  | nil => intro m p _ h; simp [firstWithoutPrevious] at h
  | cons key rest ih =>
    intro m p hm h
    unfold usePreviousRoundParameters
    cases hk : m0 (stagingKey key (prevRound round)) with
    | none =>
      have : p = key := by
        simp [firstWithoutPrevious, List.find?_cons, hk] at h
        exact h.symm
      subst this
      have hk' : m (stagingKey p (prevRound round)) = none := by rw [hm, hk]
      simp [hk']
    | some prev =>
      have hk' : m (stagingKey key (prevRound round)) = some prev := by rw [hm, hk]
      simp only [hk']
      apply ih
      · intro q
        rw [mapSet_other _ _ (stagingKey_prev_ne key q round), hm]
      · simpa [firstWithoutPrevious, List.find?_cons, hk] using h

/-- When every key has a previous-round bundle the fallback succeeds and
stores, under each `(p, round)`, the bundle of `(p, round - 1)`. -/
theorem usePrevious_ok {F : Type} (m0 : ParamMap F) (round : Int) (keys : List String) :
    ∀ (m : ParamMap F),
      (∀ q, m (stagingKey q (prevRound round)) = m0 (stagingKey q (prevRound round))) →
      firstWithoutPrevious m0 round keys = none →
      (usePreviousRoundParameters m keys round).1 = none ∧
      ∀ p ∈ keys, (usePreviousRoundParameters m keys round).2 (stagingKey p round) =
        m0 (stagingKey p (prevRound round)) := by
  induction keys with
  | nil => intro m _ _; exact ⟨rfl, fun p hp => by simp at hp⟩
  | cons key rest ih =>
    intro m hm h
    unfold usePreviousRoundParameters
    cases hk : m0 (stagingKey key (prevRound round)) with
    | none => simp [firstWithoutPrevious, List.find?_cons, hk] at h
    | some prev =>
      have hk' : m (stagingKey key (prevRound round)) = some prev := by rw [hm, hk]
      simp only [hk']
      have hrest : firstWithoutPrevious m0 round rest = none := by
        simpa [firstWithoutPrevious, List.find?_cons, hk] using h
      have hm' : ∀ q, mapSet m (stagingKey key round) prev (stagingKey q (prevRound round)) =
          m0 (stagingKey q (prevRound round)) := fun q => by
        rw [mapSet_other _ _ (stagingKey_prev_ne key q round), hm]
      obtain ⟨h1, h2⟩ := ih _ hm' hrest
      refine ⟨h1, fun p hp => ?_⟩
      by_cases hpr : p ∈ rest
      · exact h2 p hpr
      · have hpk : p = key := by
          rcases List.mem_cons.1 hp with e | e
          · exact e
          · exact absurd e hpr
        subst hpk
        rw [usePrevious_frame round rest _ _ (fun q hq e => hpr (by rw [(stagingKey_injective e).1]; exact hq)),
          mapSet_same, hk]

theorem fallbackStage_barrier {F : Type} (w : World F) (round : Int) :
    fallbackStage (barrierStage w round) round =
      if areAllParametersSubmitted w.localParams participantKeys round then
        (none, barrierStage w round)
      else
        ((usePreviousRoundParameters w.localParams participantKeys round).1,
          { barrierStage w round with
            localParams := (usePreviousRoundParameters w.localParams participantKeys round).2 }) := by
  unfold fallbackStage
  by_cases h : areAllParametersSubmitted w.localParams participantKeys round <;>
    simp [h, barrierStage]

/-- An incomplete round whose fallback fails: `StartAggregation` returns the
error of `usePreviousRoundParameters`. -/
theorem StartAggregation_fallback_error {F : Type} [Zero F] [Add F] [Div F] [NatCast F]
    (stub : Stub F) (w : World F) (round : Int) (err : String)
    (hmiss : areAllParametersSubmitted w.localParams participantKeys round = false)
    (herr : (usePreviousRoundParameters w.localParams participantKeys round).1 = some err) :
    (StartAggregation stub w round).1 = Outcome.error err := by
  simp [StartAggregation, prepareAggregation, fallbackStage_barrier, hmiss, herr]

theorem barrierLoop_ge {F : Type} (m : ParamMap F) (keys : List String) (round : Int)
    (startTime : Int) (fuel : Nat) : ∀ now : Int,
    now ≤ barrierLoop m keys round startTime fuel now := by
  induction fuel with
  | zero => intro now; exact le_refl _
  | succ fuel ih =>
    intro now
    unfold barrierLoop
    split
    · split
      · exact le_refl _
      · have := ih (now + CheckInterval)
        unfold CheckInterval at this ⊢
        omega
    · exact le_refl _

/-- Six polls suffice: when the polling loop is left, the round is complete or
the timeout has elapsed. -/
theorem barrierLoop_exit {F : Type} (m : ParamMap F) (keys : List String) (round : Int)
    (startTime : Int) :
    areAllParametersSubmitted m keys round = true ∨
      AggregationTimeout ≤ barrierLoop m keys round startTime 6 startTime - startTime := by
  by_cases h : areAllParametersSubmitted m keys round = true
  · exact Or.inl h
  · right
    have h' : areAllParametersSubmitted m keys round = false := by simpa using h
    simp only [barrierLoop, h', AggregationTimeout, CheckInterval, Bool.false_eq_true, if_false]
    repeat' split
    all_goals omega

theorem indexKeys_leader {t : Int} (h : 0 ≤ t) :
    ∃ leader, leader ∈ participantKeys ∧
      indexKeys participantKeys (Int.tmod t (participantKeys.length : Int)) = some leader := by
  have e : Int.tmod t (participantKeys.length : Int) = t % 3 := by
    rw [Int.tmod_eq_emod h (by decide)]
    rfl
  rw [e]
  have h3 : t % 3 = 0 ∨ t % 3 = 1 ∨ t % 3 = 2 := by omega
  rcases h3 with h3 | h3 | h3 <;> rw [h3]
  · exact ⟨"soft", by decide, by decide⟩
  · exact ⟨"web", by decide, by decide⟩
  · exact ⟨"hard", by decide, by decide⟩

theorem sendToAll_reliable {F : Type} (stub : Stub F) (hstub : Reliable stub)
    (result : AggregatedResult F) (keys : List String) : ∀ w : World F,
    (sendToAll stub result keys w).1 = none := by
  induction keys with
  | nil => intro w; rfl
  | cons key rest ih =>
    intro w
    obtain ⟨bytes, hb⟩ := hstub.1 result
    have hsend : sendGlobalModelToNode stub w key result =
        (none, { w with eventCalls := w.eventCalls ++ [("GlobalModelUpdate", bytes)] }) := by
      simp [sendGlobalModelToNode, hb, hstub.2.2]
    simp only [sendToAll, hsend]
    exact ih _

/-- In a reliable environment with a non-negative clock, a round that passes
the fallback stage and whose aggregation does not panic returns the
serialization of the averaged accumulators with a participant as leader. -/
theorem StartAggregation_ok {F : Type} [Zero F] [Add F] [Div F] [NatCast F]
    (stub : Stub F) (hstub : Reliable stub) (w : World F) (hnow : 0 ≤ w.now) (round : Int)
    (sums avg : Sums F)
    (hfb : (fallbackStage (barrierStage w round) round).1 = none)
    (hagg : aggregateParameters (fallbackMap w round) participantKeys round = some sums)
    (havg : calculateAverage sums 3 = some avg) :
    ∃ leader payload, leader ∈ participantKeys ∧
      stub.marshal { NodeID := leader, Wi := avg.sumWi, Wf := avg.sumWf, Wo := avg.sumWo,
                     Wc := avg.sumWc, Bi := avg.sumBi, Bf := avg.sumBf, Bo := avg.sumBo,
                     Bc := avg.sumBc, Round := round } = Except.ok payload ∧
      (StartAggregation stub w round).1 = Outcome.ok payload := by
  rcases hst : fallbackStage (barrierStage w round) round with ⟨e, w2⟩
  rw [hst] at hfb
  simp only at hfb
  subst hfb
  have hm : w2.localParams = fallbackMap w round := by simp [fallbackMap, hst]
  have hclock : 0 ≤ w2.now := by
    have h1 := (fallbackStage_barrier w round).symm.trans hst
    have h2 : w2.now = (barrierStage w round).now := by
      have h3 := congrArg (fun x => x.2.now) h1
      split at h3 <;> exact h3.symm
    rw [h2]
    exact le_trans hnow (barrierLoop_ge _ _ _ _ _ _)
  obtain ⟨leader, hl, hidx⟩ := indexKeys_leader hclock
  obtain ⟨payload, hpay⟩ := hstub.1
    { NodeID := leader, Wi := avg.sumWi, Wf := avg.sumWf, Wo := avg.sumWo,
      Wc := avg.sumWc, Bi := avg.sumBi, Bf := avg.sumBf, Bo := avg.sumBo,
      Bc := avg.sumBc, Round := round }
  refine ⟨leader, payload, hl, hpay, ?_⟩
  have hlen : participantKeys.length = 3 := rfl
  have hstage : aggregateStage w2 round = some
      { NodeID := leader, Wi := avg.sumWi, Wf := avg.sumWf, Wo := avg.sumWo,
        Wc := avg.sumWc, Bi := avg.sumBi, Bf := avg.sumBf, Bo := avg.sumBo,
        Bc := avg.sumBc, Round := round } := by
    simp only [aggregateStage, hm, hagg, hlen, havg]
    rw [← hlen, hidx]
  have hsend := sendToAll_reliable stub hstub
    { NodeID := leader, Wi := avg.sumWi, Wf := avg.sumWf, Wo := avg.sumWo,
      Wc := avg.sumWc, Bi := avg.sumBi, Bf := avg.sumBf, Bo := avg.sumBo,
      Bc := avg.sumBc, Round := round } participantKeys
    { w2 with ledger := fun k =>
        if k = "RESULT_Aggregated_" ++ Itoa round then some payload else w2.ledger k }
  rcases hs : sendToAll stub
    { NodeID := leader, Wi := avg.sumWi, Wf := avg.sumWf, Wo := avg.sumWo,
      Wc := avg.sumWc, Bi := avg.sumBi, Bf := avg.sumBf, Bo := avg.sumBo,
      Bc := avg.sumBc, Round := round } participantKeys
    { w2 with ledger := fun k =>
        if k = "RESULT_Aggregated_" ++ Itoa round then some payload else w2.ledger k }
    with ⟨e, w4⟩
  rw [hs] at hsend
  simp only at hsend
  subst hsend
  simp [StartAggregation, prepareAggregation, finalizeAggregation, hst, hstage, hpay,
    hstub.2.1, hs]

/-! ## Fallback, retention and persistence failure (C8, C9, C10) -/

theorem exampleStub_reliable : Reliable exampleStub :=
  ⟨fun res => ⟨renderResult res, rfl⟩, fun _ _ => rfl, fun _ _ _ => rfl⟩

/-- C8, as the code has it: when the round-`r` key set is incomplete and some
participant has no bundle for the previous round, `StartAggregation(r)` fails
with exactly `parameter for node <p> not found in previous round`, where `p` is
the first of `soft`, `web`, `hard` without a previous-round bundle, whether or
not `p` submitted for round `r`. -/
theorem C8_missing_previous_names_first_without_previous
    {F : Type} [Zero F] [Add F] [Div F] [NatCast F]
    (stub : Stub F) (w : World F) (r : Int) (p : String)
    (hmiss : areAllParametersSubmitted w.localParams participantKeys r = false)
    (hp : firstWithoutPrevious w.localParams r participantKeys = some p) :
    (StartAggregation stub w r).1 =
      Outcome.error ("parameter for node " ++ p ++ " not found in previous round") :=
  StartAggregation_fallback_error stub w r _ hmiss
    (usePrevious_error w.localParams r participantKeys w.localParams p (fun _ => rfl) hp)

/-- Witness for C8: round 1 staged by `soft` and `web` only, nothing staged for round 0. -/
theorem C8_missing_previous_names_first_without_previous_witness :
    areAllParametersSubmitted noPreviousWorld.localParams participantKeys 1 = false ∧
    firstWithoutPrevious noPreviousWorld.localParams 1 participantKeys = some "soft" ∧
    (StartAggregation exampleStub noPreviousWorld 1).1 =
      Outcome.error ("parameter for node " ++ "soft" ++ " not found in previous round") :=
  ⟨by decide, by decide,
    C8_missing_previous_names_first_without_previous exampleStub noPreviousWorld 1 "soft"
      (by decide) (by decide)⟩

/-- C8 fails as stated: with round 1 staged by `soft` and `web` only and
nothing staged for round 0, the error names `soft`, which is not missing from
round 1, and not `hard`. -/
theorem C8_missing_previous_counterexample :
    (noPreviousWorld.localParams (stagingKey "soft" 1)).isSome = true ∧
    (noPreviousWorld.localParams (stagingKey "hard" 1)).isSome = false ∧
    (StartAggregation exampleStub noPreviousWorld 1).1 =
      Outcome.error "parameter for node soft not found in previous round" ∧
    (StartAggregation exampleStub noPreviousWorld 1).1 ≠
      Outcome.error "parameter for node hard not found in previous round" := by
  decide

/-- C9, as the code has it: a successful `StartAggregation` for the previous
round deletes the previous-round bundles of the three participants, so they
are not retained for round `r`: if `soft` does not upload its previous-round
bundle again and the round-`r` key set is incomplete, `StartAggregation(r)`
fails with `parameter for node soft not found in previous round` instead of
completing by fallback. `prevRound r` is Go's `r-1`. -/
theorem C9_previous_round_is_purged {F : Type} [Zero F] [Add F] [Div F] [NatCast F]
    (stub : Stub F) (w : World F) (r : Int) (payload : String)
    (hok : (StartAggregation stub w (prevRound r)).1 = Outcome.ok payload) :
    (∀ p ∈ participantKeys,
      (StartAggregation stub w (prevRound r)).2.localParams (stagingKey p (prevRound r)) =
        none) ∧
    ∀ (stub' : Stub F) (w' : World F),
      w'.localParams (stagingKey "soft" (prevRound r)) =
        (StartAggregation stub w (prevRound r)).2.localParams
          (stagingKey "soft" (prevRound r)) →
      areAllParametersSubmitted w'.localParams participantKeys r = false →
      (StartAggregation stub' w' r).1 =
        Outcome.error "parameter for node soft not found in previous round" := by
  have hdel : ∀ p ∈ participantKeys,
      (StartAggregation stub w (prevRound r)).2.localParams (stagingKey p (prevRound r)) =
        none := by
    intro p hp
    rw [StartAggregation_localParams, hok]
    exact purgeRound_deleted (prevRound r) participantKeys _ p hp
  refine ⟨hdel, fun stub' w' hsame hmiss => ?_⟩
  have hsoft : w'.localParams (stagingKey "soft" (prevRound r)) = none := by
    rw [hsame]; exact hdel "soft" (by decide)
  have hfirst : firstWithoutPrevious w'.localParams r participantKeys = some "soft" := by
    simp [firstWithoutPrevious, participantKeys, hsoft]
  exact StartAggregation_fallback_error stub' w' r _ hmiss
    (usePrevious_error w'.localParams r participantKeys w'.localParams "soft" (fun _ => rfl)
      hfirst)

/-- Witness for C9: round 0 is aggregated, then `soft` and `web` upload for round 1. -/
theorem C9_previous_round_is_purged_witness :
    (StartAggregation exampleStub roundZeroWorld (prevRound 1)).1 =
      Outcome.ok "hard@0:107,2,3,4,5,6,7,107,9,10,107,12,13,107,15,16,107,2,3,107,5,6,7,8" ∧
    (∀ p ∈ participantKeys,
      (StartAggregation exampleStub roundZeroWorld (prevRound 1)).2.localParams
        (stagingKey p (prevRound 1)) = none) ∧
    (StartAggregation exampleStub afterRoundZeroWorld 1).1 =
      Outcome.error "parameter for node soft not found in previous round" :=
  ⟨by decide,
    (C9_previous_round_is_purged exampleStub roundZeroWorld 1
      "hard@0:107,2,3,4,5,6,7,107,9,10,107,12,13,107,15,16,107,2,3,107,5,6,7,8"
      (by decide)).1,
    (C9_previous_round_is_purged exampleStub roundZeroWorld 1
      "hard@0:107,2,3,4,5,6,7,107,9,10,107,12,13,107,15,16,107,2,3,107,5,6,7,8"
      (by decide)).2 exampleStub afterRoundZeroWorld (by decide) (by decide)⟩

/-- C9 fails as stated: all three upload for round 0 and `StartAggregation(0)`
succeeds; `hard`'s round-0 bundle is then gone; `soft` and `web` upload for
round 1 and `StartAggregation(1)` fails instead of completing by fallback. -/
theorem C9_previous_round_retention_counterexample :
    (StartAggregation exampleStub roundZeroWorld 0).1 =
      Outcome.ok "hard@0:107,2,3,4,5,6,7,107,9,10,107,12,13,107,15,16,107,2,3,107,5,6,7,8" ∧
    afterRoundZeroWorld.localParams (stagingKey "hard" 0) = none ∧
    (StartAggregation exampleStub afterRoundZeroWorld 1).1 =
      Outcome.error "parameter for node soft not found in previous round" := by
  decide

/-- C10 (persistence failure): when aggregation reaches the persist step (the
fallback stage returns no error, the aggregation yields `result` and
`json.Marshal` yields `bytes`) and `PutState` of `RESULT_Aggregated_<r>` fails
with `e`, `StartAggregation(r)` returns the error `failed to put state: e`, no
`SetEvent` call is made, nothing is written to the world state and no staged
key is deleted. -/
theorem C10_persistence_failure_stops_finalization
    {F : Type} [Zero F] [Add F] [Div F] [NatCast F]
    (stub : Stub F) (w : World F) (r : Int) (result : AggregatedResult F) (bytes e : String)
    (hfb : (fallbackStage (barrierStage w r) r).1 = none)
    (hagg : aggregateStage (fallbackStage (barrierStage w r) r).2 r = some result)
    (hmar : stub.marshal result = Except.ok bytes)
    (hput : stub.putStateErr ("RESULT_Aggregated_" ++ Itoa r) bytes = some e) :
    (StartAggregation stub w r).1 = Outcome.error ("failed to put state: " ++ e) ∧
    (StartAggregation stub w r).2.eventCalls = w.eventCalls ∧
    (StartAggregation stub w r).2.ledger = w.ledger ∧
    (∀ k, (w.localParams k).isSome → ((StartAggregation stub w r).2.localParams k).isSome) := by
  rcases hst : fallbackStage (barrierStage w r) r with ⟨err, w2⟩
  rw [hst] at hfb hagg
  simp only at hfb hagg
  subst hfb
  have hw2 := (fallbackStage_barrier w r).symm.trans hst
  have hSA : StartAggregation stub w r = (Outcome.error ("failed to put state: " ++ e), w2) := by
    simp [StartAggregation, prepareAggregation, finalizeAggregation, hst, hagg, hmar, hput]
  rw [hSA]
  have hev : w2.eventCalls = w.eventCalls := by
    have h3 := congrArg (fun x => x.2.eventCalls) hw2
    split at h3 <;> exact h3.symm
  have hled : w2.ledger = w.ledger := by
    have h3 := congrArg (fun x => x.2.ledger) hw2
    split at h3 <;> exact h3.symm
  have hmap : w2.localParams = fallbackMap w r := by simp [fallbackMap, hst]
  refine ⟨rfl, hev, hled, fun k hk => ?_⟩
  show (w2.localParams k).isSome
  rw [hmap, fallbackMap_eq]
  split
  · exact hk
  · exact usePrevious_keeps r participantKeys _ k hk

/-- Witness for C10: the complete round 1 in an environment whose `PutState` fails. -/
theorem C10_persistence_failure_stops_finalization_witness :
    (fallbackStage (barrierStage completeWorld 1) 1).1 = none ∧
    failingPutStub.putStateErr ("RESULT_Aggregated_" ++ Itoa 1)
      "hard@1:107,2,3,4,5,6,7,107,9,10,107,12,13,107,15,16,107,2,3,107,5,6,7,8" =
      some "ledger unavailable" ∧
    (StartAggregation failingPutStub completeWorld 1).1 =
      Outcome.error ("failed to put state: " ++ "ledger unavailable") ∧
    (StartAggregation failingPutStub completeWorld 1).2.eventCalls = completeWorld.eventCalls ∧
    (StartAggregation failingPutStub completeWorld 1).2.ledger = completeWorld.ledger ∧
    (∀ k, (completeWorld.localParams k).isSome →
      ((StartAggregation failingPutStub completeWorld 1).2.localParams k).isSome) :=
  ⟨by decide, by decide,
    C10_persistence_failure_stops_finalization failingPutStub completeWorld 1
      { NodeID := "hard", Wi := [[107, 2], [3, 4]], Wf := [[5, 6], [7, 107]],
        Wo := [[9, 10], [107, 12]], Wc := [[13, 107], [15, 16]],
        Bi := [107, 2], Bf := [3, 107], Bo := [5, 6], Bc := [7, 8], Round := 1 }
      "hard@1:107,2,3,4,5,6,7,107,9,10,107,12,13,107,15,16,107,2,3,107,5,6,7,8"
      "ledger unavailable" (by decide) (by decide) rfl (by decide)⟩

/-! ## Partial loops and shapes of the accumulators -/

theorem forRangeFrom_partial {σ : Type} (body : Nat → σ → Option σ) (I : Nat → σ → Prop) :
    ∀ (n lo : Nat) (s s' : σ), I lo s →
      (∀ k t t', lo ≤ k → k < lo + n → I k t → body k t = some t' → I (k + 1) t') →
      forRangeFrom body lo n s = some s' → I (lo + n) s' := by
  intro n
  induction n with
  | zero =>
    intro lo s s' h0 _ h
    simp only [forRangeFrom, Option.some.injEq] at h
    subst h
    simpa using h0
  | succ n ih =>
    intro lo s s' h0 hstep h
    unfold forRangeFrom at h
    cases hb : body lo s with
    | none => simp [hb] at h
    | some t =>
      simp only [hb] at h
      have := ih (lo + 1) t s' (hstep lo s t (Nat.le_refl _) (by omega) h0 hb)
        (fun k u u' hk1 hk2 hu => hstep k u u' (by omega) (by omega) hu) h
      have e : lo + (n + 1) = lo + 1 + n := by omega
      rw [e]; exact this

theorem forRange_preserves {σ : Type} (body : Nat → σ → Option σ) (P : σ → Prop)
    (hstep : ∀ k t t', P t → body k t = some t' → P t') (n : Nat) (s s' : σ) (h0 : P s)
    (h : forRange n body s = some s') : P s' :=
  forRangeFrom_partial body (fun _ t => P t) n 0 s s' h0
    (fun k t t' _ _ ht hb => hstep k t t' ht hb) h

theorem forRangeFrom_none {σ : Type} (body : Nat → σ → Option σ) (P : σ → Prop)
    (hstep : ∀ k t t', P t → body k t = some t' → P t') (k : Nat)
    (hk : ∀ t, P t → body k t = none) :
    ∀ (n lo : Nat) (s : σ), P s → lo ≤ k → k < lo + n → forRangeFrom body lo n s = none := by
  intro n
  induction n with
  | zero => intro lo s _ h1 h2; omega
  | succ n ih =>
    intro lo s h0 h1 h2
    unfold forRangeFrom
    cases hb : body lo s with
    | none => rfl
    | some t =>
      simp only
      by_cases e : lo = k
      · subst e
        rw [hk s h0] at hb
        cases hb
      · exact ih (lo + 1) t (hstep lo s t h0 hb) (by omega) (by omega)

theorem forRange_none {σ : Type} (body : Nat → σ → Option σ) (P : σ → Prop)
    (hstep : ∀ k t t', P t → body k t = some t' → P t') (k n : Nat) (hkn : k < n)
    (hk : ∀ t, P t → body k t = none) (s : σ) (h0 : P s) : forRange n body s = none :=
  forRangeFrom_none body P hstep k hk n 0 s h0 (Nat.zero_le _) (by omega)

theorem forKeys_none {σ : Type} (body : String → σ → Option σ) (P : σ → Prop)
    (hstep : ∀ k t t', P t → body k t = some t' → P t') (p : String)
    (hp : ∀ t, P t → body p t = none) :
    ∀ (keys : List String) (s : σ), P s → p ∈ keys → forKeys body keys s = none := by
  intro keys
  induction keys with
  | nil => intro s _ h; simp at h
  | cons key rest ih =>
    intro s h0 hmem
    unfold forKeys
    cases hb : body key s with
    | none => rfl
    | some t =>
      simp only
      rcases List.mem_cons.1 hmem with e | e
      · subst e
        rw [hp s h0] at hb
        cases hb
      · exact ih t (hstep key s t h0 hb) e

theorem updAt_length {F : Type} {v v' : List F} {i : Nat} {f : F → F}
    (h : updAt v i f = some v') : v'.length = v.length := by
  unfold updAt at h
  split at h
  · cases h
  · cases h; simp

theorem updAt2_shape {F : Type} {m m' : List (List F)} {i j : Nat} {f : F → F}
    (h : updAt2 m i j f = some m') : m'.map List.length = m.map List.length := by
  unfold updAt2 at h
  split at h
  · cases h
  · rename_i row hrow
    split at h
    · cases h
    · rename_i row' hrow'
      cases h
      apply List.ext_getElem?
      intro a
      simp only [List.getElem?_map, List.getElem?_set]
      by_cases e : i = a
      · subst e
        have hi : i < m.length := by
          by_contra hc
          rw [List.getElem?_eq_none (by omega)] at hrow
          cases hrow
        simp [hi, hrow, updAt_length hrow']
      · simp [e]

theorem updAt2_none {F : Type} {m m0 : List (List F)} {i j : Nat} (f : F → F)
    (hshape : m.map List.length = m0.map List.length) (hout : get2 m0 i j = none) :
    updAt2 m i j f = none := by
  have hi := congrArg (fun l => l[i]?) hshape
  simp only [List.getElem?_map] at hi
  unfold updAt2
  cases hrow : m[i]? with
  | none => rfl
  | some row =>
    simp only
    cases hrow0 : m0[i]? with
    | none => simp [hrow, hrow0] at hi
    | some row0 =>
      simp only [hrow, hrow0, Option.map_some', Option.some.injEq] at hi
      have hj : row0[j]? = none := by simpa [get2, hrow0] using hout
      have hj' : row[j]? = none := by
        rw [List.getElem?_eq_none_iff] at hj ⊢
        omega
      simp [updAt, hj']

theorem addCell_shape {F : Type} [Add F] (param : LSTMParameters F) (i j : Nat)
    (s s' : Sums F) (h : addCell param i j s = some s') :
    s'.sumWi.map List.length = s.sumWi.map List.length := by
  unfold addCell at h
  split at h
  · split at h
    · rename_i wi wf wo wc hwi _ _ _
      cases h
      exact updAt2_shape hwi
    · cases h
  · cases h

theorem addCell_none {F : Type} [Add F] (param : LSTMParameters F) (i j : Nat)
    (m0 : List (List F)) (hout : get2 m0 i j = none) (s : Sums F)
    (hshape : s.sumWi.map List.length = m0.map List.length) : addCell param i j s = none := by
  unfold addCell
  split
  · rename_i xi xf xo xc _ _ _ _
    have hn : updAt2 s.sumWi i j (fun a => a + xi) = none := updAt2_none _ hshape hout
    split
    · rename_i wi wf wo wc hwi _ _ _
      rw [hn] at hwi
      cases hwi
    · rfl
  · rfl

theorem addBias_sumWi {F : Type} [Add F] (param : LSTMParameters F) (i : Nat)
    (s s' : Sums F) (h : addBias param i s = some s') : s'.sumWi = s.sumWi := by
  unfold addBias at h
  split at h
  · split at h
    · cases h; rfl
    · cases h
  · cases h

theorem addParam_shape {F : Type} [Add F] (m : ParamMap F) (round : Int) (key : String)
    (m0 : List (List F)) (s s' : Sums F)
    (hshape : s.sumWi.map List.length = m0.map List.length)
    (h : addParam m round key s = some s') :
    s'.sumWi.map List.length = m0.map List.length := by
  unfold addParam at h
  simp only at h
  split at h
  · cases h
  · rename_i s1 hs1
    have h1 : s1.sumWi.map List.length = m0.map List.length :=
      forRange_preserves _ (fun t => t.sumWi.map List.length = m0.map List.length)
        (fun i t t' ht hb =>
          forRange_preserves _ (fun u => u.sumWi.map List.length = m0.map List.length)
            (fun j u u' hu hc => (addCell_shape _ i j u u' hc).trans hu) _ t t' ht hb)
        _ s s1 hshape hs1
    exact forRange_preserves _ (fun t => t.sumWi.map List.length = m0.map List.length)
      (fun i t t' ht hb => by
        show t'.sumWi.map List.length = m0.map List.length
        rw [addBias_sumWi _ i t t' hb]; exact ht) _ s1 s' h1 h

theorem addParam_none {F : Type} [Add F] (m : ParamMap F) (round : Int) (key : String)
    (m0 : List (List F)) (i j : Nat)
    (hin : (get2 (mapGet m (stagingKey key round)).Wi i j).isSome)
    (hout : get2 m0 i j = none) (s : Sums F)
    (hshape : s.sumWi.map List.length = m0.map List.length) :
    addParam m round key s = none := by
  have hrow : ∃ row, (mapGet m (stagingKey key round)).Wi[i]? = some row ∧ j < row.length := by
    unfold get2 at hin
    split at hin
    · cases hin
    · rename_i row hrow
      refine ⟨row, hrow, ?_⟩
      by_contra hc
      rw [List.getElem?_eq_none (by omega)] at hin
      cases hin
  obtain ⟨row, hrow, hj⟩ := hrow
  have hi : i < (mapGet m (stagingKey key round)).Wi.length := by
    by_contra hc
    rw [List.getElem?_eq_none (by omega)] at hrow
    cases hrow
  have hlen : ((mapGet m (stagingKey key round)).Wi.getD i []).length = row.length := by
    simp [List.getD_eq_getElem?_getD, hrow]
  have houter : forRange (mapGet m (stagingKey key round)).Wi.length
      (fun i s1 => forRange ((mapGet m (stagingKey key round)).Wi.getD i []).length
        (addCell (mapGet m (stagingKey key round)) i) s1) s = none :=
    forRange_none _ (fun t => t.sumWi.map List.length = m0.map List.length)
      (fun a t t' ht hb =>
        forRange_preserves _ (fun u => u.sumWi.map List.length = m0.map List.length)
          (fun b u u' hu hc => (addCell_shape _ a b u u' hc).trans hu) _ t t' ht hb)
      i _ hi
      (fun t ht =>
        forRange_none _ (fun u => u.sumWi.map List.length = m0.map List.length)
          (fun b u u' hu hc => (addCell_shape _ i b u u' hc).trans hu)
          j _ (by rw [hlen]; exact hj)
          (fun u hu => addCell_none _ i j m0 hout u hu) t ht)
      s hshape
  unfold addParam
  simp only [houter]

theorem initRow_shape {F : Type} [Zero F] (first : LSTMParameters F) (k : Nat)
    (t t' : SumMatrices F) (ht : t.sumWi.map List.length = (first.Wi.take k).map List.length)
    (h : initRow first k t = some t') :
    t'.sumWi.map List.length = (first.Wi.take (k + 1)).map List.length := by
  unfold initRow at h
  split at h
  · rename_i ri rf ro rc hri _ _ _
    cases h
    simp [ht, List.take_succ, hri, makeZeros]
  · cases h

theorem initializeSumMatrices_shape {F : Type} [Zero F] (m : ParamMap F) (k0 : String)
    (rest : List String) (round : Int) (w : SumMatrices F)
    (h : initializeSumMatrices m (k0 :: rest) round = some w) :
    w.sumWi.map List.length = (mapGet m (stagingKey k0 round)).Wi.map List.length := by
  simp only [initializeSumMatrices, List.getElem?_cons_zero] at h
  have := forRangeFrom_partial (initRow (mapGet m (stagingKey k0 round)))
    (fun k (t : SumMatrices F) =>
      t.sumWi.map List.length = ((mapGet m (stagingKey k0 round)).Wi.take k).map List.length)
    _ 0 _ w (by simp)
    (fun k t t' _ _ ht hb => initRow_shape _ k t t' ht hb) h
  simpa using this

/-- An entry of some participant's `Wi` outside the `Wi` of the first
participant makes `aggregateParameters` panic. -/
theorem aggregateParameters_none {F : Type} [Zero F] [Add F] (m : ParamMap F) (round : Int)
    (p : String) (i j : Nat) (hp : p ∈ participantKeys)
    (hin : (get2 (mapGet m (stagingKey p round)).Wi i j).isSome)
    (hout : get2 (mapGet m (stagingKey "soft" round)).Wi i j = none) :
    aggregateParameters m participantKeys round = none := by
  unfold aggregateParameters
  cases hinit : initializeSumMatrices m participantKeys round with
  | none => rfl
  | some w =>
    have hshape := initializeSumMatrices_shape m "soft" ["web", "hard"] round w hinit
    simp only [participantKeys, List.getElem?_cons_zero]
    exact forKeys_none _
      (fun t => t.sumWi.map List.length =
        (mapGet m (stagingKey "soft" round)).Wi.map List.length)
      (fun key t t' ht hb => addParam_shape m round key _ t t' ht hb) p
      (fun t ht => addParam_none m round p _ i j hin hout t ht) _ _ hshape hp

theorem areAllParametersSubmitted_of_staged {F : Type} (m : ParamMap F) (round : Int)
    (h : ∀ p ∈ participantKeys, (m (stagingKey p round)).isSome) :
    areAllParametersSubmitted m participantKeys round = true := by
  have h1 := h "soft" (by decide)
  have h2 := h "web" (by decide)
  have h3 := h "hard" (by decide)
  simp [areAllParametersSubmitted, countSubmitted, participantKeys, h1, h2, h3]

/-! ## Finalization: events and persistence (C11, C12) -/

/-- What the three sends of `StartAggregation` do, by the first `SetEvent` that
fails. -/
theorem sendToAll_cases {F : Type} (stub : Stub F) (result : AggregatedResult F)
    (payload : String) (hmar : stub.marshal result = Except.ok payload) (w : World F) :
    (∃ e, stub.setEventErr w.eventCalls "GlobalModelUpdate" payload = some e ∧
      sendToAll stub result participantKeys w =
        (some ("failed to send global model to node " ++ "soft" ++ ": " ++ e),
          withEvents w 1 payload)) ∨
    (∃ e, stub.setEventErr w.eventCalls "GlobalModelUpdate" payload = none ∧
      stub.setEventErr (withEvents w 1 payload).eventCalls "GlobalModelUpdate" payload =
        some e ∧
      sendToAll stub result participantKeys w =
        (some ("failed to send global model to node " ++ "web" ++ ": " ++ e),
          withEvents w 2 payload)) ∨
    (∃ e, stub.setEventErr w.eventCalls "GlobalModelUpdate" payload = none ∧
      stub.setEventErr (withEvents w 1 payload).eventCalls "GlobalModelUpdate" payload =
        none ∧
      stub.setEventErr (withEvents w 2 payload).eventCalls "GlobalModelUpdate" payload =
        some e ∧
      sendToAll stub result participantKeys w =
        (some ("failed to send global model to node " ++ "hard" ++ ": " ++ e),
          withEvents w 3 payload)) ∨
    (stub.setEventErr w.eventCalls "GlobalModelUpdate" payload = none ∧
      stub.setEventErr (withEvents w 1 payload).eventCalls "GlobalModelUpdate" payload =
        none ∧
      stub.setEventErr (withEvents w 2 payload).eventCalls "GlobalModelUpdate" payload =
        none ∧
      sendToAll stub result participantKeys w = (none, withEvents w 3 payload)) := by
  cases h1 : stub.setEventErr w.eventCalls "GlobalModelUpdate" payload with
  | some e =>
    left
    exact ⟨e, rfl, by
      simp [sendToAll, sendGlobalModelToNode, participantKeys, hmar, h1, withEvents,
        updateEvent]⟩
  | none =>
    right
    cases h2 : stub.setEventErr (withEvents w 1 payload).eventCalls "GlobalModelUpdate"
      payload with
    | some e =>
      left
      simp only [withEvents, updateEvent, List.replicate] at h2
      exact ⟨e, rfl, rfl, by
        simp [sendToAll, sendGlobalModelToNode, participantKeys, hmar, h1, h2, withEvents,
          updateEvent, List.replicate]⟩
    | none =>
      right
      cases h3 : stub.setEventErr (withEvents w 2 payload).eventCalls "GlobalModelUpdate"
        payload with
      | some e =>
        left
        simp only [withEvents, updateEvent, List.replicate] at h2 h3
        exact ⟨e, rfl, rfl, rfl, by
          simp [sendToAll, sendGlobalModelToNode, participantKeys, hmar, h1, h2, h3,
            withEvents, updateEvent, List.replicate]⟩
      | none =>
        right
        simp only [withEvents, updateEvent, List.replicate] at h2 h3
        exact ⟨rfl, rfl, rfl, by
          simp [sendToAll, sendGlobalModelToNode, participantKeys, hmar, h1, h2, h3,
            withEvents, updateEvent, List.replicate]⟩

theorem finalizeAggregation_eq {F : Type} (stub : Stub F) (w : World F) (round : Int)
    (result : AggregatedResult F) (payload : String) :
    finalizeAggregation stub w round result payload =
      match stub.putStateErr (resultKey round) payload with
      | some e => (Outcome.error ("failed to put state: " ++ e), w)
      | none =>
        match sendToAll stub result participantKeys (persisted w round payload) with
        | (some e, w4) => (Outcome.error e, w4)
        | (none, w4) =>
          (Outcome.ok payload,
            { w4 with localParams := purgeRound w4.localParams round participantKeys }) :=
  rfl

/-- Once the result is serialized, `StartAggregation` is its finalization. -/
theorem StartAggregation_prepared {F : Type} [Zero F] [Add F] [Div F] [NatCast F]
    (stub : Stub F) (w w2 : World F) (round : Int) (result : AggregatedResult F)
    (payload : String)
    (hfb : fallbackStage (barrierStage w round) round = (none, w2))
    (hagg : aggregateStage w2 round = some result)
    (hmar : stub.marshal result = Except.ok payload) :
    StartAggregation stub w round = finalizeAggregation stub w2 round result payload := by
  simp [StartAggregation, prepareAggregation, hfb, hagg, hmar]

/-- A successful `StartAggregation` went through every stage. -/
theorem StartAggregation_ok_inv {F : Type} [Zero F] [Add F] [Div F] [NatCast F]
    (stub : Stub F) (w : World F) (round : Int) (payload : String)
    (h : (StartAggregation stub w round).1 = Outcome.ok payload) :
    ∃ w2 result, fallbackStage (barrierStage w round) round = (none, w2) ∧
      aggregateStage w2 round = some result ∧
      stub.marshal result = Except.ok payload ∧
      stub.putStateErr (resultKey round) payload = none ∧
      (StartAggregation stub w round).2 =
        { withEvents (persisted w2 round payload) 3 payload with
          localParams := purgeRound w2.localParams round participantKeys } := by
  rcases hfb : fallbackStage (barrierStage w round) round with ⟨_ | err, w2⟩
  · cases hagg : aggregateStage w2 round with
    | none => simp [StartAggregation, prepareAggregation, hfb, hagg] at h
    | some result =>
      cases hmar : stub.marshal result with
      | error e => simp [StartAggregation, prepareAggregation, hfb, hagg, hmar] at h
      | ok bytes =>
        rw [StartAggregation_prepared stub w w2 round result bytes hfb hagg hmar,
          finalizeAggregation_eq] at h ⊢
        cases hput : stub.putStateErr (resultKey round) bytes with
        | some e => simp [hput] at h
        | none =>
          simp only [hput] at h ⊢
          rcases sendToAll_cases stub result bytes hmar (persisted w2 round bytes) with
            ⟨e, _, hs⟩ | ⟨e, _, _, hs⟩ | ⟨e, _, _, _, hs⟩ | ⟨_, _, _, hs⟩
          · simp [hs] at h
          · simp [hs] at h
          · simp [hs] at h
          · simp only [hs, Outcome.ok.injEq] at h ⊢
            subst h
            exact ⟨w2, result, rfl, hagg, hmar, hput, rfl⟩
  · simp [StartAggregation, prepareAggregation, hfb] at h

theorem fallbackStage_fields {F : Type} (w : World F) (round : Int) :
    (fallbackStage w round).2.now = w.now ∧ (fallbackStage w round).2.ledger = w.ledger ∧
      (fallbackStage w round).2.eventCalls = w.eventCalls := by
  unfold fallbackStage
  split <;> exact ⟨rfl, rfl, rfl⟩

theorem aggregateStage_inv {F : Type} [Zero F] [Add F] [Div F] [NatCast F]
    (w : World F) (round : Int) (result : AggregatedResult F)
    (h : aggregateStage w round = some result) :
    ∃ sums avg leader, aggregateParameters w.localParams participantKeys round = some sums ∧
      calculateAverage sums 3 = some avg ∧
      indexKeys participantKeys (Int.tmod w.now 3) = some leader ∧
      result = { NodeID := leader, Wi := avg.sumWi, Wf := avg.sumWf, Wo := avg.sumWo,
                 Wc := avg.sumWc, Bi := avg.sumBi, Bf := avg.sumBf, Bo := avg.sumBo,
                 Bc := avg.sumBc, Round := round } := by
  unfold aggregateStage at h
  simp only at h
  cases hagg : aggregateParameters w.localParams participantKeys round with
  | none => simp [hagg] at h
  | some sums =>
    have hlen : participantKeys.length = 3 := rfl
    simp only [hagg, hlen] at h
    cases havg : calculateAverage sums 3 with
    | none => simp [havg] at h
    | some avg =>
      simp only [havg] at h
      simp only [Nat.cast_ofNat] at h
      cases hidx : indexKeys participantKeys (Int.tmod w.now 3) with
      | none => simp [hidx] at h
      | some leader =>
        simp only [hidx, Option.some.injEq] at h
        exact ⟨sums, avg, leader, rfl, havg, rfl, h.symm⟩

/-- C11 (event failure): when the call reaches the events (the fallback stage
returns no error, the aggregation yields `result`, `json.Marshal` yields
`payload`, `PutState` succeeds) and one of the three `SetEvent` calls fails,
`StartAggregation(r)` returns an error
`failed to send global model to node <key>: <err>` for a participant `key`, the
value persisted under `RESULT_Aggregated_<r>` is `payload`, and no staged key
is deleted. -/
theorem C11_event_failure_skips_purge {F : Type} [Zero F] [Add F] [Div F] [NatCast F]
    (stub : Stub F) (w : World F) (r : Int) (result : AggregatedResult F)
    (payload e : String) (i : Nat)
    (hfb : (fallbackStage (barrierStage w r) r).1 = none)
    (hagg : aggregateStage (fallbackStage (barrierStage w r) r).2 r = some result)
    (hmar : stub.marshal result = Except.ok payload)
    (hput : stub.putStateErr ("RESULT_Aggregated_" ++ Itoa r) payload = none)
    (hi : i < 3)
    (hev : stub.setEventErr
      (w.eventCalls ++ List.replicate i ("GlobalModelUpdate", payload))
      "GlobalModelUpdate" payload = some e) :
    (∃ key err, key ∈ participantKeys ∧
      (StartAggregation stub w r).1 =
        Outcome.error ("failed to send global model to node " ++ key ++ ": " ++ err)) ∧
    (StartAggregation stub w r).2.ledger ("RESULT_Aggregated_" ++ Itoa r) = some payload ∧
    (∀ k, (w.localParams k).isSome → ((StartAggregation stub w r).2.localParams k).isSome) := by
  rcases hst : fallbackStage (barrierStage w r) r with ⟨err, w2⟩
  rw [hst] at hfb hagg
  simp only at hfb hagg
  subst hfb
  have hf := fallbackStage_fields (barrierStage w r) r
  rw [hst] at hf
  have hev2 : w2.eventCalls = w.eventCalls := hf.2.2
  have hmap : w2.localParams = fallbackMap w r := by simp [fallbackMap, hst]
  have hkeep : ∀ k, (w.localParams k).isSome → (w2.localParams k).isSome := by
    intro k hk
    rw [hmap, fallbackMap_eq]
    split
    · exact hk
    · exact usePrevious_keeps r participantKeys _ k hk
  rw [StartAggregation_prepared stub w w2 r result payload hst hagg hmar,
    finalizeAggregation_eq]
  have hput' : stub.putStateErr (resultKey r) payload = none := hput
  simp only [hput']
  have hled : ∀ n, (withEvents (persisted w2 r payload) n payload).ledger
      ("RESULT_Aggregated_" ++ Itoa r) = some payload := by
    intro n; simp [withEvents, persisted, resultKey]
  rcases sendToAll_cases stub result payload hmar (persisted w2 r payload) with
    ⟨e1, _, hs⟩ | ⟨e1, _, _, hs⟩ | ⟨e1, _, _, _, hs⟩ | ⟨h1, h2, h3, _⟩
  · simp only [hs]
    exact ⟨⟨"soft", e1, by decide, rfl⟩, hled 1, hkeep⟩
  · simp only [hs]
    exact ⟨⟨"web", e1, by decide, rfl⟩, hled 2, hkeep⟩
  · simp only [hs]
    exact ⟨⟨"hard", e1, by decide, rfl⟩, hled 3, hkeep⟩
  · exfalso
    simp only [withEvents, persisted, hev2, updateEvent] at h1 h2 h3
    interval_cases i
    · simp [h1] at hev
    · rw [h2] at hev; cases hev
    · rw [h3] at hev; cases hev

/-- Witness for C11: the complete round 1 in an environment whose second
`SetEvent` fails. -/
theorem C11_event_failure_skips_purge_witness :
    (fallbackStage (barrierStage completeWorld 1) 1).1 = none ∧
    failingEventStub.setEventErr (completeWorld.eventCalls ++ List.replicate 1
      ("GlobalModelUpdate",
        "hard@1:107,2,3,4,5,6,7,107,9,10,107,12,13,107,15,16,107,2,3,107,5,6,7,8"))
      "GlobalModelUpdate"
      "hard@1:107,2,3,4,5,6,7,107,9,10,107,12,13,107,15,16,107,2,3,107,5,6,7,8" =
      some "event rejected" ∧
    (∃ key err, key ∈ participantKeys ∧
      (StartAggregation failingEventStub completeWorld 1).1 =
        Outcome.error ("failed to send global model to node " ++ key ++ ": " ++ err)) ∧
    (StartAggregation failingEventStub completeWorld 1).2.ledger
        ("RESULT_Aggregated_" ++ Itoa 1) =
      some "hard@1:107,2,3,4,5,6,7,107,9,10,107,12,13,107,15,16,107,2,3,107,5,6,7,8" ∧
    (∀ k, (completeWorld.localParams k).isSome →
      ((StartAggregation failingEventStub completeWorld 1).2.localParams k).isSome) :=
  ⟨by decide, by decide,
    C11_event_failure_skips_purge failingEventStub completeWorld 1
      { NodeID := "hard", Wi := [[107, 2], [3, 4]], Wf := [[5, 6], [7, 107]],
        Wo := [[9, 10], [107, 12]], Wc := [[13, 107], [15, 16]],
        Bi := [107, 2], Bf := [3, 107], Bo := [5, 6], Bc := [7, 8], Round := 1 }
      "hard@1:107,2,3,4,5,6,7,107,9,10,107,12,13,107,15,16,107,2,3,107,5,6,7,8"
      "event rejected" 1 (by decide) (by decide) rfl (by decide) (by decide) (by decide)⟩

/-- C12, as the code has it: a successful `StartAggregation(r)` invokes the
event sink three times, once for each of `soft`, `web`, `hard`, every time with
the name `GlobalModelUpdate` and with the payload that is persisted under
`RESULT_Aggregated_<r>` and returned to the caller. -/
theorem C12_three_identical_events {F : Type} [Zero F] [Add F] [Div F] [NatCast F]
    (stub : Stub F) (w : World F) (r : Int) (payload : String)
    (h : (StartAggregation stub w r).1 = Outcome.ok payload) :
    (StartAggregation stub w r).2.eventCalls =
      w.eventCalls ++ [("GlobalModelUpdate", payload), ("GlobalModelUpdate", payload),
        ("GlobalModelUpdate", payload)] ∧
    (StartAggregation stub w r).2.ledger ("RESULT_Aggregated_" ++ Itoa r) = some payload := by
  obtain ⟨w2, result, hst, -, -, -, hw⟩ := StartAggregation_ok_inv stub w r payload h
  have hf := fallbackStage_fields (barrierStage w r) r
  rw [hst] at hf
  have hev2 : w2.eventCalls = w.eventCalls := hf.2.2
  rw [hw]
  constructor
  · simp [withEvents, persisted, hev2, updateEvent, List.replicate]
  · simp [withEvents, persisted, resultKey]

/-- Witness for C12: the complete round 1 in an environment that does not fail. -/
theorem C12_three_identical_events_witness :
    (StartAggregation exampleStub completeWorld 1).1 =
      Outcome.ok "hard@1:107,2,3,4,5,6,7,107,9,10,107,12,13,107,15,16,107,2,3,107,5,6,7,8" ∧
    (StartAggregation exampleStub completeWorld 1).2.eventCalls =
      completeWorld.eventCalls ++
        [("GlobalModelUpdate",
            "hard@1:107,2,3,4,5,6,7,107,9,10,107,12,13,107,15,16,107,2,3,107,5,6,7,8"),
          ("GlobalModelUpdate",
            "hard@1:107,2,3,4,5,6,7,107,9,10,107,12,13,107,15,16,107,2,3,107,5,6,7,8"),
          ("GlobalModelUpdate",
            "hard@1:107,2,3,4,5,6,7,107,9,10,107,12,13,107,15,16,107,2,3,107,5,6,7,8")] ∧
    (StartAggregation exampleStub completeWorld 1).2.ledger ("RESULT_Aggregated_" ++ Itoa 1) =
      some "hard@1:107,2,3,4,5,6,7,107,9,10,107,12,13,107,15,16,107,2,3,107,5,6,7,8" :=
  ⟨by decide, C12_three_identical_events exampleStub completeWorld 1
    "hard@1:107,2,3,4,5,6,7,107,9,10,107,12,13,107,15,16,107,2,3,107,5,6,7,8" (by decide)⟩

/-- C12 fails as stated: the successful aggregation of the complete round 1
invokes the event sink three times, not once. -/
theorem C12_exactly_one_event_counterexample :
    (StartAggregation exampleStub completeWorld 1).1 =
      Outcome.ok "hard@1:107,2,3,4,5,6,7,107,9,10,107,12,13,107,15,16,107,2,3,107,5,6,7,8" ∧
    completeWorld.eventCalls = [] ∧
    (StartAggregation exampleStub completeWorld 1).2.eventCalls.length = 3 := by
  decide

/-! ## Leader, round 0, idempotence, failed fallback, key injectivity (C13, C14, C17, C18, C19) -/

theorem indexKeys_of_nonneg {t : Int} (h : 0 ≤ t) :
    indexKeys participantKeys (Int.tmod t 3) = participantKeys[(t % 3).toNat]? ∧
      (t % 3).toNat < participantKeys.length := by
  have e : Int.tmod t 3 = t % 3 := Int.tmod_eq_emod h (by decide)
  have h0 : 0 ≤ t % 3 := by omega
  have hlen : participantKeys.length = 3 := rfl
  refine ⟨?_, by rw [hlen]; omega⟩
  simp [indexKeys, e, h0]

/-- C13 (leader selection): for a timestamp `t ≥ 0` read at selection time the
index `t mod 3` is within the bounds of `[soft, web, hard]`, the `nodeId` of the
aggregated result is the element at that index, it is a participant, and it is
the same for every store, round and environment with that timestamp. -/
theorem C13_leader_selection (t : Int) (ht : 0 ≤ t) :
    (t % 3).toNat < participantKeys.length ∧
    (∀ (F : Type) [Zero F] [Add F] [Div F] [NatCast F] (w : World F) (r : Int)
        (result : AggregatedResult F),
      w.now = t → aggregateStage w r = some result →
        participantKeys[(t % 3).toNat]? = some result.NodeID ∧
          result.NodeID ∈ participantKeys) ∧
    (∀ (F : Type) [Zero F] [Add F] [Div F] [NatCast F] (stub : Stub F) (w : World F)
        (r : Int) (payload : String),
      (barrierStage w r).now = t → (StartAggregation stub w r).1 = Outcome.ok payload →
        ∃ result, stub.marshal result = Except.ok payload ∧
          participantKeys[(t % 3).toNat]? = some result.NodeID) := by
  obtain ⟨hidx, hlt⟩ := indexKeys_of_nonneg ht
  have key : ∀ (F : Type) [Zero F] [Add F] [Div F] [NatCast F] (w : World F) (r : Int)
      (result : AggregatedResult F), w.now = t → aggregateStage w r = some result →
      participantKeys[(t % 3).toNat]? = some result.NodeID := by
    intro F _ _ _ _ w r result hw hres
    obtain ⟨sums, avg, leader, -, -, hl, hr⟩ := aggregateStage_inv w r result hres
    rw [hw, hidx] at hl
    rw [hr]
    exact hl
  refine ⟨hlt, fun F _ _ _ _ w r result hw hres => ⟨key F w r result hw hres, ?_⟩,
    fun F _ _ _ _ stub w r payload hw hok => ?_⟩
  · exact List.getElem?_mem (key F w r result hw hres)
  · obtain ⟨w2, result, hst, hagg, hmar, -, -⟩ := StartAggregation_ok_inv stub w r payload hok
    have hf := fallbackStage_fields (barrierStage w r) r
    rw [hst] at hf
    exact ⟨result, hmar, key F w2 r result (hf.1.trans hw) hagg⟩

/-- Witness for C13: the complete round 1 at timestamp 1700000000, whose
remainder modulo 3 is 2; the leader is `hard`. -/
theorem C13_leader_selection_witness :
    (0 : Int) ≤ 1700000000 ∧
    ((1700000000 : Int) % 3).toNat < participantKeys.length ∧
    participantKeys[((1700000000 : Int) % 3).toNat]? = some "hard" ∧
    (∃ result, exampleStub.marshal result =
        Except.ok "hard@1:107,2,3,4,5,6,7,107,9,10,107,12,13,107,15,16,107,2,3,107,5,6,7,8" ∧
      participantKeys[((1700000000 : Int) % 3).toNat]? = some result.NodeID) :=
  ⟨by decide, (C13_leader_selection 1700000000 (by decide)).1, by decide,
    (C13_leader_selection 1700000000 (by decide)).2.2 Int exampleStub completeWorld 1
      "hard@1:107,2,3,4,5,6,7,107,9,10,107,12,13,107,15,16,107,2,3,107,5,6,7,8"
      (by decide) (by decide)⟩

theorem prevRound_zero : prevRound 0 = -1 := by decide

/-- C14, as the code has it: round 0 is not exempt from the fallback. For every
store in which the round-0 key set is incomplete at the final check,
`StartAggregation(0)` runs `usePreviousRoundParameters`: it reads the bundles
keyed with round -1, fails with
`parameter for node <p> not found in previous round` for the first participant
`p` without one, and, when all three exist, writes them under the round-0
keys. -/
theorem C14_round_zero_takes_fallback {F : Type} [Zero F] [Add F] [Div F] [NatCast F]
    (stub : Stub F) (w : World F)
    (hmiss : areAllParametersSubmitted w.localParams participantKeys 0 = false) :
    (∀ p, firstWithoutPrevious w.localParams 0 participantKeys = some p →
      (StartAggregation stub w 0).1 =
        Outcome.error ("parameter for node " ++ p ++ " not found in previous round")) ∧
    (firstWithoutPrevious w.localParams 0 participantKeys = none →
      ∀ p ∈ participantKeys,
        fallbackMap w 0 (stagingKey p 0) = w.localParams (stagingKey p (-1))) := by
  refine ⟨fun p hp => ?_, fun hnone p hp => ?_⟩
  · exact StartAggregation_fallback_error stub w 0 _ hmiss
      (usePrevious_error w.localParams 0 participantKeys w.localParams p (fun _ => rfl) hp)
  · have h := (usePrevious_ok w.localParams 0 participantKeys w.localParams (fun _ => rfl)
      hnone).2 p hp
    rw [prevRound_zero] at h
    rw [fallbackMap_eq, hmiss]
    exact h

/-- Witness for C14: bundles staged under round -1 and nothing under round 0. -/
theorem C14_round_zero_takes_fallback_witness :
    areAllParametersSubmitted coldStartWorld.localParams participantKeys 0 = false ∧
    firstWithoutPrevious coldStartWorld.localParams 0 participantKeys = none ∧
    (∀ p ∈ participantKeys,
      fallbackMap coldStartWorld 0 (stagingKey p 0) =
        coldStartWorld.localParams (stagingKey p (-1))) :=
  ⟨by decide, by decide,
    (C14_round_zero_takes_fallback exampleStub coldStartWorld (by decide)).2 (by decide)⟩

/-- C14 fails as stated: with nothing staged, `StartAggregation(0)` returns the
error of the fallback resolver; with bundles staged under round -1 and round 0
empty, the fallback copies the round -1 bundle of `soft` under `(soft, 0)` and
`StartAggregation(0)` returns the mean of the round -1 bundles. -/
theorem C14_round_zero_counterexample :
    (StartAggregation exampleStub emptyWorld 0).1 =
      Outcome.error "parameter for node soft not found in previous round" ∧
    coldStartWorld.localParams (stagingKey "soft" 0) = none ∧
    fallbackMap coldStartWorld 0 (stagingKey "soft" 0) =
      some { exampleBundle "soft" 1 with Round := -1 } ∧
    (StartAggregation exampleStub coldStartWorld 0).1 =
      Outcome.ok "hard@0:107,2,3,4,5,6,7,107,9,10,107,12,13,107,15,16,107,2,3,107,5,6,7,8" := by
  decide

/-- C19 (staging keys are injective): `n1 + "_" + Itoa(r1)` equals
`n2 + "_" + Itoa(r2)` only if `n1 = n2` and `r1 = r2`, for all strings and all
integers; hence an upload or a deletion for one `(nodeId, round)` pair leaves the
slot of every other pair untouched. -/
theorem C19_staging_keys_injective :
    (∀ (n1 n2 : String) (r1 r2 : Int),
      n1 ++ "_" ++ Itoa r1 = n2 ++ "_" ++ Itoa r2 ↔ n1 = n2 ∧ r1 = r2) ∧
    (∀ (F : Type) (w : World F) (n1 n2 : String) (r1 r2 : Int)
        (wi wf wo wc : List (List F)) (bi bf bo bc : List F),
      ¬ (n1 = n2 ∧ r1 = r2) →
        (UploadParameter w n1 wi wf wo wc bi bf bo bc r1).2.localParams (stagingKey n2 r2) =
          w.localParams (stagingKey n2 r2) ∧
        mapDelete w.localParams (stagingKey n1 r1) (stagingKey n2 r2) =
          w.localParams (stagingKey n2 r2)) := by
  refine ⟨fun n1 n2 r1 r2 => ⟨fun h => stagingKey_injective h, fun h => by rw [h.1, h.2]⟩,
    fun F w n1 n2 r1 r2 wi wf wo wc bi bf bo bc hne => ?_⟩
  have hk : stagingKey n2 r2 ≠ stagingKey n1 r1 := fun e =>
    hne ⟨(stagingKey_injective e).1.symm, (stagingKey_injective e).2.symm⟩
  exact ⟨mapSet_other _ _ hk, mapDelete_other _ hk⟩

theorem forKeys_congr {σ : Type} (body body' : String → σ → Option σ) (keys : List String)
    (h : ∀ k ∈ keys, ∀ s, body k s = body' k s) :
    ∀ s, forKeys body keys s = forKeys body' keys s := by
  induction keys with
  | nil => intro s; rfl
  | cons key rest ih =>
    intro s
    unfold forKeys
    rw [h key (List.mem_cons_self _ _) s]
    cases body' key s with
    | none => rfl
    | some t => exact ih (fun k hk => h k (List.mem_cons_of_mem _ hk)) t

/-- The aggregation reads the staging map only through the bundles of the
keys. -/
theorem aggregateParameters_congr {F : Type} [Zero F] [Add F] (m m' : ParamMap F)
    (r r' : Int) (keys : List String)
    (h : ∀ k ∈ keys, mapGet m (stagingKey k r) = mapGet m' (stagingKey k r')) :
    aggregateParameters m keys r = aggregateParameters m' keys r' := by
  cases keys with
  | nil => rfl
  | cons k0 rest =>
    have h0 := h k0 (List.mem_cons_self _ _)
    have hbody : ∀ k ∈ k0 :: rest, ∀ s, addParam m r k s = addParam m' r' k s := by
      intro k hk s
      simp only [addParam, h k hk]
    simp only [aggregateParameters, initializeSumMatrices, List.getElem?_cons_zero, h0]
    cases forRange (mapGet m' (stagingKey k0 r')).Wi.length
        (initRow (mapGet m' (stagingKey k0 r')))
        { sumWi := [], sumWf := [], sumWo := [], sumWc := [] } with
    | none => rfl
    | some w0 => exact forKeys_congr _ _ _ hbody _

/-- C17 (fallback idempotence): when no participant has a bundle for round `r`
and all three have same-shape bundles for the previous round, aggregating the
store after the fallback for round `r` yields exactly the accumulators that
aggregating the previous-round bundles yields, and the tensors of the result
that `StartAggregation(r)` returns are these. `prevRound r` is Go's `r-1`. -/
theorem C17_fallback_idempotence {F : Type} [Zero F] [Add F] [Div F] [NatCast F]
    (stub : Stub F) (w : World F) (r : Int) (soft web hard : LSTMParameters F) (R C L : Nat)
    (hnone : ∀ p ∈ participantKeys, w.localParams (stagingKey p r) = none)
    (hsoft : w.localParams (stagingKey "soft" (prevRound r)) = some soft)
    (hweb : w.localParams (stagingKey "web" (prevRound r)) = some web)
    (hhard : w.localParams (stagingKey "hard" (prevRound r)) = some hard)
    (shapeSoft : WellShaped soft R C L) (shapeWeb : WellShaped web R C L)
    (shapeHard : WellShaped hard R C L) :
    ∃ sums avg,
      aggregateParameters w.localParams participantKeys (prevRound r) = some sums ∧
      aggregateParameters (fallbackMap w r) participantKeys r = some sums ∧
      calculateAverage sums 3 = some avg ∧
      ∀ payload, (StartAggregation stub w r).1 = Outcome.ok payload →
        ∃ result, stub.marshal result = Except.ok payload ∧
          result.Wi = avg.sumWi ∧ result.Wf = avg.sumWf ∧ result.Wo = avg.sumWo ∧
          result.Wc = avg.sumWc ∧ result.Bi = avg.sumBi ∧ result.Bf = avg.sumBf ∧
          result.Bo = avg.sumBo ∧ result.Bc = avg.sumBc := by
  have hmiss : areAllParametersSubmitted w.localParams participantKeys r = false := by
    have h1 := hnone "soft" (by decide)
    have h2 := hnone "web" (by decide)
    have h3 := hnone "hard" (by decide)
    simp [areAllParametersSubmitted, countSubmitted, participantKeys, h1, h2, h3]
  have hfirst : firstWithoutPrevious w.localParams r participantKeys = none := by
    simp [firstWithoutPrevious, participantKeys, hsoft, hweb, hhard]
  obtain ⟨-, hmap⟩ := usePrevious_ok w.localParams r participantKeys w.localParams
    (fun _ => rfl) hfirst
  have hfm : fallbackMap w r =
      (usePreviousRoundParameters w.localParams participantKeys r).2 := by
    rw [fallbackMap_eq, hmiss]; rfl
  have hcongr : aggregateParameters (fallbackMap w r) participantKeys r =
      aggregateParameters w.localParams participantKeys (prevRound r) :=
    aggregateParameters_congr _ _ _ _ _ (fun k hk => by
      simp only [mapGet, hfm, hmap k hk])
  obtain ⟨sums, avg, hagg, havg, -⟩ := aggregate_mean w.localParams (prevRound r)
    soft web hard R C L hsoft hweb hhard shapeSoft shapeWeb shapeHard
  refine ⟨sums, avg, hagg, hcongr.trans hagg, havg, fun payload hok => ?_⟩
  obtain ⟨w2, result, hst, hres, hmar, -, -⟩ := StartAggregation_ok_inv stub w r payload hok
  have hw2 : w2.localParams = fallbackMap w r := by simp [fallbackMap, hst]
  obtain ⟨sums', avg', leader, hagg', havg', -, hr⟩ := aggregateStage_inv w2 r result hres
  rw [hw2, hcongr, hagg] at hagg'
  cases hagg'
  rw [havg] at havg'
  cases havg'
  refine ⟨result, hmar, ?_⟩
  rw [hr]
  exact ⟨rfl, rfl, rfl, rfl, rfl, rfl, rfl, rfl⟩

/-- Witness for C17: round 0 staged by all three, nothing staged for round 1. -/
theorem C17_fallback_idempotence_witness :
    (∀ p ∈ participantKeys, roundZeroWorld.localParams (stagingKey p 1) = none) ∧
    roundZeroWorld.localParams (stagingKey "soft" (prevRound 1)) =
      some { exampleBundle "soft" 1 with Round := 0 } ∧
    ∃ sums avg,
      aggregateParameters roundZeroWorld.localParams participantKeys (prevRound 1) =
        some sums ∧
      aggregateParameters (fallbackMap roundZeroWorld 1) participantKeys 1 = some sums ∧
      calculateAverage sums 3 = some avg ∧
      ∀ payload, (StartAggregation exampleStub roundZeroWorld 1).1 = Outcome.ok payload →
        ∃ result, exampleStub.marshal result = Except.ok payload ∧
          result.Wi = avg.sumWi ∧ result.Wf = avg.sumWf ∧ result.Wo = avg.sumWo ∧
          result.Wc = avg.sumWc ∧ result.Bi = avg.sumBi ∧ result.Bf = avg.sumBf ∧
          result.Bo = avg.sumBo ∧ result.Bc = avg.sumBc :=
  ⟨by decide, by decide,
    C17_fallback_idempotence exampleStub roundZeroWorld 1
      { exampleBundle "soft" 1 with Round := 0 } { exampleBundle "web" 20 with Round := 0 }
      { exampleBundle "hard" 300 with Round := 0 } 2 2 2
      (by decide) (by decide) (by decide) (by decide) (by decide) (by decide) (by decide)⟩

theorem usePrevious_untouched {F : Type} (m0 : ParamMap F) (round : Int)
    (keys : List String) : ∀ (m : ParamMap F) (k : String),
    (∀ q, m (stagingKey q (prevRound round)) = m0 (stagingKey q (prevRound round))) →
    (∀ q ∈ withPreviousPrefix m0 round keys, k ≠ stagingKey q round) →
    (usePreviousRoundParameters m keys round).2 k = m k := by
  induction keys with
  | nil => intro m k _ _; rfl
  | cons key rest ih =>
    intro m k hm hk
    unfold usePreviousRoundParameters
    cases hprev : m0 (stagingKey key (prevRound round)) with
    | none =>
      have : m (stagingKey key (prevRound round)) = none := by rw [hm, hprev]
      simp [this]
    | some prev =>
      have hprev' : m (stagingKey key (prevRound round)) = some prev := by rw [hm, hprev]
      have hpre : withPreviousPrefix m0 round (key :: rest) =
          key :: withPreviousPrefix m0 round rest := by
        simp [withPreviousPrefix, List.takeWhile_cons, hprev]
      rw [hpre] at hk
      simp only [hprev']
      rw [ih _ k (fun q => by rw [mapSet_other _ _ (stagingKey_prev_ne key q round), hm])
        (fun q hq => hk q (List.mem_cons_of_mem _ hq))]
      exact mapSet_other _ _ (hk key (List.mem_cons_self _ _))

theorem usePrevious_written {F : Type} (m0 : ParamMap F) (round : Int)
    (keys : List String) : ∀ (m : ParamMap F),
    (∀ q, m (stagingKey q (prevRound round)) = m0 (stagingKey q (prevRound round))) →
    ∀ q ∈ withPreviousPrefix m0 round keys,
      (usePreviousRoundParameters m keys round).2 (stagingKey q round) =
        m0 (stagingKey q (prevRound round)) := by
  induction keys with
  | nil => intro m _ q hq; simp [withPreviousPrefix] at hq
  | cons key rest ih =>
    intro m hm q hq
    cases hprev : m0 (stagingKey key (prevRound round)) with
    | none => simp [withPreviousPrefix, List.takeWhile_cons, hprev] at hq
    | some prev =>
      have hprev' : m (stagingKey key (prevRound round)) = some prev := by rw [hm, hprev]
      have hpre : withPreviousPrefix m0 round (key :: rest) =
          key :: withPreviousPrefix m0 round rest := by
        simp [withPreviousPrefix, List.takeWhile_cons, hprev]
      rw [hpre] at hq
      have hm' : ∀ q', mapSet m (stagingKey key round) prev (stagingKey q' (prevRound round)) =
          m0 (stagingKey q' (prevRound round)) := fun q' => by
        rw [mapSet_other _ _ (stagingKey_prev_ne key q' round), hm]
      unfold usePreviousRoundParameters
      simp only [hprev']
      by_cases hin : q ∈ withPreviousPrefix m0 round rest
      · exact ih _ hm' q hin
      · have hqk : q = key := by
          rcases List.mem_cons.1 hq with e | e
          · exact e
          · exact absurd e hin
        subst hqk
        rw [usePrevious_untouched m0 round rest _ _ hm'
          (fun q' hq' e => hin (by rw [(stagingKey_injective e).1]; exact hq')),
          mapSet_same, hprev]

theorem usePrevious_error_inv {F : Type} (m : ParamMap F) (round : Int) (keys : List String)
    (msg : String) (h : (usePreviousRoundParameters m keys round).1 = some msg) :
    ∃ p, firstWithoutPrevious m round keys = some p ∧
      msg = "parameter for node " ++ p ++ " not found in previous round" := by
  cases hf : firstWithoutPrevious m round keys with
  | none =>
    rw [(usePrevious_ok m round keys m (fun _ => rfl) hf).1] at h
    cases h
  | some p =>
    rw [usePrevious_error m round keys m p (fun _ => rfl) hf] at h
    exact ⟨p, rfl, (Option.some.inj h).symm⟩

theorem failed_ne_parameter (a b : String) : "failed to " ++ a ≠ "parameter for node " ++ b := by
  intro h
  have := congrArg (fun s => s.data.head?) h
  simp [String.data_append] at this

/-- An error returned by `StartAggregation` is the error of the fallback, in
which case the call ends in the state the fallback left, or starts with
`failed to `. -/
theorem StartAggregation_error_inv {F : Type} [Zero F] [Add F] [Div F] [NatCast F]
    (stub : Stub F) (w : World F) (round : Int) (msg : String)
    (h : (StartAggregation stub w round).1 = Outcome.error msg) :
    (areAllParametersSubmitted w.localParams participantKeys round = false ∧
      (usePreviousRoundParameters w.localParams participantKeys round).1 = some msg ∧
      (StartAggregation stub w round).2.localParams =
        (usePreviousRoundParameters w.localParams participantKeys round).2) ∨
    ∃ rest, msg = "failed to " ++ rest := by
  rcases hfb : fallbackStage (barrierStage w round) round with ⟨_ | err, w2⟩
  · right
    cases hagg : aggregateStage w2 round with
    | none => simp [StartAggregation, prepareAggregation, hfb, hagg] at h
    | some result =>
      cases hmar : stub.marshal result with
      | error e =>
        simp only [StartAggregation, prepareAggregation, hfb, hagg, hmar,
          Outcome.error.injEq] at h
        exact ⟨"marshal result: " ++ e, by rw [← h]; rfl⟩
      | ok bytes =>
        rw [StartAggregation_prepared stub w w2 round result bytes hfb hagg hmar,
          finalizeAggregation_eq] at h
        cases hput : stub.putStateErr (resultKey round) bytes with
        | some e =>
          simp only [hput, Outcome.error.injEq] at h
          exact ⟨"put state: " ++ e, by rw [← h]; rfl⟩
        | none =>
          simp only [hput] at h
          rcases sendToAll_cases stub result bytes hmar (persisted w2 round bytes) with
            ⟨e, _, hs⟩ | ⟨e, _, _, hs⟩ | ⟨e, _, _, _, hs⟩ | ⟨_, _, _, hs⟩
          · simp only [hs, Outcome.error.injEq] at h
            exact ⟨"send global model to node " ++ "soft" ++ ": " ++ e, by rw [← h]; rfl⟩
          · simp only [hs, Outcome.error.injEq] at h
            exact ⟨"send global model to node " ++ "web" ++ ": " ++ e, by rw [← h]; rfl⟩
          · simp only [hs, Outcome.error.injEq] at h
            exact ⟨"send global model to node " ++ "hard" ++ ": " ++ e, by rw [← h]; rfl⟩
          · simp [hs] at h
  · left
    have hb := fallbackStage_barrier w round
    rw [hfb] at hb
    have hSA : StartAggregation stub w round = (Outcome.error err, w2) := by
      simp [StartAggregation, prepareAggregation, hfb]
    rw [hSA] at h ⊢
    simp only [Outcome.error.injEq] at h
    subst h
    by_cases hall : areAllParametersSubmitted w.localParams participantKeys round = true
    · rw [if_pos hall] at hb
      cases hb
    · have hall' : areAllParametersSubmitted w.localParams participantKeys round = false := by
        simpa using hall
      rw [hall'] at hb
      simp only [Bool.false_eq_true, if_false, Prod.mk.injEq] at hb
      exact ⟨hall', hb.1.symm, by rw [hb.2]⟩

theorem previous_message_injective {p q : String}
    (h : "parameter for node " ++ p ++ " not found in previous round" =
      "parameter for node " ++ q ++ " not found in previous round") : p = q := by
  have hd := congrArg String.data h
  simp only [String.data_append, List.append_assoc] at hd
  have h1 := List.append_cancel_left hd
  exact String.ext (List.append_cancel_right h1)

/-- C18, as the code has it: a failed fallback is not atomic. When
`StartAggregation(r)` fails with
`parameter for node <p> not found in previous round`, `p` is the first of
`soft`, `web`, `hard` without a previous-round bundle; for every participant
`q` before `p` the key `(q, r)` now holds `q`'s previous-round bundle, also if
`q` had uploaded for round `r`; every other key is as it was before the call. -/
theorem C18_failed_fallback_keeps_partial_writes
    {F : Type} [Zero F] [Add F] [Div F] [NatCast F]
    (stub : Stub F) (w : World F) (r : Int) (p : String)
    (h : (StartAggregation stub w r).1 =
      Outcome.error ("parameter for node " ++ p ++ " not found in previous round")) :
    firstWithoutPrevious w.localParams r participantKeys = some p ∧
    (∀ q ∈ withPreviousPrefix w.localParams r participantKeys,
      (StartAggregation stub w r).2.localParams (stagingKey q r) =
        w.localParams (stagingKey q (prevRound r))) ∧
    (∀ k, (∀ q ∈ withPreviousPrefix w.localParams r participantKeys, k ≠ stagingKey q r) →
      (StartAggregation stub w r).2.localParams k = w.localParams k) := by
  rcases StartAggregation_error_inv stub w r _ h with ⟨_, herr, hmap⟩ | ⟨rest, hrest⟩
  · obtain ⟨p', hp', hmsg⟩ := usePrevious_error_inv _ _ _ _ herr
    have hpp : p = p' := previous_message_injective hmsg
    subst hpp
    refine ⟨hp', fun q hq => ?_, fun k hk => ?_⟩
    · rw [hmap]
      exact usePrevious_written w.localParams r participantKeys _ (fun _ => rfl) q hq
    · rw [hmap]
      exact usePrevious_untouched w.localParams r participantKeys _ k (fun _ => rfl) hk
  · rw [String.append_assoc] at hrest
    exact absurd hrest.symm (failed_ne_parameter _ _)

/-- Witness for C18: `soft` has a round-0 bundle, `web` has none. -/
theorem C18_failed_fallback_keeps_partial_writes_witness :
    (StartAggregation exampleStub halfPreviousWorld 1).1 =
      Outcome.error ("parameter for node " ++ "web" ++ " not found in previous round") ∧
    firstWithoutPrevious halfPreviousWorld.localParams 1 participantKeys = some "web" ∧
    withPreviousPrefix halfPreviousWorld.localParams 1 participantKeys = ["soft"] ∧
    (∀ q ∈ withPreviousPrefix halfPreviousWorld.localParams 1 participantKeys,
      (StartAggregation exampleStub halfPreviousWorld 1).2.localParams (stagingKey q 1) =
        halfPreviousWorld.localParams (stagingKey q (prevRound 1))) ∧
    (∀ k, (∀ q ∈ withPreviousPrefix halfPreviousWorld.localParams 1 participantKeys,
        k ≠ stagingKey q 1) →
      (StartAggregation exampleStub halfPreviousWorld 1).2.localParams k =
        halfPreviousWorld.localParams k) :=
  ⟨by decide, (C18_failed_fallback_keeps_partial_writes exampleStub halfPreviousWorld 1 "web"
      (by decide)).1, by decide,
    (C18_failed_fallback_keeps_partial_writes exampleStub halfPreviousWorld 1 "web"
      (by decide)).2⟩

/-- C18 fails as stated: `StartAggregation(1)` fails for `web`, and the round-1
bundle that `soft` had uploaded has been replaced by its round-0 bundle. -/
theorem C18_failed_fallback_atomic_counterexample :
    (StartAggregation exampleStub halfPreviousWorld 1).1 =
      Outcome.error "parameter for node web not found in previous round" ∧
    halfPreviousWorld.localParams (stagingKey "soft" 1) = some (exampleBundle "soft" 1000) ∧
    (StartAggregation exampleStub halfPreviousWorld 1).2.localParams (stagingKey "soft" 1) =
      some { exampleBundle "soft" 1 with Round := 0 } := by
  decide

/-! ## Shapes of the result and index safety (C16, C20) -/

theorem forKeys_preserves {σ : Type} (body : String → σ → Option σ) (P : σ → Prop)
    (hstep : ∀ k t t', P t → body k t = some t' → P t') :
    ∀ (keys : List String) (s s' : σ), P s → forKeys body keys s = some s' → P s' := by
  intro keys
  induction keys with
  | nil =>
    intro s s' h0 h
    simp only [forKeys, Option.some.injEq] at h
    rw [← h]; exact h0
  | cons key rest ih =>
    intro s s' h0 h
    unfold forKeys at h
    cases hb : body key s with
    | none => simp [hb] at h
    | some t =>
      simp only [hb] at h
      exact ih t s' (hstep key s t h0 hb) h

theorem addCell_keeps {F : Type} [Add F] (param : LSTMParameters F) (i j : Nat)
    (s s' : Sums F) (h : addCell param i j s = some s') : Sums.shape s' = Sums.shape s := by
  unfold addCell at h
  split at h
  · split at h
    · rename_i wi wf wo wc hwi hwf hwo hwc
      cases h
      simp only [Sums.shape, rowLens, updAt2_shape hwi, updAt2_shape hwf, updAt2_shape hwo,
        updAt2_shape hwc]
    · cases h
  · cases h

theorem addBias_keeps {F : Type} [Add F] (param : LSTMParameters F) (i : Nat)
    (s s' : Sums F) (h : addBias param i s = some s') : Sums.shape s' = Sums.shape s := by
  unfold addBias at h
  split at h
  · split at h
    · rename_i bi bf bo bc hbi hbf hbo hbc
      cases h
      simp only [Sums.shape, updAt_length hbi, updAt_length hbf, updAt_length hbo,
        updAt_length hbc]
    · cases h
  · cases h

theorem divCell_keeps {F : Type} [Div F] [NatCast F] (count i j : Nat)
    (s s' : Sums F) (h : divCell count i j s = some s') : Sums.shape s' = Sums.shape s := by
  unfold divCell at h
  split at h
  · rename_i wi wf wo wc hwi hwf hwo hwc
    cases h
    simp only [Sums.shape, rowLens, updAt2_shape hwi, updAt2_shape hwf, updAt2_shape hwo,
      updAt2_shape hwc]
  · cases h

theorem divBias_keeps {F : Type} [Div F] [NatCast F] (count i : Nat)
    (s s' : Sums F) (h : divBias count i s = some s') : Sums.shape s' = Sums.shape s := by
  unfold divBias at h
  split at h
  · rename_i bi bf bo bc hbi hbf hbo hbc
    cases h
    simp only [Sums.shape, updAt_length hbi, updAt_length hbf, updAt_length hbo,
      updAt_length hbc]
  · cases h

theorem addParam_keeps {F : Type} [Add F] (m : ParamMap F) (round : Int) (key : String)
    (sh : List (List Nat) × List Nat) (s s' : Sums F) (hs : Sums.shape s = sh)
    (h : addParam m round key s = some s') : Sums.shape s' = sh := by
  unfold addParam at h
  simp only at h
  split at h
  · cases h
  · rename_i s1 hs1
    have h1 : Sums.shape s1 = sh :=
      forRange_preserves _ (fun t => Sums.shape t = sh)
        (fun i t t' ht hb =>
          forRange_preserves _ (fun u => Sums.shape u = sh)
            (fun j u u' hu hc => (addCell_keeps _ i j u u' hc).trans hu) _ t t' ht hb)
        _ s s1 hs hs1
    exact forRange_preserves _ (fun t => Sums.shape t = sh)
      (fun i t t' ht hb => (addBias_keeps _ i t t' hb).trans ht) _ s1 s' h1 h

theorem calculateAverage_keeps {F : Type} [Div F] [NatCast F] (count : Nat)
    (s s' : Sums F) (h : calculateAverage s count = some s') :
    Sums.shape s' = Sums.shape s := by
  unfold calculateAverage at h
  split at h
  · cases h
  · rename_i s1 hs1
    have h1 : Sums.shape s1 = Sums.shape s :=
      forRange_preserves _ (fun t => Sums.shape t = Sums.shape s)
        (fun i t t' ht hb =>
          forRange_preserves _ (fun u => Sums.shape u = Sums.shape s)
            (fun j u u' hu hc => (divCell_keeps _ i j u u' hc).trans hu) _ t t' ht hb)
        _ s s1 rfl hs1
    exact forRange_preserves _ (fun t => Sums.shape t = Sums.shape s)
      (fun i t t' ht hb => (divBias_keeps _ i t t' hb).trans ht) _ s1 s' h1 h

theorem initRow_shapes {F : Type} [Zero F] (first : LSTMParameters F) (k : Nat)
    (t t' : SumMatrices F)
    (ht : rowLens t.sumWi = rowLens (first.Wi.take k) ∧
      rowLens t.sumWf = rowLens (first.Wf.take k) ∧
      rowLens t.sumWo = rowLens (first.Wo.take k) ∧
      rowLens t.sumWc = rowLens (first.Wc.take k))
    (h : initRow first k t = some t') :
    rowLens t'.sumWi = rowLens (first.Wi.take (k + 1)) ∧
      rowLens t'.sumWf = rowLens (first.Wf.take (k + 1)) ∧
      rowLens t'.sumWo = rowLens (first.Wo.take (k + 1)) ∧
      rowLens t'.sumWc = rowLens (first.Wc.take (k + 1)) := by
  unfold initRow at h
  split at h
  · rename_i ri rf ro rc hri hrf hro hrc
    cases h
    obtain ⟨h1, h2, h3, h4⟩ := ht
    simp only [rowLens] at h1 h2 h3 h4 ⊢
    simp [h1, h2, h3, h4, List.take_succ, hri, hrf, hro, hrc, makeZeros]
  · cases h

/-- On success the accumulators have the shape of the first bundle: as many
rows as its `Wi`, row `i` as long as row `i` of the matching matrix, and bias
accumulators as long as the matching bias vectors. -/
theorem aggregateParameters_shape {F : Type} [Zero F] [Add F] (m : ParamMap F)
    (k0 : String) (rest : List String) (round : Int) (sums : Sums F)
    (h : aggregateParameters m (k0 :: rest) round = some sums) :
    Sums.shape sums =
      ([rowLens (mapGet m (stagingKey k0 round)).Wi,
        rowLens ((mapGet m (stagingKey k0 round)).Wf.take
          (mapGet m (stagingKey k0 round)).Wi.length),
        rowLens ((mapGet m (stagingKey k0 round)).Wo.take
          (mapGet m (stagingKey k0 round)).Wi.length),
        rowLens ((mapGet m (stagingKey k0 round)).Wc.take
          (mapGet m (stagingKey k0 round)).Wi.length)],
       [(mapGet m (stagingKey k0 round)).Bi.length, (mapGet m (stagingKey k0 round)).Bf.length,
        (mapGet m (stagingKey k0 round)).Bo.length,
        (mapGet m (stagingKey k0 round)).Bc.length]) := by
  unfold aggregateParameters at h
  cases hinit : initializeSumMatrices m (k0 :: rest) round with
  | none => simp [hinit] at h
  | some w =>
    simp only [hinit, List.getElem?_cons_zero] at h
    have hinit' := hinit
    simp only [initializeSumMatrices, List.getElem?_cons_zero] at hinit'
    have hw := forRangeFrom_partial (initRow (mapGet m (stagingKey k0 round)))
      (fun k (t : SumMatrices F) =>
        rowLens t.sumWi = rowLens ((mapGet m (stagingKey k0 round)).Wi.take k) ∧
        rowLens t.sumWf = rowLens ((mapGet m (stagingKey k0 round)).Wf.take k) ∧
        rowLens t.sumWo = rowLens ((mapGet m (stagingKey k0 round)).Wo.take k) ∧
        rowLens t.sumWc = rowLens ((mapGet m (stagingKey k0 round)).Wc.take k))
      _ 0 _ w (by simp [rowLens])
      (fun k t t' _ _ ht hb => initRow_shapes _ k t t' ht hb) hinit'
    simp only [Nat.zero_add, List.take_length] at hw
    obtain ⟨h1, h2, h3, h4⟩ := hw
    refine forKeys_preserves _ (fun t => Sums.shape t = _)
      (fun key t t' ht hb => addParam_keeps m round key _ t t' ht hb) _ _ sums ?_ h
    simp [Sums.shape, h1, h2, h3, h4, makeZeros]

/-- C16, as the code has it: the result of a successful `StartAggregation(r)`
has the shape of the first participant's bundle (`soft`'s, as staged when the
aggregation runs), not of every contributor: each weight matrix of the result
has as many rows as `soft`'s `Wi`, its row `i` is as long as row `i` of `soft`'s
matching matrix, and each bias vector is as long as `soft`'s matching vector. -/
theorem C16_result_has_shape_of_first_bundle {F : Type} [Zero F] [Add F] [Div F] [NatCast F]
    (stub : Stub F) (w : World F) (r : Int) (payload : String)
    (h : (StartAggregation stub w r).1 = Outcome.ok payload) :
    ∃ result, stub.marshal result = Except.ok payload ∧
      rowLens result.Wi = rowLens (mapGet (fallbackMap w r) (stagingKey "soft" r)).Wi ∧
      rowLens result.Wf = rowLens ((mapGet (fallbackMap w r) (stagingKey "soft" r)).Wf.take
        (mapGet (fallbackMap w r) (stagingKey "soft" r)).Wi.length) ∧
      rowLens result.Wo = rowLens ((mapGet (fallbackMap w r) (stagingKey "soft" r)).Wo.take
        (mapGet (fallbackMap w r) (stagingKey "soft" r)).Wi.length) ∧
      rowLens result.Wc = rowLens ((mapGet (fallbackMap w r) (stagingKey "soft" r)).Wc.take
        (mapGet (fallbackMap w r) (stagingKey "soft" r)).Wi.length) ∧
      result.Bi.length = (mapGet (fallbackMap w r) (stagingKey "soft" r)).Bi.length ∧
      result.Bf.length = (mapGet (fallbackMap w r) (stagingKey "soft" r)).Bf.length ∧
      result.Bo.length = (mapGet (fallbackMap w r) (stagingKey "soft" r)).Bo.length ∧
      result.Bc.length = (mapGet (fallbackMap w r) (stagingKey "soft" r)).Bc.length := by
  obtain ⟨w2, result, hst, hres, hmar, -, -⟩ := StartAggregation_ok_inv stub w r payload h
  have hw2 : w2.localParams = fallbackMap w r := by simp [fallbackMap, hst]
  obtain ⟨sums, avg, leader, hagg, havg, -, hr⟩ := aggregateStage_inv w2 r result hres
  rw [hw2] at hagg
  have hshape := (calculateAverage_keeps 3 sums avg havg).trans
    (aggregateParameters_shape (fallbackMap w r) "soft" ["web", "hard"] r sums hagg)
  simp only [Sums.shape, Prod.mk.injEq, List.cons.injEq, and_true] at hshape
  obtain ⟨⟨h1, h2, h3, h4⟩, h5, h6, h7, h8⟩ := hshape
  refine ⟨result, hmar, ?_⟩
  rw [hr]
  exact ⟨h1, h2, h3, h4, h5, h6, h7, h8⟩

/-- Witness for C16: `soft` of shape `[2][3]`, `web` and `hard` of shape
`[2][2]`. -/
theorem C16_result_has_shape_of_first_bundle_witness :
    (StartAggregation exampleStub widerSoftWorld 1).1 =
      Outcome.ok
        "hard@1:107,2,1,3,4,2,3,4,1,6,108,2,6,7,1,108,9,2,9,107,1,11,12,2,107,2,2,107,3,4,5,6" ∧
    rowLens (mapGet (fallbackMap widerSoftWorld 1) (stagingKey "soft" 1)).Wi = [3, 3] ∧
    ∃ result, exampleStub.marshal result =
        Except.ok
          "hard@1:107,2,1,3,4,2,3,4,1,6,108,2,6,7,1,108,9,2,9,107,1,11,12,2,107,2,2,107,3,4,5,6" ∧
      rowLens result.Wi =
        rowLens (mapGet (fallbackMap widerSoftWorld 1) (stagingKey "soft" 1)).Wi ∧
      rowLens result.Wf =
        rowLens ((mapGet (fallbackMap widerSoftWorld 1) (stagingKey "soft" 1)).Wf.take
          (mapGet (fallbackMap widerSoftWorld 1) (stagingKey "soft" 1)).Wi.length) ∧
      rowLens result.Wo =
        rowLens ((mapGet (fallbackMap widerSoftWorld 1) (stagingKey "soft" 1)).Wo.take
          (mapGet (fallbackMap widerSoftWorld 1) (stagingKey "soft" 1)).Wi.length) ∧
      rowLens result.Wc =
        rowLens ((mapGet (fallbackMap widerSoftWorld 1) (stagingKey "soft" 1)).Wc.take
          (mapGet (fallbackMap widerSoftWorld 1) (stagingKey "soft" 1)).Wi.length) ∧
      result.Bi.length = (mapGet (fallbackMap widerSoftWorld 1) (stagingKey "soft" 1)).Bi.length ∧
      result.Bf.length = (mapGet (fallbackMap widerSoftWorld 1) (stagingKey "soft" 1)).Bf.length ∧
      result.Bo.length = (mapGet (fallbackMap widerSoftWorld 1) (stagingKey "soft" 1)).Bo.length ∧
      result.Bc.length =
        (mapGet (fallbackMap widerSoftWorld 1) (stagingKey "soft" 1)).Bc.length :=
  ⟨by decide, by decide,
    C16_result_has_shape_of_first_bundle exampleStub widerSoftWorld 1
      "hard@1:107,2,1,3,4,2,3,4,1,6,108,2,6,7,1,108,9,2,9,107,1,11,12,2,107,2,2,107,3,4,5,6"
      (by decide)⟩

/-- C16 fails as stated: with `soft` of shape `[2][3]` and `web`, `hard` of
shape `[2][2]`, `StartAggregation(1)` succeeds and the `Wi` of the result has
rows of length 3, while the `Wi` of the contributor `web` has rows of length
2. -/
theorem C16_shape_preservation_counterexample :
    (StartAggregation exampleStub widerSoftWorld 1).1 =
      Outcome.ok
        "hard@1:107,2,1,3,4,2,3,4,1,6,108,2,6,7,1,108,9,2,9,107,1,11,12,2,107,2,2,107,3,4,5,6" ∧
    (aggregateStage (barrierStage widerSoftWorld 1) 1).map (fun res => rowLens res.Wi) =
      some [3, 3] ∧
    rowLens (mapGet widerSoftWorld.localParams (stagingKey "web" 1)).Wi = [2, 2] := by
  decide

theorem row_of_shape {F : Type} {m : List (List F)} {sh : List Nat} (h : rowLens m = sh)
    {i n : Nat} (hi : sh[i]? = some n) : ∃ row, m[i]? = some row ∧ row.length = n := by
  rw [← h] at hi
  simp only [rowLens, List.getElem?_map] at hi
  cases hrow : m[i]? with
  | none => simp [hrow] at hi
  | some row =>
    simp only [hrow, Option.map_some', Option.some.injEq] at hi
    exact ⟨row, rfl, hi⟩

theorem get2_of_shape {F : Type} {m : List (List F)} {sh : List Nat} (h : rowLens m = sh)
    {i j n : Nat} (hi : sh[i]? = some n) (hj : j < n) : ∃ x, get2 m i j = some x := by
  obtain ⟨row, hrow, hlen⟩ := row_of_shape h hi
  have hj' : j < row.length := by rw [hlen]; exact hj
  exact ⟨row[j], by simp [get2, hrow, List.getElem?_eq_getElem hj']⟩

theorem updAt_of_length {F : Type} (v : List F) {i : Nat} (hi : i < v.length) (f : F → F) :
    ∃ v', updAt v i f = some v' :=
  ⟨v.set i (f v[i]), by simp [updAt, List.getElem?_eq_getElem hi]⟩

theorem updAt2_of_shape {F : Type} {m : List (List F)} {sh : List Nat} (h : rowLens m = sh)
    {i j n : Nat} (hi : sh[i]? = some n) (hj : j < n) (f : F → F) :
    ∃ m', updAt2 m i j f = some m' := by
  obtain ⟨row, hrow, hlen⟩ := row_of_shape h hi
  obtain ⟨row', hrow'⟩ := updAt_of_length row (by rw [hlen]; exact hj) f
  exact ⟨m.set i row', by simp [updAt2, hrow, hrow']⟩

theorem addCell_total {F : Type} [Add F] (param : LSTMParameters F) (sh : List Nat) (L : Nat)
    (hp : SameShaped param sh L) (s : Sums F)
    (hs : Sums.shape s = ([sh, sh, sh, sh], [L, L, L, L])) {i j n : Nat}
    (hi : sh[i]? = some n) (hj : j < n) : ∃ s', addCell param i j s = some s' := by
  simp only [Sums.shape, Prod.mk.injEq, List.cons.injEq, and_true] at hs
  obtain ⟨⟨s1, s2, s3, s4⟩, -⟩ := hs
  obtain ⟨xi, hxi⟩ := get2_of_shape hp.1 hi hj
  obtain ⟨xf, hxf⟩ := get2_of_shape hp.2.1 hi hj
  obtain ⟨xo, hxo⟩ := get2_of_shape hp.2.2.1 hi hj
  obtain ⟨xc, hxc⟩ := get2_of_shape hp.2.2.2.1 hi hj
  obtain ⟨wi, hwi⟩ := updAt2_of_shape s1 hi hj (fun a => a + xi)
  obtain ⟨wf, hwf⟩ := updAt2_of_shape s2 hi hj (fun a => a + xf)
  obtain ⟨wo, hwo⟩ := updAt2_of_shape s3 hi hj (fun a => a + xo)
  obtain ⟨wc, hwc⟩ := updAt2_of_shape s4 hi hj (fun a => a + xc)
  simp only [addCell, hxi, hxf, hxo, hxc, hwi, hwf, hwo, hwc]
  exact ⟨_, rfl⟩

theorem addBias_total {F : Type} [Add F] (param : LSTMParameters F) (sh : List Nat) (L : Nat)
    (hp : SameShaped param sh L) (s : Sums F)
    (hs : Sums.shape s = ([sh, sh, sh, sh], [L, L, L, L])) {i : Nat} (hi : i < L) :
    ∃ s', addBias param i s = some s' := by
  simp only [Sums.shape, Prod.mk.injEq, List.cons.injEq, and_true] at hs
  obtain ⟨-, s1, s2, s3, s4⟩ := hs
  have r1 : i < s.sumBi.length := by rw [s1]; exact hi
  have r2 : i < s.sumBf.length := by rw [s2]; exact hi
  have r3 : i < s.sumBo.length := by rw [s3]; exact hi
  have r4 : i < s.sumBc.length := by rw [s4]; exact hi
  obtain ⟨-, -, -, -, p1, p2, p3, p4⟩ := hp
  have q1 : i < param.Bi.length := by rw [p1]; exact hi
  have q2 : i < param.Bf.length := by rw [p2]; exact hi
  have q3 : i < param.Bo.length := by rw [p3]; exact hi
  have q4 : i < param.Bc.length := by rw [p4]; exact hi
  have g1 : param.Bi[i]? = some param.Bi[i] := List.getElem?_eq_getElem q1
  have g2 : param.Bf[i]? = some param.Bf[i] := List.getElem?_eq_getElem q2
  have g3 : param.Bo[i]? = some param.Bo[i] := List.getElem?_eq_getElem q3
  have g4 : param.Bc[i]? = some param.Bc[i] := List.getElem?_eq_getElem q4
  obtain ⟨bi, hbi⟩ := updAt_of_length s.sumBi r1 (fun a => a + param.Bi[i])
  obtain ⟨bf, hbf⟩ := updAt_of_length s.sumBf r2 (fun a => a + param.Bf[i])
  obtain ⟨bo, hbo⟩ := updAt_of_length s.sumBo r3 (fun a => a + param.Bo[i])
  obtain ⟨bc, hbc⟩ := updAt_of_length s.sumBc r4 (fun a => a + param.Bc[i])
  simp only [addBias, g1, g2, g3, g4, hbi, hbf, hbo, hbc]
  exact ⟨_, rfl⟩

theorem divCell_total {F : Type} [Div F] [NatCast F] (count : Nat) (sh : List Nat) (L : Nat)
    (s : Sums F) (hs : Sums.shape s = ([sh, sh, sh, sh], [L, L, L, L])) {i j n : Nat}
    (hi : sh[i]? = some n) (hj : j < n) : ∃ s', divCell count i j s = some s' := by
  simp only [Sums.shape, Prod.mk.injEq, List.cons.injEq, and_true] at hs
  obtain ⟨⟨s1, s2, s3, s4⟩, -⟩ := hs
  obtain ⟨wi, hwi⟩ := updAt2_of_shape s1 hi hj (fun a => a / (count : F))
  obtain ⟨wf, hwf⟩ := updAt2_of_shape s2 hi hj (fun a => a / (count : F))
  obtain ⟨wo, hwo⟩ := updAt2_of_shape s3 hi hj (fun a => a / (count : F))
  obtain ⟨wc, hwc⟩ := updAt2_of_shape s4 hi hj (fun a => a / (count : F))
  simp only [divCell, hwi, hwf, hwo, hwc]
  exact ⟨_, rfl⟩

theorem divBias_total {F : Type} [Div F] [NatCast F] (count : Nat) (sh : List Nat) (L : Nat)
    (s : Sums F) (hs : Sums.shape s = ([sh, sh, sh, sh], [L, L, L, L])) {i : Nat}
    (hi : i < L) : ∃ s', divBias count i s = some s' := by
  simp only [Sums.shape, Prod.mk.injEq, List.cons.injEq, and_true] at hs
  obtain ⟨-, s1, s2, s3, s4⟩ := hs
  have r1 : i < s.sumBi.length := by rw [s1]; exact hi
  have r2 : i < s.sumBf.length := by rw [s2]; exact hi
  have r3 : i < s.sumBo.length := by rw [s3]; exact hi
  have r4 : i < s.sumBc.length := by rw [s4]; exact hi
  obtain ⟨bi, hbi⟩ := updAt_of_length s.sumBi r1 (fun a => a / (count : F))
  obtain ⟨bf, hbf⟩ := updAt_of_length s.sumBf r2 (fun a => a / (count : F))
  obtain ⟨bo, hbo⟩ := updAt_of_length s.sumBo r3 (fun a => a / (count : F))
  obtain ⟨bc, hbc⟩ := updAt_of_length s.sumBc r4 (fun a => a / (count : F))
  simp only [divBias, hbi, hbf, hbo, hbc]
  exact ⟨_, rfl⟩

theorem shape_entry {sh : List Nat} {i : Nat} (hi : i < sh.length) : sh[i]? = some sh[i] :=
  List.getElem?_eq_getElem hi

theorem take_succ_of_entry {sh : List Nat} {k : Nat} (hk : k < sh.length) :
    sh.take (k + 1) = sh.take k ++ [sh[k]] := by
  rw [List.take_succ, List.getElem?_eq_getElem hk]
  rfl

theorem rowLens_append_zeros {F : Type} [Zero F] (m : List (List F)) (n : Nat) :
    rowLens (m ++ [makeZeros n]) = rowLens m ++ [n] := by
  simp [rowLens, makeZeros]

theorem addParam_total {F : Type} [Add F] (m : ParamMap F) (round : Int) (key : String)
    (sh : List Nat) (L : Nat) (hp : SameShaped (mapGet m (stagingKey key round)) sh L)
    (s : Sums F) (hs : Sums.shape s = ([sh, sh, sh, sh], [L, L, L, L])) :
    ∃ s', addParam m round key s = some s' ∧
      Sums.shape s' = ([sh, sh, sh, sh], [L, L, L, L]) := by
  have hR : (mapGet m (stagingKey key round)).Wi.length = sh.length := by
    have := congrArg List.length hp.1
    simpa [rowLens] using this
  have hL : (mapGet m (stagingKey key round)).Bi.length = L := hp.2.2.2.2.1
  obtain ⟨s1, hs1, h1⟩ := forRange_inv
    (fun i s1 => forRange ((mapGet m (stagingKey key round)).Wi.getD i []).length
      (addCell (mapGet m (stagingKey key round)) i) s1)
    (fun _ t => Sums.shape t = ([sh, sh, sh, sh], [L, L, L, L]))
    sh.length s hs
    (by
      intro i t hi ht
      obtain ⟨row, hrow, hlen⟩ := row_of_shape hp.1 (shape_entry hi)
      have hl : ((mapGet m (stagingKey key round)).Wi.getD i []).length = sh[i] := by
        simp [List.getD_eq_getElem?_getD, hrow, hlen]
      simp only [hl]
      exact forRange_inv _ (fun _ u => Sums.shape u = ([sh, sh, sh, sh], [L, L, L, L]))
        sh[i] t ht
        (by
          intro j u hj hu
          obtain ⟨u', hu'⟩ := addCell_total _ sh L hp u hu (shape_entry hi) hj
          exact ⟨u', hu', (addCell_keeps _ i j u u' hu').trans hu⟩))
  obtain ⟨s2, hs2, h2⟩ := forRange_inv (addBias (mapGet m (stagingKey key round)))
    (fun _ t => Sums.shape t = ([sh, sh, sh, sh], [L, L, L, L])) L s1 h1
    (by
      intro i t hi ht
      obtain ⟨t', ht'⟩ := addBias_total _ sh L hp t ht hi
      exact ⟨t', ht', (addBias_keeps _ i t t' ht').trans ht⟩)
  refine ⟨s2, ?_, h2⟩
  simp only [addParam, hR, hs1, hL]
  exact hs2

theorem calculateAverage_total {F : Type} [Div F] [NatCast F] (count : Nat)
    (sh : List Nat) (L : Nat) (s : Sums F)
    (hs : Sums.shape s = ([sh, sh, sh, sh], [L, L, L, L])) :
    ∃ s', calculateAverage s count = some s' ∧
      Sums.shape s' = ([sh, sh, sh, sh], [L, L, L, L]) := by
  have hsWi : ∀ t : Sums F, Sums.shape t = ([sh, sh, sh, sh], [L, L, L, L]) →
      rowLens t.sumWi = sh ∧ t.sumBi.length = L := by
    intro t ht
    simp only [Sums.shape, Prod.mk.injEq, List.cons.injEq, and_true] at ht
    exact ⟨ht.1.1, ht.2.1⟩
  have hR : s.sumWi.length = sh.length := by
    have := congrArg List.length (hsWi s hs).1
    simpa [rowLens] using this
  obtain ⟨s1, hs1, h1⟩ := forRange_inv
    (fun i (s1 : Sums F) => forRange (s1.sumWi.getD i []).length (divCell count i) s1)
    (fun _ t => Sums.shape t = ([sh, sh, sh, sh], [L, L, L, L]))
    sh.length s hs
    (by
      intro i t hi ht
      obtain ⟨row, hrow, hlen⟩ := row_of_shape (hsWi t ht).1 (shape_entry hi)
      have hl : (t.sumWi.getD i []).length = sh[i] := by
        simp [List.getD_eq_getElem?_getD, hrow, hlen]
      simp only [hl]
      exact forRange_inv _ (fun _ u => Sums.shape u = ([sh, sh, sh, sh], [L, L, L, L]))
        sh[i] t ht
        (by
          intro j u hj hu
          obtain ⟨u', hu'⟩ := divCell_total count sh L u hu (shape_entry hi) hj
          exact ⟨u', hu', (divCell_keeps _ i j u u' hu').trans hu⟩))
  obtain ⟨s2, hs2, h2⟩ := forRange_inv (divBias count)
    (fun _ t => Sums.shape t = ([sh, sh, sh, sh], [L, L, L, L])) L s1 h1
    (by
      intro i t hi ht
      obtain ⟨t', ht'⟩ := divBias_total count sh L t ht hi
      exact ⟨t', ht', (divBias_keeps _ i t t' ht').trans ht⟩)
  refine ⟨s2, ?_, h2⟩
  simp only [calculateAverage, hR, hs1, (hsWi s1 h1).2]
  exact hs2

theorem initializeSumMatrices_total {F : Type} [Zero F] (m : ParamMap F) (k0 : String)
    (rest : List String) (round : Int) (sh : List Nat) (L : Nat)
    (hp : SameShaped (mapGet m (stagingKey k0 round)) sh L) :
    ∃ w, initializeSumMatrices m (k0 :: rest) round = some w ∧
      rowLens w.sumWi = sh ∧ rowLens w.sumWf = sh ∧ rowLens w.sumWo = sh ∧
      rowLens w.sumWc = sh := by
  have hR : (mapGet m (stagingKey k0 round)).Wi.length = sh.length := by
    have := congrArg List.length hp.1
    simpa [rowLens] using this
  obtain ⟨w, hw, hI⟩ := forRange_inv (initRow (mapGet m (stagingKey k0 round)))
    (fun k (t : SumMatrices F) =>
      rowLens t.sumWi = sh.take k ∧ rowLens t.sumWf = sh.take k ∧
      rowLens t.sumWo = sh.take k ∧ rowLens t.sumWc = sh.take k)
    sh.length { sumWi := [], sumWf := [], sumWo := [], sumWc := [] } (by simp [rowLens])
    (by
      intro k t hk ⟨e1, e2, e3, e4⟩
      obtain ⟨r1, hr1, hl1⟩ := row_of_shape hp.1 (shape_entry hk)
      obtain ⟨r2, hr2, hl2⟩ := row_of_shape hp.2.1 (shape_entry hk)
      obtain ⟨r3, hr3, hl3⟩ := row_of_shape hp.2.2.1 (shape_entry hk)
      obtain ⟨r4, hr4, hl4⟩ := row_of_shape hp.2.2.2.1 (shape_entry hk)
      have e : initRow (mapGet m (stagingKey k0 round)) k t =
          some { sumWi := t.sumWi ++ [makeZeros r1.length],
                 sumWf := t.sumWf ++ [makeZeros r2.length],
                 sumWo := t.sumWo ++ [makeZeros r3.length],
                 sumWc := t.sumWc ++ [makeZeros r4.length] } := by
        simp only [initRow, hr1, hr2, hr3, hr4]
      refine ⟨_, e, ?_⟩
      simp only [rowLens_append_zeros, take_succ_of_entry hk, e1, e2, e3, e4, hl1, hl2, hl3,
        hl4, and_self])
  simp only [List.take_length] at hI
  refine ⟨w, ?_, hI⟩
  simp only [initializeSumMatrices, List.getElem?_cons_zero, hR]
  exact hw

/-- C20 (index safety on consistent input): when the three bundles of round `r`
are staged, the four weight matrices of each have the row lengths `sh` (the
same list for all, possibly ragged) and the four bias vectors of each have
length `L`, then `initializeSumMatrices`, `aggregateParameters` and
`calculateAverage` run without an out-of-range index and return accumulators
of that same shape. -/
theorem C20_index_safe_on_consistent_input {F : Type} [Zero F] [Add F] [Div F] [NatCast F]
    (m : ParamMap F) (r : Int) (soft web hard : LSTMParameters F) (sh : List Nat) (L : Nat)
    (hsoft : m (stagingKey "soft" r) = some soft)
    (hweb : m (stagingKey "web" r) = some web)
    (hhard : m (stagingKey "hard" r) = some hard)
    (shapeSoft : SameShaped soft sh L) (shapeWeb : SameShaped web sh L)
    (shapeHard : SameShaped hard sh L) :
    ∃ w sums avg, initializeSumMatrices m participantKeys r = some w ∧
      aggregateParameters m participantKeys r = some sums ∧
      calculateAverage sums 3 = some avg ∧
      Sums.shape sums = ([sh, sh, sh, sh], [L, L, L, L]) ∧
      Sums.shape avg = ([sh, sh, sh, sh], [L, L, L, L]) := by
  have gs : mapGet m (stagingKey "soft" r) = soft := by simp [mapGet, hsoft]
  have gw : mapGet m (stagingKey "web" r) = web := by simp [mapGet, hweb]
  have gh : mapGet m (stagingKey "hard" r) = hard := by simp [mapGet, hhard]
  obtain ⟨w, hw, e1, e2, e3, e4⟩ := initializeSumMatrices_total m "soft" ["web", "hard"] r sh L
    (by rw [gs]; exact shapeSoft)
  have l1 := shapeSoft.2.2.2.2.1
  have l2 := shapeSoft.2.2.2.2.2.1
  have l3 := shapeSoft.2.2.2.2.2.2.1
  have l4 := shapeSoft.2.2.2.2.2.2.2
  obtain ⟨s1, hs1, h1⟩ := addParam_total m r "soft" sh L (by rw [gs]; exact shapeSoft)
    { sumWi := w.sumWi, sumWf := w.sumWf, sumWo := w.sumWo, sumWc := w.sumWc,
      sumBi := makeZeros soft.Bi.length, sumBf := makeZeros soft.Bf.length,
      sumBo := makeZeros soft.Bo.length, sumBc := makeZeros soft.Bc.length }
    (by simp [Sums.shape, e1, e2, e3, e4, l1, l2, l3, l4, makeZeros])
  obtain ⟨s2, hs2, h2⟩ := addParam_total m r "web" sh L (by rw [gw]; exact shapeWeb) s1 h1
  obtain ⟨s3, hs3, h3⟩ := addParam_total m r "hard" sh L (by rw [gh]; exact shapeHard) s2 h2
  obtain ⟨avg, havg, h4⟩ := calculateAverage_total 3 sh L s3 h3
  refine ⟨w, s3, avg, hw, ?_, havg, h3, h4⟩
  simp only [aggregateParameters, participantKeys, List.getElem?_cons_zero, gs, forKeys]
  have hw' : initializeSumMatrices m ["soft", "web", "hard"] r = some w := hw
  simp only [hw', hs1, hs2, hs3]

/-- Witness for C20: three bundles that are ragged in the same way. -/
theorem C20_index_safe_on_consistent_input_witness :
    raggedMap (stagingKey "soft" 1) = some raggedBundle ∧
    SameShaped raggedBundle [2, 1] 1 ∧
    ∃ w sums avg, initializeSumMatrices raggedMap participantKeys 1 = some w ∧
      aggregateParameters raggedMap participantKeys 1 = some sums ∧
      calculateAverage sums 3 = some avg ∧
      Sums.shape sums = ([[2, 1], [2, 1], [2, 1], [2, 1]], [1, 1, 1, 1]) ∧
      Sums.shape avg = ([[2, 1], [2, 1], [2, 1], [2, 1]], [1, 1, 1, 1]) :=
  ⟨rfl, by decide,
    C20_index_safe_on_consistent_input raggedMap 1 raggedBundle raggedBundle raggedBundle
      [2, 1] 1 rfl rfl rfl (by decide) (by decide) (by decide)⟩

/-! ## Identical contributions and binary64 rounding (C15) -/

theorem matIs_unique {F : Type} {m m' : List (List F)} {R C : Nat} {f : Nat → Nat → F}
    (h : MatIs m R C f) (h' : MatIs m' R C f) : m = m' := by
  apply List.ext_getElem?
  intro i
  by_cases hi : i < R
  · obtain ⟨row, hrow, hlen, hval⟩ := h.2 i hi
    obtain ⟨row', hrow', hlen', hval'⟩ := h'.2 i hi
    rw [hrow, hrow']
    congr 1
    apply List.ext_getElem?
    intro j
    by_cases hj : j < C
    · rw [hval j hj, hval' j hj]
    · rw [List.getElem?_eq_none (by omega), List.getElem?_eq_none (by omega)]
  · rw [List.getElem?_eq_none (by rw [h.1]; omega),
      List.getElem?_eq_none (by rw [h'.1]; omega)]

theorem vecIs_unique {F : Type} {v v' : List F} {L : Nat} {f : Nat → F}
    (h : VecIs v L f) (h' : VecIs v' L f) : v = v' := by
  apply List.ext_getElem?
  intro i
  by_cases hi : i < L
  · rw [h.2 i hi, h'.2 i hi]
  · rw [List.getElem?_eq_none (by rw [h.1]; omega),
      List.getElem?_eq_none (by rw [h'.1]; omega)]

theorem sameTensors_shape {F : Type} {a b : LSTMParameters F} (h : SameTensors a b)
    {R C L : Nat} (hb : WellShaped b R C L) : WellShaped a R C L := by
  obtain ⟨h1, h2, h3, h4, h5, h6, h7, h8⟩ := h
  unfold WellShaped
  rw [h1, h2, h3, h4, h5, h6, h7, h8]
  exact hb

theorem sameTensors_mat_eq {F : Type} {a b : LSTMParameters F} (h : SameTensors a b) :
    LSTMParameters.mat a = LSTMParameters.mat b ∧ LSTMParameters.vec a = LSTMParameters.vec b := by
  obtain ⟨h1, h2, h3, h4, h5, h6, h7, h8⟩ := h
  constructor
  · funext q
    simp only [LSTMParameters.mat, h1, h2, h3, h4]
  · funext q
    simp only [LSTMParameters.vec, h5, h6, h7, h8]

/-- A matrix whose entries are `g` of the entries of a matrix `b` of the same
shape equals `b` exactly when `g` returns every entry of `b` unchanged. -/
theorem matIs_eq_iff {F : Type} [Zero F] {m b : List (List F)} {R C : Nat} (g : F → F)
    (hm : MatIs m R C (fun i j => g (entry2 b i j))) (hb : MatIs b R C (entry2 b)) :
    m = b ↔ ∀ row ∈ b, ∀ x ∈ row, g x = x := by
  constructor
  · intro e row hrow x hx
    obtain ⟨i, hi, rfl⟩ := List.getElem_of_mem hrow
    obtain ⟨j, hj, rfl⟩ := List.getElem_of_mem hx
    have hiR : i < R := by rw [← hb.1]; exact hi
    obtain ⟨row', hrow', hlen', -⟩ := hb.2 i hiR
    have hrow'' : b[i] = row' := by
      rw [List.getElem?_eq_getElem hi] at hrow'
      exact Option.some.inj hrow'
    have hjC : j < C := by rw [← hlen', ← hrow'']; exact hj
    have h1 := hm.get2 hiR hjC
    have h2 := hb.get2 hiR hjC
    rw [e, h2] at h1
    have h3 : get2 b i j = some (b[i][j]) := by
      simp [get2, List.getElem?_eq_getElem hi, List.getElem?_eq_getElem hj]
    rw [h2] at h3
    have h4 : entry2 b i j = b[i][j] := Option.some.inj h3
    rw [← h4]
    exact (Option.some.inj h1).symm
  · intro h
    refine matIs_unique (hm.congrMat (fun i j hi hj => ?_)) hb
    obtain ⟨row, hrow, hlen, hval⟩ := hb.2 i hi
    exact h row (List.getElem?_mem hrow) _ (List.getElem?_mem (hval j hj))

/-- A vector whose entries are `g` of the entries of a vector `b` of the same
length equals `b` exactly when `g` returns every entry of `b` unchanged. -/
theorem vecIs_eq_iff {F : Type} [Zero F] {v b : List F} {L : Nat} (g : F → F)
    (hv : VecIs v L (fun i => g (entry1 b i))) (hb : VecIs b L (entry1 b)) :
    v = b ↔ ∀ x ∈ b, g x = x := by
  constructor
  · intro e x hx
    obtain ⟨i, hi, rfl⟩ := List.getElem_of_mem hx
    have hiL : i < L := by rw [← hb.1]; exact hi
    have h1 := hv.2 i hiL
    have h2 := hb.2 i hiL
    rw [e, h2] at h1
    have h3 : b[i]? = some b[i] := List.getElem?_eq_getElem hi
    rw [h2] at h3
    rw [← Option.some.inj h3]
    exact (Option.some.inj h1).symm
  · intro h
    refine vecIs_unique (hv.congrVec (fun i hi => ?_)) hb
    exact h _ (List.getElem?_mem (hb.2 i hi))

/-- C15, as the code has it: when `soft`, `web` and `hard` all stage the tensors
of the same well-shaped bundle `b`, every in-range entry of every tensor of the
result is `(((0 + x) + x) + x) / 3` for the entry `x` of `b`, and a tensor of
the result is identical to that of `b` exactly when this expression returns `x`
for every entry `x` of the tensor. -/
theorem C15_identical_contributions_mean {F : Type} [Zero F] [Add F] [Div F] [NatCast F]
    (m : ParamMap F) (r : Int) (bs bw bh b : LSTMParameters F) (R C L : Nat)
    (hsoft : m (stagingKey "soft" r) = some bs)
    (hweb : m (stagingKey "web" r) = some bw)
    (hhard : m (stagingKey "hard" r) = some bh)
    (ts : SameTensors bs b) (tw : SameTensors bw b) (th : SameTensors bh b)
    (shape : WellShaped b R C L) :
    ∃ sums avg, aggregateParameters m participantKeys r = some sums ∧
      calculateAverage sums 3 = some avg ∧
      MatMeanOf3 avg.sumWi b.Wi b.Wi b.Wi R C ∧ MatMeanOf3 avg.sumWf b.Wf b.Wf b.Wf R C ∧
      MatMeanOf3 avg.sumWo b.Wo b.Wo b.Wo R C ∧ MatMeanOf3 avg.sumWc b.Wc b.Wc b.Wc R C ∧
      VecMeanOf3 avg.sumBi b.Bi b.Bi b.Bi L ∧ VecMeanOf3 avg.sumBf b.Bf b.Bf b.Bf L ∧
      VecMeanOf3 avg.sumBo b.Bo b.Bo b.Bo L ∧ VecMeanOf3 avg.sumBc b.Bc b.Bc b.Bc L ∧
      (avg.sumWi = b.Wi ↔ ∀ row ∈ b.Wi, ∀ x ∈ row, (((0 + x) + x) + x) / ((3 : Nat) : F) = x) ∧
      (avg.sumWf = b.Wf ↔ ∀ row ∈ b.Wf, ∀ x ∈ row, (((0 + x) + x) + x) / ((3 : Nat) : F) = x) ∧
      (avg.sumWo = b.Wo ↔ ∀ row ∈ b.Wo, ∀ x ∈ row, (((0 + x) + x) + x) / ((3 : Nat) : F) = x) ∧
      (avg.sumWc = b.Wc ↔ ∀ row ∈ b.Wc, ∀ x ∈ row, (((0 + x) + x) + x) / ((3 : Nat) : F) = x) ∧
      (avg.sumBi = b.Bi ↔ ∀ x ∈ b.Bi, (((0 + x) + x) + x) / ((3 : Nat) : F) = x) ∧
      (avg.sumBf = b.Bf ↔ ∀ x ∈ b.Bf, (((0 + x) + x) + x) / ((3 : Nat) : F) = x) ∧
      (avg.sumBo = b.Bo ↔ ∀ x ∈ b.Bo, (((0 + x) + x) + x) / ((3 : Nat) : F) = x) ∧
      (avg.sumBc = b.Bc ↔ ∀ x ∈ b.Bc, (((0 + x) + x) + x) / ((3 : Nat) : F) = x) := by
  have gs : mapGet m (stagingKey "soft" r) = bs := by simp [mapGet, hsoft]
  have gw : mapGet m (stagingKey "web" r) = bw := by simp [mapGet, hweb]
  have gh : mapGet m (stagingKey "hard" r) = bh := by simp [mapGet, hhard]
  obtain ⟨sums, avg, h1, h2, hM, hV⟩ := aggregate_spec m r R C L
    (by rw [gs]; exact sameTensors_shape ts shape) (by rw [gw]; exact sameTensors_shape tw shape)
    (by rw [gh]; exact sameTensors_shape th shape)
  rw [gs, gw, gh, (sameTensors_mat_eq ts).1, (sameTensors_mat_eq tw).1, (sameTensors_mat_eq th).1] at hM
  rw [gs, gw, gh, (sameTensors_mat_eq ts).2, (sameTensors_mat_eq tw).2, (sameTensors_mat_eq th).2] at hV
  have mat : ∀ q : Fin 4, MatMeanOf3 (Sums.mat avg q) (LSTMParameters.mat b q)
      (LSTMParameters.mat b q) (LSTMParameters.mat b q) R C := fun q i j hi hj =>
    ⟨_, _, _, (shape.mat q).get2 hi hj, (shape.mat q).get2 hi hj,
      (shape.mat q).get2 hi hj, (hM q).get2 hi hj⟩
  have vec : ∀ q : Fin 4, VecMeanOf3 (Sums.vec avg q) (LSTMParameters.vec b q)
      (LSTMParameters.vec b q) (LSTMParameters.vec b q) L := fun q i hi =>
    ⟨_, _, _, (shape.vec q).2 i hi, (shape.vec q).2 i hi,
      (shape.vec q).2 i hi, (hV q).2 i hi⟩
  have meq : ∀ q : Fin 4, Sums.mat avg q = LSTMParameters.mat b q ↔
      ∀ row ∈ LSTMParameters.mat b q, ∀ x ∈ row, (((0 + x) + x) + x) / ((3 : Nat) : F) = x :=
    fun q => matIs_eq_iff (fun x => (((0 + x) + x) + x) / ((3 : Nat) : F)) (hM q) (shape.mat q)
  have veq : ∀ q : Fin 4, Sums.vec avg q = LSTMParameters.vec b q ↔
      ∀ x ∈ LSTMParameters.vec b q, (((0 + x) + x) + x) / ((3 : Nat) : F) = x :=
    fun q => vecIs_eq_iff (fun x => (((0 + x) + x) + x) / ((3 : Nat) : F)) (hV q) (shape.vec q)
  exact ⟨sums, avg, h1, h2, mat 0, mat 1, mat 2, mat 3, vec 0, vec 1, vec 2, vec 3,
    meq 0, meq 1, meq 2, meq 3, veq 0, veq 1, veq 2, veq 3⟩

set_option maxRecDepth 100000 in

/-- Witness for C15, in binary64: all three participants stage the reference
mock bundle for round 1. The expression returns every entry of `Wo` and of `bo`
unchanged, so these tensors are reproduced; it does not return the entries
`0.1` of `Wi` and `bi` unchanged, so these tensors are not. -/
theorem C15_identical_contributions_mean_witness :
    mockMap (stagingKey "soft" 1) = some { getMockParameters with NodeID := "soft" } ∧
    mockMap (stagingKey "web" 1) = some { getMockParameters with NodeID := "web" } ∧
    mockMap (stagingKey "hard" 1) = some { getMockParameters with NodeID := "hard" } ∧
    SameTensors { getMockParameters with NodeID := "web" } getMockParameters ∧
    WellShaped getMockParameters 2 2 2 ∧
    ∃ sums avg, aggregateParameters mockMap participantKeys 1 = some sums ∧
      calculateAverage sums 3 = some avg ∧
      avg.sumWo = getMockParameters.Wo ∧ avg.sumBo = getMockParameters.Bo ∧
      avg.sumWi ≠ getMockParameters.Wi ∧ avg.sumBi ≠ getMockParameters.Bi := by
  obtain ⟨sums, avg, h1, h2, -, -, -, -, -, -, -, -, eWi, -, eWo, -, eBi, -, eBo, -⟩ :=
    C15_identical_contributions_mean mockMap 1 { getMockParameters with NodeID := "soft" }
      { getMockParameters with NodeID := "web" } { getMockParameters with NodeID := "hard" }
      getMockParameters 2 2 2
      (by decide) (by decide) (by decide) (by decide) (by decide) (by decide) (by decide)
  exact ⟨by decide, by decide, by decide, by decide, by decide, sums, avg, h1, h2,
    eWo.2 (by decide), eBo.2 (by decide),
    fun e => absurd (eWi.1 e) (by decide), fun e => absurd (eBi.1 e) (by decide)⟩

set_option maxRecDepth 100000 in

/-- C15 fails as stated: for the reference mock bundle staged by all three at
round 1, binary64 arithmetic gives `Wi[0][0] = ((0 + 0.1) + 0.1 + 0.1) / 3 =
7205759403792795 * 2^-56 = 0.10000000000000002`, while the bundle holds
`0.1 = 7205759403792794 * 2^-56`. -/
theorem C15_identical_contributions_counterexample :
    WellShaped getMockParameters 2 2 2 ∧
    get2 getMockParameters.Wi 0 0 = some (F64.finite false 7205759403792794 (-56)) ∧
    ((aggregateParameters mockMap participantKeys 1).bind
        (fun sums => calculateAverage sums 3)).map (fun avg => get2 avg.sumWi 0 0) =
      some (some (F64.finite false 7205759403792795 (-56))) := by
  decide


/-! ## The fallback replaces the bundles of all participants (C2) -/

/-- With a clock that is not before the epoch, averaged accumulators become the
result of the aggregation stage, led by a participant. -/
theorem aggregateStage_of {F : Type} [Zero F] [Add F] [Div F] [NatCast F]
    (w : World F) (round : Int) (sums avg : Sums F) (hnow : 0 ≤ w.now)
    (hagg : aggregateParameters w.localParams participantKeys round = some sums)
    (havg : calculateAverage sums 3 = some avg) :
    ∃ leader, leader ∈ participantKeys ∧
      aggregateStage w round = some
        { NodeID := leader, Wi := avg.sumWi, Wf := avg.sumWf, Wo := avg.sumWo,
          Wc := avg.sumWc, Bi := avg.sumBi, Bf := avg.sumBf, Bo := avg.sumBo,
          Bc := avg.sumBc, Round := round } := by
  obtain ⟨leader, hl, hidx⟩ := indexKeys_leader hnow
  refine ⟨leader, hl, ?_⟩
  have hlen : participantKeys.length = 3 := rfl
  simp only [aggregateStage, hagg, hlen, havg]
  rw [← hlen, hidx]

/-- A round that passes the fallback stage, aggregates to `result`, and whose
serialization, `PutState` and three `SetEvent` calls succeed returns the
serialized result. -/
theorem StartAggregation_succeeds {F : Type} [Zero F] [Add F] [Div F] [NatCast F]
    (stub : Stub F) (w : World F) (round : Int) (result : AggregatedResult F)
    (payload : String)
    (hfb : (fallbackStage (barrierStage w round) round).1 = none)
    (hagg : aggregateStage (fallbackStage (barrierStage w round) round).2 round = some result)
    (hmar : stub.marshal result = Except.ok payload)
    (hput : stub.putStateErr ("RESULT_Aggregated_" ++ Itoa round) payload = none)
    (hev : ∀ n, n < 3 → stub.setEventErr
      (w.eventCalls ++ List.replicate n ("GlobalModelUpdate", payload))
      "GlobalModelUpdate" payload = none) :
    (StartAggregation stub w round).1 = Outcome.ok payload := by
  rcases hst : fallbackStage (barrierStage w round) round with ⟨err, w2⟩
  rw [hst] at hfb hagg
  simp only at hfb hagg
  subst hfb
  have hf := fallbackStage_fields (barrierStage w round) round
  rw [hst] at hf
  have hev2 : w2.eventCalls = w.eventCalls := hf.2.2
  rw [StartAggregation_prepared stub w w2 round result payload hst hagg hmar,
    finalizeAggregation_eq]
  have hput' : stub.putStateErr (resultKey round) payload = none := hput
  simp only [hput']
  rcases sendToAll_cases stub result payload hmar (persisted w2 round payload) with
    ⟨e1, h1, _⟩ | ⟨e1, _, h2, _⟩ | ⟨e1, _, _, h3, _⟩ | ⟨_, _, _, hs⟩
  · exfalso
    have := hev 0 (by decide)
    simp only [withEvents, persisted, hev2, updateEvent, List.replicate, List.append_nil] at h1 this
    rw [this] at h1; cases h1
  · exfalso
    have := hev 1 (by decide)
    simp only [withEvents, persisted, hev2, updateEvent, List.replicate] at h2 this
    rw [this] at h2; cases h2
  · exfalso
    have := hev 2 (by decide)
    simp only [withEvents, persisted, hev2, updateEvent, List.replicate] at h3 this
    rw [this] at h3; cases h3
  · simp only [hs]

/-- C2, as the code has it: when the round-`r` key set is incomplete and every
participant has a bundle for the previous round, the fallback writes the
previous-round bundle under `(p, r)` for all three participants, those who
submitted for round `r` included. When moreover the three previous-round
bundles have one shape and the clock is not before the epoch, the aggregation
yields a result led by a participant whose tensors are the element-wise mean of
the three previous-round bundles; and whenever `json.Marshal` of that result,
`PutState` of the serialization and the three `SetEvent` calls succeed,
`StartAggregation(r)` returns that serialization. `prevRound r` is Go's
`r-1`. -/
theorem C2_fallback_replaces_every_participant {F : Type} [Zero F] [Add F] [Div F] [NatCast F]
    (stub : Stub F) (w : World F) (r : Int) (soft web hard : LSTMParameters F) (R C L : Nat)
    (hmiss : areAllParametersSubmitted w.localParams participantKeys r = false)
    (hsoft : w.localParams (stagingKey "soft" (prevRound r)) = some soft)
    (hweb : w.localParams (stagingKey "web" (prevRound r)) = some web)
    (hhard : w.localParams (stagingKey "hard" (prevRound r)) = some hard) :
    fallbackMap w r (stagingKey "soft" r) = some soft ∧
    fallbackMap w r (stagingKey "web" r) = some web ∧
    fallbackMap w r (stagingKey "hard" r) = some hard ∧
    (WellShaped soft R C L → WellShaped web R C L → WellShaped hard R C L → 0 ≤ w.now →
      ∃ result, aggregateStage (fallbackStage (barrierStage w r) r).2 r = some result ∧
        result.NodeID ∈ participantKeys ∧ result.Round = r ∧
        MatMeanOf3 result.Wi soft.Wi web.Wi hard.Wi R C ∧
        MatMeanOf3 result.Wf soft.Wf web.Wf hard.Wf R C ∧
        MatMeanOf3 result.Wo soft.Wo web.Wo hard.Wo R C ∧
        MatMeanOf3 result.Wc soft.Wc web.Wc hard.Wc R C ∧
        VecMeanOf3 result.Bi soft.Bi web.Bi hard.Bi L ∧
        VecMeanOf3 result.Bf soft.Bf web.Bf hard.Bf L ∧
        VecMeanOf3 result.Bo soft.Bo web.Bo hard.Bo L ∧
        VecMeanOf3 result.Bc soft.Bc web.Bc hard.Bc L ∧
        ∀ payload, stub.marshal result = Except.ok payload →
          stub.putStateErr ("RESULT_Aggregated_" ++ Itoa r) payload = none →
          (∀ n, n < 3 → stub.setEventErr
            (w.eventCalls ++ List.replicate n ("GlobalModelUpdate", payload))
            "GlobalModelUpdate" payload = none) →
          (StartAggregation stub w r).1 = Outcome.ok payload) := by
  have hfirst : firstWithoutPrevious w.localParams r participantKeys = none := by
    simp [firstWithoutPrevious, participantKeys, hsoft, hweb, hhard]
  obtain ⟨hnone, hmap⟩ := usePrevious_ok w.localParams r participantKeys w.localParams
    (fun _ => rfl) hfirst
  have hfm : fallbackMap w r =
      (usePreviousRoundParameters w.localParams participantKeys r).2 := by
    rw [fallbackMap_eq, hmiss]; rfl
  have fs : fallbackMap w r (stagingKey "soft" r) = some soft := by
    rw [hfm, hmap "soft" (by decide), hsoft]
  have fw : fallbackMap w r (stagingKey "web" r) = some web := by
    rw [hfm, hmap "web" (by decide), hweb]
  have fh : fallbackMap w r (stagingKey "hard" r) = some hard := by
    rw [hfm, hmap "hard" (by decide), hhard]
  refine ⟨fs, fw, fh, fun shapeSoft shapeWeb shapeHard hnow => ?_⟩
  obtain ⟨sums, avg, hagg, havg, m1, m2, m3, m4, v1, v2, v3, v4⟩ :=
    aggregate_mean (fallbackMap w r) r soft web hard R C L fs fw fh shapeSoft shapeWeb shapeHard
  have hfb : (fallbackStage (barrierStage w r) r).1 = none := by
    rw [fallbackStage_barrier, hmiss]; exact hnone
  have hf := fallbackStage_fields (barrierStage w r) r
  have hclock : 0 ≤ (fallbackStage (barrierStage w r) r).2.now := by
    rw [hf.1]
    exact le_trans hnow (barrierLoop_ge _ _ _ _ _ _)
  obtain ⟨leader, hl, hstage⟩ := aggregateStage_of (fallbackStage (barrierStage w r) r).2 r
    sums avg hclock hagg havg
  exact ⟨_, hstage, hl, rfl, m1, m2, m3, m4, v1, v2, v3, v4,
    fun payload hmar hput hev =>
      StartAggregation_succeeds stub w r _ payload hfb hstage hmar hput hev⟩

/-- Witness for C2: round 0 staged by all three, round 1 by `soft` and `web`
only, in an environment that fails on every call the run does not make. -/
theorem C2_fallback_replaces_every_participant_witness :
    ¬ Reliable pickyStub ∧
    areAllParametersSubmitted lateHardWorld.localParams participantKeys 1 = false ∧
    lateHardWorld.localParams (stagingKey "soft" 1) = some (exampleBundle "soft" 1000) ∧
    lateHardWorld.localParams (stagingKey "soft" (prevRound 1)) =
      some { exampleBundle "soft" 1 with Round := 0 } ∧
    fallbackMap lateHardWorld 1 (stagingKey "soft" 1) =
      some { exampleBundle "soft" 1 with Round := 0 } ∧
    fallbackMap lateHardWorld 1 (stagingKey "web" 1) =
      some { exampleBundle "web" 20 with Round := 0 } ∧
    fallbackMap lateHardWorld 1 (stagingKey "hard" 1) =
      some { exampleBundle "hard" 300 with Round := 0 } ∧
    (StartAggregation pickyStub lateHardWorld 1).1 =
      Outcome.ok "hard@1:107,2,3,4,5,6,7,107,9,10,107,12,13,107,15,16,107,2,3,107,5,6,7,8" := by
  obtain ⟨fs, fw, fh, hrun⟩ :=
    C2_fallback_replaces_every_participant pickyStub lateHardWorld 1
      { exampleBundle "soft" 1 with Round := 0 } { exampleBundle "web" 20 with Round := 0 }
      { exampleBundle "hard" 300 with Round := 0 } 2 2 2
      (by decide) (by decide) (by decide) (by decide)
  obtain ⟨result, hres, -, -, -, -, -, -, -, -, -, -, hok⟩ :=
    hrun (by decide) (by decide) (by decide) (by decide)
  have hval : aggregateStage (fallbackStage (barrierStage lateHardWorld 1) 1).2 1 = some
      { NodeID := "hard", Wi := [[107, 2], [3, 4]], Wf := [[5, 6], [7, 107]],
        Wo := [[9, 10], [107, 12]], Wc := [[13, 107], [15, 16]],
        Bi := [107, 2], Bf := [3, 107], Bo := [5, 6], Bc := [7, 8], Round := 1 } := by
    decide
  rw [hres] at hval
  have hr := Option.some.inj hval
  refine ⟨fun h => ?_, by decide, by decide, by decide, fs, fw, fh, ?_⟩
  · have := h.2.1 "" ""
    revert this
    decide
  · apply hok
    · rw [hr]; rfl
    · decide
    · intro n hn
      interval_cases n <;> decide

/-- C2 fails as stated: with round 0 staged by all three and round 1 staged by
`soft` and `web` only, the fallback overwrites the round-1 bundle of `soft`
with its round-0 bundle, and `StartAggregation(1)` returns the mean of the
three round-0 bundles (first entry `(1 + 20 + 300) / 3 = 107`), not the mean of
`soft@1`, `web@1`, `hard@0` (first entry `(1000 + 2000 + 300) / 3 = 1100`). -/
theorem C2_fallback_only_missing_counterexample :
    lateHardWorld.localParams (stagingKey "soft" 1) = some (exampleBundle "soft" 1000) ∧
    fallbackMap lateHardWorld 1 (stagingKey "soft" 1) =
      some { exampleBundle "soft" 1 with Round := 0 } ∧
    (StartAggregation exampleStub lateHardWorld 1).1 =
      Outcome.ok "hard@1:107,2,3,4,5,6,7,107,9,10,107,12,13,107,15,16,107,2,3,107,5,6,7,8" := by
  decide

/-! ## Out-of-range indices and the absent shape check (C3) -/

/-- A loop whose body, on the states of an invariant `P`, panics exactly at the
indices outside `Q` runs to its end exactly when every index it visits is in
`Q`. -/
theorem forRangeFrom_isSome_iff {σ : Type} (body : Nat → σ → Option σ) (P : σ → Prop)
    (Q : Nat → Prop) (hstep : ∀ k t t', P t → body k t = some t' → P t')
    (hdef : ∀ k t, P t → ((body k t).isSome ↔ Q k)) :
    ∀ (n lo : Nat) (s : σ), P s →
      ((forRangeFrom body lo n s).isSome ↔ ∀ k, lo ≤ k → k < lo + n → Q k) := by
  intro n
  induction n with
  | zero =>
    intro lo s _
    simp only [forRangeFrom, Option.isSome_some, true_iff]
    intro k h1 h2
    omega
  | succ n ih =>
    intro lo s h0
    unfold forRangeFrom
    cases hb : body lo s with
    | none =>
      simp only [Option.isSome_none, Bool.false_eq_true, false_iff]
      intro hall
      have := (hdef lo s h0).2 (hall lo (Nat.le_refl _) (by omega))
      rw [hb] at this
      cases this
    | some t =>
      simp only
      rw [ih (lo + 1) t (hstep lo s t h0 hb)]
      have hq : Q lo := (hdef lo s h0).1 (by rw [hb]; rfl)
      constructor
      · intro h k h1 h2
        by_cases e : k = lo
        · rw [e]; exact hq
        · exact h k (by omega) (by omega)
      · intro h k h1 h2
        exact h k (by omega) (by omega)

theorem forRange_isSome_iff {σ : Type} (body : Nat → σ → Option σ) (P : σ → Prop)
    (Q : Nat → Prop) (hstep : ∀ k t t', P t → body k t = some t' → P t')
    (hdef : ∀ k t, P t → ((body k t).isSome ↔ Q k)) (n : Nat) (s : σ) (h0 : P s) :
    (forRange n body s).isSome ↔ ∀ k, k < n → Q k := by
  unfold forRange
  rw [forRangeFrom_isSome_iff body P Q hstep hdef n 0 s h0]
  constructor
  · intro h k hk
    exact h k (Nat.zero_le _) (by omega)
  · intro h k _ hk
    exact h k (by omega)

theorem forKeys_isSome_iff {σ : Type} (body : String → σ → Option σ) (P : σ → Prop)
    (Q : String → Prop) (hstep : ∀ k t t', P t → body k t = some t' → P t')
    (hdef : ∀ k t, P t → ((body k t).isSome ↔ Q k)) :
    ∀ (keys : List String) (s : σ), P s →
      ((forKeys body keys s).isSome ↔ ∀ key ∈ keys, Q key) := by
  intro keys
  induction keys with
  | nil =>
    intro s _
    simp [forKeys]
  | cons key rest ih =>
    intro s h0
    unfold forKeys
    cases hb : body key s with
    | none =>
      simp only [Option.isSome_none, Bool.false_eq_true, false_iff]
      intro hall
      have := (hdef key s h0).2 (hall key (List.mem_cons_self _ _))
      rw [hb] at this
      cases this
    | some t =>
      simp only
      rw [ih t (hstep key s t h0 hb)]
      have hq : Q key := (hdef key s h0).1 (by rw [hb]; rfl)
      simp only [List.mem_cons, forall_eq_or_imp, hq, true_and]

theorem rowLens_getD {F : Type} (m : List (List F)) (i : Nat) :
    (rowLens m).getD i 0 = (m.getD i []).length := by
  simp only [rowLens, List.getD_eq_getElem?_getD, List.getElem?_map]
  cases m[i]? <;> rfl

theorem get2_isSome_iff {F : Type} (m : List (List F)) (i j : Nat) :
    (get2 m i j).isSome ↔ j < (rowLens m).getD i 0 := by
  rw [rowLens_getD]
  simp only [get2, List.getD_eq_getElem?_getD]
  cases hrow : m[i]? with
  | none => simp
  | some row =>
    simp only [Option.getD_some]
    constructor
    · intro h
      by_contra hc
      rw [List.getElem?_eq_none (by omega)] at h
      cases h
    · intro h
      rw [List.getElem?_eq_getElem h]
      rfl

theorem updAt_isSome_iff {F : Type} (v : List F) (i : Nat) (f : F → F) :
    (updAt v i f).isSome ↔ i < v.length := by
  unfold updAt
  constructor
  · intro h
    by_contra hc
    rw [List.getElem?_eq_none (by omega)] at h
    cases h
  · intro h
    rw [List.getElem?_eq_getElem h]
    rfl

theorem updAt2_isSome_iff {F : Type} (m : List (List F)) (i j : Nat) (f : F → F) :
    (updAt2 m i j f).isSome ↔ j < (rowLens m).getD i 0 := by
  rw [rowLens_getD]
  simp only [updAt2, List.getD_eq_getElem?_getD]
  cases hrow : m[i]? with
  | none => simp
  | some row =>
    simp only [Option.getD_some]
    rw [← updAt_isSome_iff row j f]
    cases updAt row j f <;> simp

theorem isSome_cases {α : Type} (o : Option α) : o = none ∨ ∃ x, o = some x := by
  cases o with
  | none => exact Or.inl rfl
  | some x => exact Or.inr ⟨x, rfl⟩

/-- The body of the weight loop panics exactly when `(i, j)` is outside one of
the four matrices of the bundle or one of the four weight accumulators. -/
theorem addCell_isSome_iff {F : Type} [Add F] (param : LSTMParameters F) (i j : Nat)
    (s : Sums F) :
    (addCell param i j s).isSome ↔
      ∀ sh ∈ [rowLens param.Wi, rowLens param.Wf, rowLens param.Wo, rowLens param.Wc] ++
        (Sums.shape s).1, j < sh.getD i 0 := by
  simp only [Sums.shape, List.cons_append, List.nil_append, List.mem_cons, List.mem_singleton,
    forall_eq_or_imp, forall_eq, List.not_mem_nil, false_imp_iff, implies_true, and_true]
  simp only [← get2_isSome_iff, ← updAt2_isSome_iff s.sumWi i j (fun a => a),
    ← updAt2_isSome_iff s.sumWf i j (fun a => a), ← updAt2_isSome_iff s.sumWo i j (fun a => a),
    ← updAt2_isSome_iff s.sumWc i j (fun a => a)]
  unfold addCell
  rcases isSome_cases (get2 param.Wi i j) with h1 | ⟨x1, h1⟩ <;>
  rcases isSome_cases (get2 param.Wf i j) with h2 | ⟨x2, h2⟩ <;>
  rcases isSome_cases (get2 param.Wo i j) with h3 | ⟨x3, h3⟩ <;>
  rcases isSome_cases (get2 param.Wc i j) with h4 | ⟨x4, h4⟩ <;>
  simp only [h1, h2, h3, h4, Option.isSome_none, Option.isSome_some, Bool.false_eq_true,
    false_and, and_false, true_and]
  have e1 := (updAt2_isSome_iff s.sumWi i j (fun a => a + x1)).trans
    (updAt2_isSome_iff s.sumWi i j (fun a => a)).symm
  have e2 := (updAt2_isSome_iff s.sumWf i j (fun a => a + x2)).trans
    (updAt2_isSome_iff s.sumWf i j (fun a => a)).symm
  have e3 := (updAt2_isSome_iff s.sumWo i j (fun a => a + x3)).trans
    (updAt2_isSome_iff s.sumWo i j (fun a => a)).symm
  have e4 := (updAt2_isSome_iff s.sumWc i j (fun a => a + x4)).trans
    (updAt2_isSome_iff s.sumWc i j (fun a => a)).symm
  rw [← e1, ← e2, ← e3, ← e4]
  rcases isSome_cases (updAt2 s.sumWi i j (fun a => a + x1)) with g1 | ⟨y1, g1⟩ <;>
  rcases isSome_cases (updAt2 s.sumWf i j (fun a => a + x2)) with g2 | ⟨y2, g2⟩ <;>
  rcases isSome_cases (updAt2 s.sumWo i j (fun a => a + x3)) with g3 | ⟨y3, g3⟩ <;>
  rcases isSome_cases (updAt2 s.sumWc i j (fun a => a + x4)) with g4 | ⟨y4, g4⟩ <;>
  simp only [g1, g2, g3, g4, Option.isSome_none, Option.isSome_some, Bool.false_eq_true,
    false_and, and_false, and_self]

/-- The body of the bias loop panics exactly when `i` is outside one of the
four bias vectors of the bundle or one of the four bias accumulators. -/
theorem addBias_isSome_iff {F : Type} [Add F] (param : LSTMParameters F) (i : Nat)
    (s : Sums F) :
    (addBias param i s).isSome ↔
      ∀ n ∈ [param.Bi.length, param.Bf.length, param.Bo.length, param.Bc.length] ++
        (Sums.shape s).2, i < n := by
  simp only [Sums.shape, List.cons_append, List.nil_append, List.mem_cons, List.mem_singleton,
    forall_eq_or_imp, forall_eq, List.not_mem_nil, false_imp_iff, implies_true, and_true]
  unfold addBias
  by_cases h1 : i < param.Bi.length <;> by_cases h2 : i < param.Bf.length <;>
  by_cases h3 : i < param.Bo.length <;> by_cases h4 : i < param.Bc.length <;>
  simp only [h1, h2, h3, h4, List.getElem?_eq_getElem, List.getElem?_eq_none, not_lt.1,
    not_false_eq_true, Option.isSome_none, Bool.false_eq_true, false_and, and_false, true_and]
  have e1 := updAt_isSome_iff s.sumBi i (fun a => a + param.Bi[i])
  have e2 := updAt_isSome_iff s.sumBf i (fun a => a + param.Bf[i])
  have e3 := updAt_isSome_iff s.sumBo i (fun a => a + param.Bo[i])
  have e4 := updAt_isSome_iff s.sumBc i (fun a => a + param.Bc[i])
  rw [← e1, ← e2, ← e3, ← e4]
  rcases isSome_cases (updAt s.sumBi i (fun a => a + param.Bi[i])) with g1 | ⟨y1, g1⟩ <;>
  rcases isSome_cases (updAt s.sumBf i (fun a => a + param.Bf[i])) with g2 | ⟨y2, g2⟩ <;>
  rcases isSome_cases (updAt s.sumBo i (fun a => a + param.Bo[i])) with g3 | ⟨y3, g3⟩ <;>
  rcases isSome_cases (updAt s.sumBc i (fun a => a + param.Bc[i])) with g4 | ⟨y4, g4⟩ <;>
  simp only [g1, g2, g3, g4, Option.isSome_none, Option.isSome_some, Bool.false_eq_true,
    false_and, and_false, and_self]

/-- The body of the weight loop of `calculateAverage` panics exactly when
`(i, j)` is outside one of the four weight accumulators. -/
theorem divCell_isSome_iff {F : Type} [Div F] [NatCast F] (count i j : Nat) (s : Sums F) :
    (divCell count i j s).isSome ↔ ∀ sh ∈ (Sums.shape s).1, j < sh.getD i 0 := by
  simp only [Sums.shape, List.mem_cons, List.mem_singleton,
    forall_eq_or_imp, forall_eq, List.not_mem_nil, false_imp_iff, implies_true, and_true]
  have e1 := updAt2_isSome_iff s.sumWi i j (fun a => a / (count : F))
  have e2 := updAt2_isSome_iff s.sumWf i j (fun a => a / (count : F))
  have e3 := updAt2_isSome_iff s.sumWo i j (fun a => a / (count : F))
  have e4 := updAt2_isSome_iff s.sumWc i j (fun a => a / (count : F))
  rw [← e1, ← e2, ← e3, ← e4]
  unfold divCell
  rcases isSome_cases (updAt2 s.sumWi i j (fun a => a / (count : F))) with g1 | ⟨y1, g1⟩ <;>
  rcases isSome_cases (updAt2 s.sumWf i j (fun a => a / (count : F))) with g2 | ⟨y2, g2⟩ <;>
  rcases isSome_cases (updAt2 s.sumWo i j (fun a => a / (count : F))) with g3 | ⟨y3, g3⟩ <;>
  rcases isSome_cases (updAt2 s.sumWc i j (fun a => a / (count : F))) with g4 | ⟨y4, g4⟩ <;>
  simp only [g1, g2, g3, g4, Option.isSome_none, Option.isSome_some, Bool.false_eq_true,
    false_and, and_false, and_self]

/-- The body of the bias loop of `calculateAverage` panics exactly when `i` is
outside one of the four bias accumulators. -/
theorem divBias_isSome_iff {F : Type} [Div F] [NatCast F] (count i : Nat) (s : Sums F) :
    (divBias count i s).isSome ↔ ∀ n ∈ (Sums.shape s).2, i < n := by
  simp only [Sums.shape, List.mem_cons, List.mem_singleton,
    forall_eq_or_imp, forall_eq, List.not_mem_nil, false_imp_iff, implies_true, and_true]
  have e1 := updAt_isSome_iff s.sumBi i (fun a => a / (count : F))
  have e2 := updAt_isSome_iff s.sumBf i (fun a => a / (count : F))
  have e3 := updAt_isSome_iff s.sumBo i (fun a => a / (count : F))
  have e4 := updAt_isSome_iff s.sumBc i (fun a => a / (count : F))
  rw [← e1, ← e2, ← e3, ← e4]
  unfold divBias
  rcases isSome_cases (updAt s.sumBi i (fun a => a / (count : F))) with g1 | ⟨y1, g1⟩ <;>
  rcases isSome_cases (updAt s.sumBf i (fun a => a / (count : F))) with g2 | ⟨y2, g2⟩ <;>
  rcases isSome_cases (updAt s.sumBo i (fun a => a / (count : F))) with g3 | ⟨y3, g3⟩ <;>
  rcases isSome_cases (updAt s.sumBc i (fun a => a / (count : F))) with g4 | ⟨y4, g4⟩ <;>
  simp only [g1, g2, g3, g4, Option.isSome_none, Option.isSome_some, Bool.false_eq_true,
    false_and, and_false, and_self]

theorem forall_lt_iff_le (a b : Nat) : (∀ j, j < a → j < b) ↔ a ≤ b := by
  constructor
  · intro h
    by_contra hc
    have := h b (by omega)
    omega
  · intro h j hj
    omega

/-- The weight loops over a bundle run to their end exactly when every cell of
its `Wi` is a cell of its other matrices and of the weight accumulators. -/
theorem addCells_isSome_iff {F : Type} [Add F] (param : LSTMParameters F)
    (acc : List (List Nat) × List Nat) (s : Sums F) (hs : Sums.shape s = acc) :
    (forRange param.Wi.length
      (fun i s1 => forRange (param.Wi.getD i []).length (addCell param i) s1) s).isSome ↔
      ∀ sh ∈ [rowLens param.Wf, rowLens param.Wo, rowLens param.Wc] ++ acc.1,
        cellsWithin (rowLens param.Wi) sh := by
  rw [forRange_isSome_iff _ (fun t => Sums.shape t = acc)
    (fun i => ∀ sh ∈ [rowLens param.Wf, rowLens param.Wo, rowLens param.Wc] ++ acc.1,
      (rowLens param.Wi).getD i 0 ≤ sh.getD i 0)
    (fun i t t' ht hb =>
      forRange_preserves _ (fun u => Sums.shape u = acc)
        (fun j u u' hu hc => (addCell_keeps _ i j u u' hc).trans hu) _ t t' ht hb)
    (fun i t ht => by
      rw [forRange_isSome_iff (addCell param i) (fun u => Sums.shape u = acc)
        (fun j => ∀ sh ∈ [rowLens param.Wi, rowLens param.Wf, rowLens param.Wo,
          rowLens param.Wc] ++ acc.1, j < sh.getD i 0)
        (fun j u u' hu hc => (addCell_keeps _ i j u u' hc).trans hu)
        (fun j u hu => by rw [addCell_isSome_iff, hu]) _ t ht]
      rw [← rowLens_getD]
      simp only [List.cons_append, List.nil_append, List.mem_cons, forall_eq_or_imp]
      constructor
      · intro h
        refine ⟨?_, ?_, ?_, ?_⟩
        · exact (forall_lt_iff_le _ _).1 (fun j hj => (h j hj).2.1)
        · exact (forall_lt_iff_le _ _).1 (fun j hj => (h j hj).2.2.1)
        · exact (forall_lt_iff_le _ _).1 (fun j hj => (h j hj).2.2.2.1)
        · intro sh hsh
          exact (forall_lt_iff_le _ _).1 (fun j hj => (h j hj).2.2.2.2 sh hsh)
      · intro h j hj
        exact ⟨hj, lt_of_lt_of_le hj h.1, lt_of_lt_of_le hj h.2.1, lt_of_lt_of_le hj h.2.2.1,
          fun sh hsh => lt_of_lt_of_le hj (h.2.2.2 sh hsh)⟩)
    _ s hs]
  have hlen : (rowLens param.Wi).length = param.Wi.length := by simp [rowLens]
  unfold cellsWithin
  rw [hlen]
  constructor
  · intro h sh hsh i hi
    exact h i hi sh hsh
  · intro h i hi sh hsh
    exact h sh hsh i hi

/-- The bias loop over a bundle runs to its end exactly when its `bi` is no
longer than its other bias vectors and the bias accumulators. -/
theorem addBiases_isSome_iff {F : Type} [Add F] (param : LSTMParameters F)
    (acc : List (List Nat) × List Nat) (s : Sums F) (hs : Sums.shape s = acc) :
    (forRange param.Bi.length (addBias param) s).isSome ↔
      ∀ n ∈ [param.Bf.length, param.Bo.length, param.Bc.length] ++ acc.2,
        param.Bi.length ≤ n := by
  rw [forRange_isSome_iff (addBias param) (fun u => Sums.shape u = acc)
    (fun i => ∀ n ∈ [param.Bi.length, param.Bf.length, param.Bo.length, param.Bc.length] ++
      acc.2, i < n)
    (fun i u u' hu hc => (addBias_keeps _ i u u' hc).trans hu)
    (fun i u hu => by rw [addBias_isSome_iff, hu]) _ s hs]
  simp only [List.cons_append, List.nil_append, List.mem_cons, forall_eq_or_imp]
  constructor
  · intro h
    refine ⟨?_, ?_, ?_, ?_⟩
    · exact (forall_lt_iff_le _ _).1 (fun j hj => (h j hj).2.1)
    · exact (forall_lt_iff_le _ _).1 (fun j hj => (h j hj).2.2.1)
    · exact (forall_lt_iff_le _ _).1 (fun j hj => (h j hj).2.2.2.1)
    · intro n hn
      exact (forall_lt_iff_le _ _).1 (fun j hj => (h j hj).2.2.2.2 n hn)
  · intro h j hj
    exact ⟨hj, lt_of_lt_of_le hj h.1, lt_of_lt_of_le hj h.2.1, lt_of_lt_of_le hj h.2.2.1,
      fun n hn => lt_of_lt_of_le hj (h.2.2.2 n hn)⟩

/-- Adding a bundle into accumulators of shapes `acc` panics exactly when some
index is out of range. -/
theorem addParam_isSome_iff {F : Type} [Add F] (m : ParamMap F) (round : Int) (key : String)
    (acc : List (List Nat) × List Nat) (s : Sums F) (hs : Sums.shape s = acc) :
    (addParam m round key s).isSome ↔ AddInRange acc (mapGet m (stagingKey key round)) := by
  unfold addParam AddInRange
  simp only
  rw [← addCells_isSome_iff _ acc s hs]
  cases h1 : forRange (mapGet m (stagingKey key round)).Wi.length
      (fun i s1 => forRange ((mapGet m (stagingKey key round)).Wi.getD i []).length
        (addCell (mapGet m (stagingKey key round)) i) s1) s with
  | none => simp
  | some s1 =>
    have hs1 : Sums.shape s1 = acc :=
      forRange_preserves _ (fun t => Sums.shape t = acc)
        (fun i t t' ht hb =>
          forRange_preserves _ (fun u => Sums.shape u = acc)
            (fun j u u' hu hc => (addCell_keeps _ i j u u' hc).trans hu) _ t t' ht hb)
        _ s s1 hs h1
    simp only [Option.isSome_some, true_and]
    exact addBiases_isSome_iff _ acc s1 hs1

theorem initRow_isSome_iff {F : Type} [Zero F] (first : LSTMParameters F) (i : Nat)
    (t : SumMatrices F) :
    (initRow first i t).isSome ↔
      i < first.Wi.length ∧ i < first.Wf.length ∧ i < first.Wo.length ∧ i < first.Wc.length := by
  unfold initRow
  by_cases h1 : i < first.Wi.length <;> by_cases h2 : i < first.Wf.length <;>
  by_cases h3 : i < first.Wo.length <;> by_cases h4 : i < first.Wc.length <;>
  simp [h1, h2, h3, h4, List.getElem?_eq_getElem, List.getElem?_eq_none, not_lt.1]

/-- Sizing the accumulators panics exactly when `Wf`, `Wo` or `Wc` of the first
bundle has fewer rows than its `Wi`. -/
theorem initializeSumMatrices_isSome_iff {F : Type} [Zero F] (m : ParamMap F) (k0 : String)
    (rest : List String) (round : Int) :
    (initializeSumMatrices m (k0 :: rest) round).isSome ↔
      InitInRange (mapGet m (stagingKey k0 round)) := by
  simp only [initializeSumMatrices, List.getElem?_cons_zero]
  rw [forRange_isSome_iff (initRow (mapGet m (stagingKey k0 round))) (fun _ => True)
    (fun i => i < (mapGet m (stagingKey k0 round)).Wi.length ∧
      i < (mapGet m (stagingKey k0 round)).Wf.length ∧
      i < (mapGet m (stagingKey k0 round)).Wo.length ∧
      i < (mapGet m (stagingKey k0 round)).Wc.length)
    (fun _ _ _ _ _ => trivial) (fun i t _ => initRow_isSome_iff _ i t) _ _ trivial]
  unfold InitInRange
  constructor
  · intro h
    exact ⟨(forall_lt_iff_le _ _).1 (fun j hj => (h j hj).2.1),
      (forall_lt_iff_le _ _).1 (fun j hj => (h j hj).2.2.1),
      (forall_lt_iff_le _ _).1 (fun j hj => (h j hj).2.2.2)⟩
  · intro h j hj
    exact ⟨hj, lt_of_lt_of_le hj h.1, lt_of_lt_of_le hj h.2.1, lt_of_lt_of_le hj h.2.2⟩

/-- The accumulators that `aggregateParameters` starts from have the shapes
`accumulatorShape` of the first bundle. -/
theorem initializeSumMatrices_shapes {F : Type} [Zero F] (m : ParamMap F) (k0 : String)
    (rest : List String) (round : Int) (w : SumMatrices F)
    (h : initializeSumMatrices m (k0 :: rest) round = some w) :
    Sums.shape
      { sumWi := w.sumWi, sumWf := w.sumWf, sumWo := w.sumWo, sumWc := w.sumWc,
        sumBi := makeZeros (mapGet m (stagingKey k0 round)).Bi.length,
        sumBf := makeZeros (mapGet m (stagingKey k0 round)).Bf.length,
        sumBo := makeZeros (mapGet m (stagingKey k0 round)).Bo.length,
        sumBc := (makeZeros (mapGet m (stagingKey k0 round)).Bc.length : List F) } =
      accumulatorShape (mapGet m (stagingKey k0 round)) := by
  simp only [initializeSumMatrices, List.getElem?_cons_zero] at h
  have hw := forRangeFrom_partial (initRow (mapGet m (stagingKey k0 round)))
    (fun k (t : SumMatrices F) =>
      rowLens t.sumWi = rowLens ((mapGet m (stagingKey k0 round)).Wi.take k) ∧
      rowLens t.sumWf = rowLens ((mapGet m (stagingKey k0 round)).Wf.take k) ∧
      rowLens t.sumWo = rowLens ((mapGet m (stagingKey k0 round)).Wo.take k) ∧
      rowLens t.sumWc = rowLens ((mapGet m (stagingKey k0 round)).Wc.take k))
    _ 0 _ w (by simp [rowLens])
    (fun k t t' _ _ ht hb => initRow_shapes _ k t t' ht hb) h
  simp only [Nat.zero_add, List.take_length] at hw
  obtain ⟨h1, h2, h3, h4⟩ := hw
  simp [Sums.shape, accumulatorShape, h1, h2, h3, h4, makeZeros]

/-- The index-level behaviour of `aggregateParameters`: it panics exactly when
some index is out of range. -/
theorem aggregateParameters_isSome_iff {F : Type} [Zero F] [Add F] (m : ParamMap F)
    (round : Int) :
    (aggregateParameters m participantKeys round).isSome ↔ IndicesInRange m round := by
  unfold aggregateParameters IndicesInRange
  rw [← initializeSumMatrices_isSome_iff m "soft" ["web", "hard"] round]
  cases hinit : initializeSumMatrices m participantKeys round with
  | none =>
    have : initializeSumMatrices m ("soft" :: ["web", "hard"]) round = none := hinit
    simp [this]
  | some w =>
    have hinit' : initializeSumMatrices m ("soft" :: ["web", "hard"]) round = some w := hinit
    have hshape := initializeSumMatrices_shapes m "soft" ["web", "hard"] round w hinit'
    simp only [hinit', Option.isSome_some, true_and]
    simp only [participantKeys, List.getElem?_cons_zero]
    exact forKeys_isSome_iff (addParam m round)
      (fun t => Sums.shape t = accumulatorShape (mapGet m (stagingKey "soft" round)))
      (fun key => AddInRange (accumulatorShape (mapGet m (stagingKey "soft" round)))
        (mapGet m (stagingKey key round)))
      (fun key t t' ht hb => addParam_keeps m round key _ t t' ht hb)
      (fun key t ht => addParam_isSome_iff m round key _ t ht) _ _ hshape

/-- The index-level behaviour of `calculateAverage`: it panics exactly when a
cell of `sumWi` is missing from another weight accumulator or `sumBi` is longer
than another bias accumulator. -/
theorem calculateAverage_isSome_iff {F : Type} [Div F] [NatCast F] (count : Nat) (s : Sums F) :
    (calculateAverage s count).isSome ↔
      (∀ sh ∈ (Sums.shape s).1, cellsWithin (rowLens s.sumWi) sh) ∧
      (∀ n ∈ (Sums.shape s).2, s.sumBi.length ≤ n) := by
  have hWi : ∀ t : Sums F, Sums.shape t = Sums.shape s → rowLens t.sumWi = rowLens s.sumWi := by
    intro t ht
    simp only [Sums.shape, Prod.mk.injEq, List.cons.injEq, and_true] at ht
    exact ht.1.1
  have hBi : ∀ t : Sums F, Sums.shape t = Sums.shape s → t.sumBi.length = s.sumBi.length := by
    intro t ht
    simp only [Sums.shape, Prod.mk.injEq, List.cons.injEq, and_true] at ht
    exact ht.2.1
  have hstep1 : ∀ (i : Nat) (t t' : Sums F), Sums.shape t = Sums.shape s →
      forRange (t.sumWi.getD i []).length (divCell count i) t = some t' →
      Sums.shape t' = Sums.shape s := fun i t t' ht hb =>
    forRange_preserves _ (fun u => Sums.shape u = Sums.shape s)
      (fun j u u' hu hc => (divCell_keeps _ i j u u' hc).trans hu) _ t t' ht hb
  have hloop1 : (forRange s.sumWi.length
      (fun i (s1 : Sums F) => forRange (s1.sumWi.getD i []).length (divCell count i) s1)
        s).isSome ↔ ∀ sh ∈ (Sums.shape s).1, cellsWithin (rowLens s.sumWi) sh := by
    rw [forRange_isSome_iff _ (fun t => Sums.shape t = Sums.shape s)
      (fun i => ∀ sh ∈ (Sums.shape s).1, (rowLens s.sumWi).getD i 0 ≤ sh.getD i 0)
      hstep1
      (fun i t ht => by
        rw [forRange_isSome_iff (divCell count i) (fun u => Sums.shape u = Sums.shape s)
          (fun j => ∀ sh ∈ (Sums.shape s).1, j < sh.getD i 0)
          (fun j u u' hu hc => (divCell_keeps _ i j u u' hc).trans hu)
          (fun j u hu => by rw [divCell_isSome_iff, hu]) _ t ht]
        rw [← rowLens_getD, hWi t ht]
        constructor
        · intro h sh hsh
          exact (forall_lt_iff_le _ _).1 (fun j hj => h j hj sh hsh)
        · intro h j hj sh hsh
          exact lt_of_lt_of_le hj (h sh hsh))
      _ s rfl]
    have hlen : (rowLens s.sumWi).length = s.sumWi.length := by simp [rowLens]
    unfold cellsWithin
    rw [hlen]
    constructor
    · intro h sh hsh i hi
      exact h i hi sh hsh
    · intro h i hi sh hsh
      exact h sh hsh i hi
  unfold calculateAverage
  rw [← hloop1]
  cases h1 : forRange s.sumWi.length
      (fun i (s1 : Sums F) => forRange (s1.sumWi.getD i []).length (divCell count i) s1) s with
  | none => simp
  | some s1 =>
    have hs1 : Sums.shape s1 = Sums.shape s :=
      forRange_preserves _ (fun t => Sums.shape t = Sums.shape s)
        (fun i t t' ht hb => hstep1 i t t' ht hb) _ s s1 rfl h1
    simp only [Option.isSome_some, true_and]
    rw [forRange_isSome_iff (divBias count) (fun u => Sums.shape u = Sums.shape s)
      (fun i => ∀ n ∈ (Sums.shape s).2, i < n)
      (fun i u u' hu hc => (divBias_keeps _ i u u' hc).trans hu)
      (fun i u hu => by rw [divBias_isSome_iff, hu]) _ s1 hs1, hBi s1 hs1]
    constructor
    · intro h n hn
      exact (forall_lt_iff_le _ _).1 (fun j hj => h j hj n hn)
    · intro h j hj n hn
      exact lt_of_lt_of_le hj (h n hn)

/-- After a successful `aggregateParameters`, `calculateAverage` does not
panic. -/
theorem calculateAverage_after_aggregate {F : Type} [Zero F] [Add F] [Div F] [NatCast F]
    (m : ParamMap F) (round : Int) (sums : Sums F) (count : Nat)
    (h : aggregateParameters m participantKeys round = some sums) :
    (calculateAverage sums count).isSome := by
  have hin : IndicesInRange m round :=
    (aggregateParameters_isSome_iff m round).1 (by rw [h]; rfl)
  have hshape : Sums.shape sums = accumulatorShape (mapGet m (stagingKey "soft" round)) :=
    aggregateParameters_shape m "soft" ["web", "hard"] round sums h
  have hsoft := hin.2 "soft" (by decide)
  have hWi : rowLens sums.sumWi = rowLens (mapGet m (stagingKey "soft" round)).Wi := by
    simp only [Sums.shape, accumulatorShape, Prod.mk.injEq, List.cons.injEq, and_true] at hshape
    exact hshape.1.1
  have hBi : sums.sumBi.length = (mapGet m (stagingKey "soft" round)).Bi.length := by
    simp only [Sums.shape, accumulatorShape, Prod.mk.injEq, List.cons.injEq, and_true] at hshape
    exact hshape.2.1
  rw [calculateAverage_isSome_iff, hshape, hWi, hBi]
  exact ⟨fun sh hsh => hsoft.1 sh (List.mem_append_right _ hsh),
    fun n hn => hsoft.2 n (List.mem_append_right _ hn)⟩

theorem indexKeys_isSome_iff (t : Int) :
    (indexKeys participantKeys (Int.tmod t 3)).isSome ↔ 0 ≤ Int.tmod t 3 := by
  have hlt : Int.tmod t 3 < 3 := Int.tmod_lt_of_pos t (by decide)
  unfold indexKeys
  by_cases h : 0 ≤ Int.tmod t 3
  · simp only [h, if_true, iff_true]
    have h3 : (Int.tmod t 3).toNat < participantKeys.length := by
      simp only [participantKeys, List.length_cons, List.length_nil]
      omega
    rw [List.getElem?_eq_getElem h3]
    rfl
  · simp [h]

/-- The aggregation stage panics exactly when an index of the numeric core is
out of range or the leader index is negative. -/
theorem aggregateStage_isSome_iff {F : Type} [Zero F] [Add F] [Div F] [NatCast F]
    (w : World F) (round : Int) :
    (aggregateStage w round).isSome ↔
      IndicesInRange w.localParams round ∧ 0 ≤ Int.tmod w.now 3 := by
  rw [← aggregateParameters_isSome_iff, ← indexKeys_isSome_iff]
  unfold aggregateStage
  simp only
  cases hagg : aggregateParameters w.localParams participantKeys round with
  | none => simp
  | some sums =>
    have hlen : participantKeys.length = 3 := rfl
    simp only [hlen, Option.isSome_some, true_and]
    have havg := calculateAverage_after_aggregate w.localParams round sums 3 hagg
    cases hc : calculateAverage sums 3 with
    | none => rw [hc] at havg; cases havg
    | some avg =>
      simp only [Nat.cast_ofNat]
      cases hidx : indexKeys participantKeys (Int.tmod w.now 3) with
      | none => simp
      | some leader => simp

/-- When the round is complete the polling loop is left at once, without a
sleep. -/
theorem barrierStage_complete {F : Type} (w : World F) (round : Int)
    (h : areAllParametersSubmitted w.localParams participantKeys round = true) :
    barrierStage w round = w := by
  have : barrierLoop w.localParams participantKeys round w.now 6 w.now = w.now := by
    simp [barrierLoop, h, AggregationTimeout]
  simp only [barrierStage, this]

/-- The finalization returns the payload or one of its two kinds of error; it
does not panic. -/
theorem finalizeAggregation_outcome {F : Type} (stub : Stub F) (w : World F) (round : Int)
    (result : AggregatedResult F) (payload : String)
    (hmar : stub.marshal result = Except.ok payload) :
    (finalizeAggregation stub w round result payload).1 = Outcome.ok payload ∨
    ∃ e, (finalizeAggregation stub w round result payload).1 =
        Outcome.error ("failed to put state: " ++ e) ∨
      ∃ key ∈ participantKeys, (finalizeAggregation stub w round result payload).1 =
        Outcome.error ("failed to send global model to node " ++ key ++ ": " ++ e) := by
  rw [finalizeAggregation_eq]
  cases hput : stub.putStateErr (resultKey round) payload with
  | some e => exact Or.inr ⟨e, Or.inl rfl⟩
  | none =>
    simp only
    rcases sendToAll_cases stub result payload hmar (persisted w round payload) with
      ⟨e, _, hs⟩ | ⟨e, _, _, hs⟩ | ⟨e, _, _, _, hs⟩ | ⟨_, _, _, hs⟩
    · exact Or.inr ⟨e, Or.inr ⟨"soft", by decide, by rw [hs]⟩⟩
    · exact Or.inr ⟨e, Or.inr ⟨"web", by decide, by rw [hs]⟩⟩
    · exact Or.inr ⟨e, Or.inr ⟨"hard", by decide, by rw [hs]⟩⟩
    · exact Or.inl (by rw [hs])

/-- C3, as the code has it: there is no shape check and no shape-mismatch
error. When the three bundles of round `r` are staged, whatever their shapes,
`StartAggregation(r)` panics exactly when an index of the aggregation is out of
range (`IndicesInRange` fails: `Wf`, `Wo` or `Wc` of `soft` has fewer rows than
its `Wi`, or for some participant a cell of its `Wi` is missing from its `Wf`,
`Wo`, `Wc` or from an accumulator sized from `soft`, or its `bi` is longer than
its `bf`, `bo`, `bc` or a bias vector of `soft`) or the leader index
`timestamp % 3` is negative. A panic persists nothing, emits no event and
leaves the staged bundles in the store. Every error the call returns is a
failure of `json.Marshal`, `PutState` or `SetEvent`. When no index is out of
range, bundles of different shapes included, the aggregation yields a result,
which the call returns serialized whenever `json.Marshal`, `PutState` and the
three `SetEvent` calls succeed. -/
theorem C3_shape_mismatch_is_not_checked {F : Type} [Zero F] [Add F] [Div F] [NatCast F]
    (stub : Stub F) (w : World F) (r : Int)
    (hall : ∀ q ∈ participantKeys, (w.localParams (stagingKey q r)).isSome) :
    ((StartAggregation stub w r).1 = Outcome.panic ↔
      ¬ IndicesInRange w.localParams r ∨ Int.tmod w.now 3 < 0) ∧
    ((StartAggregation stub w r).1 = Outcome.panic →
      (StartAggregation stub w r).2.localParams = w.localParams ∧
      (StartAggregation stub w r).2.ledger = w.ledger ∧
      (StartAggregation stub w r).2.eventCalls = w.eventCalls) ∧
    (∀ msg, (StartAggregation stub w r).1 = Outcome.error msg →
      ∃ e, msg = "failed to marshal result: " ++ e ∨ msg = "failed to put state: " ++ e ∨
        ∃ key ∈ participantKeys,
          msg = "failed to send global model to node " ++ key ++ ": " ++ e) ∧
    (IndicesInRange w.localParams r → 0 ≤ Int.tmod w.now 3 →
      ∃ result, aggregateStage (barrierStage w r) r = some result ∧
        ∀ payload, stub.marshal result = Except.ok payload →
          stub.putStateErr ("RESULT_Aggregated_" ++ Itoa r) payload = none →
          (∀ n, n < 3 → stub.setEventErr
            (w.eventCalls ++ List.replicate n ("GlobalModelUpdate", payload))
            "GlobalModelUpdate" payload = none) →
          (StartAggregation stub w r).1 = Outcome.ok payload) := by
  have hsub := areAllParametersSubmitted_of_staged w.localParams r hall
  have hbar : barrierStage w r = w := barrierStage_complete w r hsub
  have hst : fallbackStage (barrierStage w r) r = (none, barrierStage w r) := by
    rw [fallbackStage_barrier, hsub]; rfl
  have hiff := aggregateStage_isSome_iff w r
  cases hagg : aggregateStage w r with
  | none =>
    have hSA : StartAggregation stub w r = (Outcome.panic, w) := by
      rw [hbar] at hst
      simp [StartAggregation, prepareAggregation, hbar, hst, hagg]
    have hnot : ¬ (IndicesInRange w.localParams r ∧ 0 ≤ Int.tmod w.now 3) := by
      rw [← hiff, hagg]; simp
    rw [hSA]
    refine ⟨⟨fun _ => ?_, fun _ => rfl⟩, fun _ => ⟨rfl, rfl, rfl⟩, fun msg h => (by cases h),
      fun h1 h2 => absurd ⟨h1, h2⟩ hnot⟩
    by_cases h1 : IndicesInRange w.localParams r
    · exact Or.inr (not_le.1 (fun h2 => hnot ⟨h1, h2⟩))
    · exact Or.inl h1
  | some result =>
    have hin : IndicesInRange w.localParams r ∧ 0 ≤ Int.tmod w.now 3 := by
      rw [← hiff, hagg]; rfl
    have hagg' : aggregateStage (barrierStage w r) r = some result := by rw [hbar]; exact hagg
    have hnp : (StartAggregation stub w r).1 ≠ Outcome.panic ∧
        ∀ msg, (StartAggregation stub w r).1 = Outcome.error msg →
          ∃ e, msg = "failed to marshal result: " ++ e ∨ msg = "failed to put state: " ++ e ∨
            ∃ key ∈ participantKeys,
              msg = "failed to send global model to node " ++ key ++ ": " ++ e := by
      cases hmar : stub.marshal result with
      | error e =>
        have hSA : StartAggregation stub w r =
            (Outcome.error ("failed to marshal result: " ++ e), barrierStage w r) := by
          rw [hbar] at hst
          simp [StartAggregation, prepareAggregation, hbar, hst, hagg, hmar]
        rw [hSA]
        refine ⟨fun h => (by cases h), fun msg h => ⟨e, Or.inl ?_⟩⟩
        simp only [Outcome.error.injEq] at h
        exact h.symm
      | ok bytes =>
        rw [StartAggregation_prepared stub w (barrierStage w r) r result bytes hst hagg' hmar]
        rcases finalizeAggregation_outcome stub (barrierStage w r) r result bytes hmar with
          h | ⟨e, h | ⟨key, hkey, h⟩⟩
        · rw [h]
          exact ⟨fun h => (by cases h), fun msg h => by cases h⟩
        · rw [h]
          refine ⟨fun h => (by cases h), fun msg h => ⟨e, Or.inr (Or.inl ?_)⟩⟩
          simp only [Outcome.error.injEq] at h
          exact h.symm
        · rw [h]
          refine ⟨fun h => (by cases h), fun msg h => ⟨e, Or.inr (Or.inr ⟨key, hkey, ?_⟩)⟩⟩
          simp only [Outcome.error.injEq] at h
          exact h.symm
    refine ⟨⟨fun h => absurd h hnp.1, fun h => ?_⟩, fun h => absurd h hnp.1, hnp.2,
      fun _ _ => ⟨result, hagg', fun payload hmar hput hev => ?_⟩⟩
    · rcases h with h | h
      · exact absurd hin.1 h
      · exact absurd hin.2 (not_le.2 h)
    · have hfb : (fallbackStage (barrierStage w r) r).1 = none := by rw [hst]
      have hagg2 : aggregateStage (fallbackStage (barrierStage w r) r).2 r = some result := by
        rw [hst]; exact hagg'
      exact StartAggregation_succeeds stub w r result payload hfb hagg2 hmar hput hev

/-- Witness for C3. `web` with `Wi` of shape `[2][3]` against `soft` of shape
`[2][2]`, a `bi` of `web` longer than that of `soft`, and a `Wf` of `hard` with
shorter rows than its `Wi` all panic and leave the state as it was; `soft` of
shape `[2][3]` with `web` and `hard` of shape `[2][2]` returns a result. -/
theorem C3_shape_mismatch_is_not_checked_witness :
    (∀ q ∈ participantKeys, (widerWebWorld.localParams (stagingKey q 1)).isSome) ∧
    ¬ IndicesInRange widerWebWorld.localParams 1 ∧
    (StartAggregation exampleStub widerWebWorld 1).1 = Outcome.panic ∧
    (StartAggregation exampleStub widerWebWorld 1).2.localParams = widerWebWorld.localParams ∧
    (StartAggregation exampleStub widerWebWorld 1).2.ledger = widerWebWorld.ledger ∧
    (StartAggregation exampleStub widerWebWorld 1).2.eventCalls = widerWebWorld.eventCalls ∧
    ¬ IndicesInRange longBiasWorld.localParams 1 ∧
    (StartAggregation exampleStub longBiasWorld 1).1 = Outcome.panic ∧
    ¬ IndicesInRange shortWfWorld.localParams 1 ∧
    (StartAggregation exampleStub shortWfWorld 1).1 = Outcome.panic ∧
    IndicesInRange widerSoftWorld.localParams 1 ∧
    (StartAggregation exampleStub widerSoftWorld 1).1 =
      Outcome.ok
        "hard@1:107,2,1,3,4,2,3,4,1,6,108,2,6,7,1,108,9,2,9,107,1,11,12,2,107,2,2,107,3,4,5,6" := by
  have hweb := C3_shape_mismatch_is_not_checked exampleStub widerWebWorld 1 (by decide)
  have hbias := C3_shape_mismatch_is_not_checked exampleStub longBiasWorld 1 (by decide)
  have hwf := C3_shape_mismatch_is_not_checked exampleStub shortWfWorld 1 (by decide)
  have hsoft := C3_shape_mismatch_is_not_checked exampleStub widerSoftWorld 1 (by decide)
  have pweb := hweb.1.2 (Or.inl (by decide))
  obtain ⟨result, hres, hok⟩ := hsoft.2.2.2 (by decide) (by decide)
  have hval : aggregateStage (barrierStage widerSoftWorld 1) 1 = some
      { NodeID := "hard", Wi := [[107, 2, 1], [3, 4, 2]], Wf := [[3, 4, 1], [6, 108, 2]],
        Wo := [[6, 7, 1], [108, 9, 2]], Wc := [[9, 107, 1], [11, 12, 2]],
        Bi := [107, 2], Bf := [2, 107], Bo := [3, 4], Bc := [5, 6], Round := 1 } := by
    decide
  rw [hres] at hval
  have hr := Option.some.inj hval
  refine ⟨by decide, by decide, pweb, (hweb.2.1 pweb).1, (hweb.2.1 pweb).2.1,
    (hweb.2.1 pweb).2.2, by decide, hbias.1.2 (Or.inl (by decide)), by decide,
    hwf.1.2 (Or.inl (by decide)), by decide, ?_⟩
  apply hok
  · rw [hr]; rfl
  · rfl
  · intro n _
    rfl

/-- C3 fails as stated: with `soft` of shape `[2][2]` and `web` of shape
`[2][3]` the call panics instead of returning an error, and with `soft` of
shape `[2][3]` and `web` of shape `[2][2]` it returns a result. -/
theorem C3_shape_mismatch_counterexample :
    (StartAggregation exampleStub widerWebWorld 1).1 = Outcome.panic ∧
    (StartAggregation exampleStub widerSoftWorld 1).1 =
      Outcome.ok "hard@1:107,2,1,3,4,2,3,4,1,6,108,2,6,7,1,108,9,2,9,107,1,11,12,2,107,2,2,107,3,4,5,6" := by
  decide

end FedLearn
